import Mathlib

/-!
# Person / trip-chain role switching (dev/Basic/shared/entities/Person.cpp)

A shallow embedding of `sim_mob::Person`: the trip-chain cursors
(`getNextSubTripInTrip`, `findNextItemInTripChain`), the role switch
(`checkAndReactToTripChain`, `changeRole`), the per-tick `update` and `load`;
of the periodic person loader (dev/Basic/shared/entities/PersonLoader.cpp)
with its time-window helpers; of the bus stop agent
(dev/Basic/medium/entities/busStopAgent/BusStopAgent.cpp); of the dispatch of
the taxi fleet (dev/Basic/shared/entities/FleetManager.cpp); of the voting of
a split plan (dev/Basic/short/entities/signal/SplitPlan.cpp); of the
instantaneous messages of the message bus
(dev/Basic/shared/message/MessageBus.hpp); and of the load and the tagging of
nodes of the AIMSUN loader (dev/Basic/geospatial/aimsun/Loader.cpp).

Conventions of the embedding

* A `TripChainItem*` is an address (`Nat`); `mem` dereferences it. The trip
  chain is the vector of such addresses, and `std::find` over it compares
  addresses, as in the source.
* `currSubTrip` points into the sub-trip vector of an immutable trip; the
  source only ever dereferences it or tests it against `nullptr`, so it is
  kept as the pointee (`Option SubTrip`).
* `Role*` is an address into `roleHeap`; a slot holds `none` once the object
  has been deleted. `new` takes the next slot.
* A C++ call either returns, throws `std::runtime_error`, or has undefined
  behaviour (null / dangling dereference, `front()` of an empty vector):
  `Exec.ok`, `Exec.thrown`, `Exec.undef`, each with the state reached.
* `unsigned int` arithmetic is taken modulo `2 ^ 32`.
-/

namespace sim_mob

/-- Outcome of running a piece of C++ on a state of type `σ`. -/
inductive Exec (σ α : Type) where
  | ok (a : α) (s : σ)
  | thrown (what : String) (s : σ)
  | undef (s : σ)
  deriving DecidableEq, Repr

namespace Exec

/-- The state reached, whatever the outcome. -/
def state {σ α : Type} : Exec σ α → σ
  | ok _ s => s
  | thrown _ s => s
  | undef s => s

/-- Sequencing: the continuation runs only after a normal return. -/
def bind {σ α β : Type} (x : Exec σ α) (f : α → σ → Exec σ β) : Exec σ β :=
  match x with
  | ok a s => f a s
  | thrown w s => thrown w s
  | undef s => undef s

end Exec

/-- The fields of `sim_mob::SubTrip` that `MakePseudoTrip` fills in
(locations are `Node*`, `none` being `nullptr`). -/
structure SubTrip where
  entityID : Int
  sequenceNumber : Nat
  startTime : Nat
  endTime : Nat
  tripID : Int
  fromLocation : Option Nat
  toLocation : Option Nat
  mode : String
  isPrimaryMode : Bool
  ptLineId : String
  deriving DecidableEq, Repr

/-- The fields of `sim_mob::Trip` with its ordered sub-trips. -/
structure Trip where
  entityID : Int
  sequenceNumber : Nat
  startTime : Nat
  endTime : Nat
  tripID : Int
  fromLocation : Option Nat
  toLocation : Option Nat
  subTrips : List SubTrip
  deriving DecidableEq, Repr

/-- The part of `sim_mob::Activity` that `Person` reads: its location node. -/
structure Activity where
  entityID : Int
  sequenceNumber : Nat
  location : Option Nat
  deriving DecidableEq, Repr

/-- A trip-chain item with its dynamic type. `other` stands for any
`itemType` tag that is neither `IT_TRIP` nor `IT_ACTIVITY` (the source keeps
an `else` branch for it). -/
inductive TripChainItem where
  | trip (t : Trip)
  | activity (a : Activity)
  | other (tag : Nat)
  deriving DecidableEq, Repr

/-- Dynamic type of a role object. `other` covers the roles that are not
created by the trip-chain switch (Driver, BusDriver, ...). -/
inductive RoleKind where
  | Pedestrian
  | ActivityPerformer (a : Activity)
  | other (tag : Nat)
  deriving DecidableEq, Repr

/-- A role object: its dynamic type, the parent `Person*` (the id of the
person stands for its address) and what `getSubscriptionParams` returns. -/
structure Role where
  kind : RoleKind
  parent : Option Nat
  subscriptionParams : List Nat
  deriving DecidableEq, Repr

/-- The enum `UpdateStatus::RET_STATUS`. -/
inductive RET_STATUS where
  | RS_CONTINUE
  | RS_DONE
  deriving DecidableEq, Repr

/-- Modelled from the spec: `Entity::UpdateStatus` is declared outside the
sources at hand; following section 4.5 it is a transition status carrying the
old and the new subscription lists, here the two vectors its constructor is
given. -/
structure UpdateStatus where
  status : RET_STATUS
  oldParams : List Nat
  newParams : List Nat
  deriving DecidableEq, Repr

/-- The constant `UpdateStatus::Continue`. -/
def UpdateStatus.Continue : UpdateStatus := ⟨RET_STATUS.RS_CONTINUE, [], []⟩

/-- The constant `UpdateStatus::Done`. -/
def UpdateStatus.Done : UpdateStatus := ⟨RET_STATUS.RS_DONE, [], []⟩

/-- What `Person` reads from `ConfigParams`, together with the subscription
cells that the constructors of the two roles built in `Person.cpp` register
(the role classes themselves are outside the sources at hand). -/
structure ConfigParams where
  baseGranMS : Nat
  dynamicDispatchDisabled : Bool
  pedestrianParams : List Nat
  activityPerformerParams : Activity → List Nat

/-- The state of a `Person` (with the `Agent` fields it uses) and the heap of
role objects its two role pointers refer to. -/
structure Person where
  id : Nat
  startTime : Nat
  toBeRemoved : Bool
  originNode : Option Nat
  destNode : Option Nat
  tripChain : List Nat
  currTripChainItem : Option Nat
  currSubTrip : Option SubTrip
  currRole : Option Nat
  prevRole : Option Nat
  firstFrameTick : Bool
  roleHeap : List (Option Role)
  deriving DecidableEq, Repr

/-- The idiom `it = std::find(begin, end, x); res = nullptr;
if (it != end && ++it != end) res = *it;` with `isX` the test against `x`. -/
def nextAfter {α : Type} (isX : α → Bool) : List α → Option α
  | [] => none
  | y :: ys => if isX y then ys.head? else nextAfter isX ys

/-- Dereference of a `Role*`: `none` for `nullptr` and for a deleted object. -/
def Person.roleAt (p : Person) (ptr : Option Nat) : Option Role :=
  match ptr with
  | none => none
  | some a => (p.roleHeap.get? a).join

/-- The call `ptr->setParent(parent)` on the heap; `none` when `ptr` dangles. -/
def setParent (heap : List (Option Role)) (a : Nat) (parent : Option Nat) :
    Option (List (Option Role)) :=
  match (heap.get? a).join with
  | none => none
  | some r => some (heap.set a (some { r with parent := parent }))

/-- The call `safe_delete_item(ptr)` on the heap: nothing for `nullptr`,
`delete` otherwise (`none` when the object is not alive). -/
def safe_delete_item (heap : List (Option Role)) (ptr : Option Nat) :
    Option (List (Option Role)) :=
  match ptr with
  | none => some heap
  | some a =>
    match (heap.get? a).join with
    | none => none
    | some _ => some (heap.set a none)

/-- Person::getNextSubTripInTrip (Person.cpp 174-199). `eqS a b` is
`operator==(a, b)` on `SubTrip`, which is defined outside the sources at
hand. -/
def Person.getNextSubTripInTrip (mem : Nat → TripChainItem)
    (eqS : SubTrip → SubTrip → Bool) (p : Person) : Exec Person Unit :=
  match p.currTripChainItem with
  | none => .ok () { p with currSubTrip := none }
  | some ptr =>
    match mem ptr with
    | .activity _ => .ok () { p with currSubTrip := none }
    | .trip currTrip =>
      match p.currSubTrip with
      | none =>
        match currTrip.subTrips with
        | [] => .undef p
        | s :: _ => .ok () { p with currSubTrip := some s }
      | some cur =>
        .ok () { p with currSubTrip := nextAfter (fun s => eqS s cur) currTrip.subTrips }
    | .other _ => .thrown "Invalid trip chain item type!" p

/-- Person::findNextItemInTripChain (Person.cpp 201-219). -/
def Person.findNextItemInTripChain (mem : Nat → TripChainItem)
    (eqS : SubTrip → SubTrip → Bool) (p : Person) : Exec Person Unit :=
  match p.currTripChainItem with
  | none =>
    match p.tripChain with
    | [] => .undef p
    | first :: _ =>
      Person.getNextSubTripInTrip mem eqS { p with currTripChainItem := some first }
  | some ptr =>
    Person.getNextSubTripInTrip mem eqS
      { p with currTripChainItem := nextAfter (fun q => q == ptr) p.tripChain }

/-- Person::changeRole (Person.cpp 420-430). -/
def Person.changeRole (newRole : Option Nat) (p : Person) : Exec Person Unit :=
  let detached :=
    match p.currRole with
    | none => some p.roleHeap
    | some a => setParent p.roleHeap a none
  match detached with
  | none => .undef p
  | some h1 =>
    let p1 := { p with roleHeap := h1, currRole := newRole }
    match newRole with
    | none => .ok () p1
    | some b =>
      match setParent h1 b (some p.id) with
      | none => .undef p1
      | some h2 => .ok () { p1 with roleHeap := h2 }

/-- The first block of checkAndReactToTripChain (Person.cpp 351-355): advance
the sub-trip cursor and, when it is exhausted, the item cursor. -/
def Person.advanceCursors (mem : Nat → TripChainItem)
    (eqS : SubTrip → SubTrip → Bool) (p : Person) : Exec Person Unit :=
  (Person.getNextSubTripInTrip mem eqS p).bind fun _ p1 =>
    if p1.currSubTrip = none then Person.findNextItemInTripChain mem eqS p1
    else .ok () p1

/-- The expression `new R(this)` followed by `changeRole`: the object takes
the next heap slot. -/
def Person.installRole (r : Role) (p : Person) : Exec Person Unit :=
  Person.changeRole (some p.roleHeap.length)
    { p with roleHeap := p.roleHeap ++ [some r] }

/-- The last block of checkAndReactToTripChain (Person.cpp 391-403). -/
def Person.finishRoleChange (cfg : ConfigParams) (currTimeMS : Nat) (p : Person) :
    Exec Person UpdateStatus :=
  match p.roleAt p.prevRole, p.roleAt p.currRole with
  | some prev, some curr =>
    .ok ⟨RET_STATUS.RS_CONTINUE, prev.subscriptionParams, curr.subscriptionParams⟩
      { p with
        startTime := (currTimeMS + cfg.baseGranMS) % 2 ^ 32
        firstFrameTick := true
        toBeRemoved := false }
  | _, _ => .undef p

/-- The part of checkAndReactToTripChain after the cursors have moved
(Person.cpp 357-403): return `Done` without an item, otherwise retire the
previous role, build the role of the current item and report the change. -/
def Person.reactToCurrentItem (cfg : ConfigParams) (mem : Nat → TripChainItem)
    (currTimeMS : Nat) (p2 : Person) : Exec Person UpdateStatus :=
  match p2.currTripChainItem with
  | none => .ok UpdateStatus.Done p2
  | some ptr =>
    match safe_delete_item p2.roleHeap p2.prevRole with
    | none => .undef p2
    | some h =>
      let p3 := { p2 with roleHeap := h, prevRole := p2.currRole }
      match mem ptr with
      | .trip _ =>
        match p3.currSubTrip with
        | none => .undef p3
        | some st =>
          if st.mode = "Car" then
            .thrown "Cars not supported in Trip Chain role change." p3
          else if st.mode = "Walk" then
            (Person.installRole ⟨RoleKind.Pedestrian, some p3.id, cfg.pedestrianParams⟩ p3).bind
              fun _ p4 =>
                Person.finishRoleChange cfg currTimeMS
                  { p4 with originNode := st.fromLocation, destNode := st.toLocation }
          else
            .thrown "Unknown role type for trip chain role change." p3
      | .activity currActivity =>
        (Person.installRole
          ⟨RoleKind.ActivityPerformer currActivity, some p3.id,
            cfg.activityPerformerParams currActivity⟩ p3).bind
          fun _ p4 =>
            Person.finishRoleChange cfg currTimeMS
              { p4 with originNode := currActivity.location, destNode := currActivity.location }
      | .other _ => .thrown "Unknown item type in trip chain" p3

/-- Person::checkAndReactToTripChain (Person.cpp 350-404). -/
def Person.checkAndReactToTripChain (cfg : ConfigParams) (mem : Nat → TripChainItem)
    (eqS : SubTrip → SubTrip → Bool) (currTimeMS : Nat) (p : Person) :
    Exec Person UpdateStatus :=
  (Person.advanceCursors mem eqS p).bind fun _ p2 =>
    Person.reactToCurrentItem cfg mem currTimeMS p2

/-- The three per-tick hooks of a role that `Person::update` calls. -/
inductive Hook where
  | frame_init
  | frame_tick
  | frame_tick_output
  deriving DecidableEq, Repr

/-- The behaviour of the virtual hooks of the current role, as functions of
the frame number, the current time and the person they are called on. A hook
may change the person (typically it sets the removal flag), may throw, and
may be undefined (for instance on a person without role). -/
structure RoleHooks where
  frame_init : Nat → Nat → Person → Exec Person Unit
  frame_tick : Nat → Nat → Person → Exec Person Unit
  frame_tick_output : Nat → Nat → Person → Exec Person Unit

/-- A run of `update`: the person and the hooks invoked so far, in order. -/
structure Run where
  person : Person
  calls : List Hook
  deriving DecidableEq, Repr

/-- Invocation of one hook on the current role, recorded in the call list. -/
def callHook (h : Hook) (f : Person → Exec Person Unit) (r : Run) : Exec Run Unit :=
  match f r.person with
  | .ok _ q => .ok () ⟨q, r.calls ++ [h]⟩
  | .thrown w q => .thrown w ⟨q, r.calls ++ [h]⟩
  | .undef q => .undef ⟨q, r.calls ++ [h]⟩

/-- A `Person` member function run inside `update`: the call list is kept. -/
def liftPerson {α : Type} (f : Person → Exec Person α) (r : Run) : Exec Run α :=
  match f r.person with
  | .ok a q => .ok a ⟨q, r.calls⟩
  | .thrown w q => .thrown w ⟨q, r.calls⟩
  | .undef q => .undef ⟨q, r.calls⟩

/-- The value `frameNumber * baseGranMS` stored in an `unsigned int`
(Person.cpp 240). -/
def currTimeMS (cfg : ConfigParams) (frameNumber : Nat) : Nat :=
  (frameNumber * cfg.baseGranMS) % 2 ^ 32

/-- The message built at Person.cpp 248-251. -/
def Person.earlyUpdateMsg (p : Person) (c : Nat) : String :=
  "Agent(" ++ toString p.id ++ ") specifies a start time of: " ++ toString p.startTime ++
    " but it is currently: " ++ toString c ++
    "; this indicates an error, and should be handled automatically."

/-- The message built at Person.cpp 271-274. -/
def Person.startMissedMsg (p : Person) (c : Nat) : String :=
  "Agent was not started within one timespan of its requested start time." ++
    "\nStart was: " ++ toString p.startTime ++ ",  Curr time is: " ++ toString c ++ "\n" ++
    "Agent ID: " ++ toString p.id ++ "\n"

/-- First-frame block of `update` (Person.cpp 266-284).
`abs(currTimeMS - getStartTime())` is the absolute difference of the two
times. -/
def Person.updateFirstFrame (cfg : ConfigParams) (hooks : RoleHooks)
    (frameNumber c : Nat) (r : Run) : Exec Run Unit :=
  if r.person.firstFrameTick then
    if !cfg.dynamicDispatchDisabled ∧
        Int.natAbs ((c : Int) - (r.person.startTime : Int)) ≥ cfg.baseGranMS then
      .thrown (r.person.startMissedMsg c) r
    else
      (callHook Hook.frame_init (hooks.frame_init frameNumber c) r).bind fun _ r1 =>
        .ok () { r1 with person := { r1.person with firstFrameTick := false } }
  else .ok () r

/-- Main tick of `update` (Person.cpp 286-292). -/
def Person.updateTick (hooks : RoleHooks) (frameNumber c : Nat) (r : Run) : Exec Run Unit :=
  if !r.person.toBeRemoved then callHook Hook.frame_tick (hooks.frame_tick frameNumber c) r
  else .ok () r

/-- Output step of `update` (Person.cpp 294-299). -/
def Person.updateOutput (hooks : RoleHooks) (frameNumber c : Nat) (r : Run) : Exec Run Unit :=
  if !r.person.toBeRemoved then
    callHook Hook.frame_tick_output (hooks.frame_tick_output frameNumber c) r
  else .ok () r

/-- The three hook blocks of `update` in sequence (Person.cpp 266-299). -/
def Person.updateHooks (cfg : ConfigParams) (hooks : RoleHooks) (frameNumber c : Nat)
    (r : Run) : Exec Run Unit :=
  (Person.updateFirstFrame cfg hooks frameNumber c r).bind fun _ r1 =>
    (Person.updateTick hooks frameNumber c r1).bind fun _ r2 =>
      Person.updateOutput hooks frameNumber c r2

/-- Trip-chain block of `update` (Person.cpp 301-306): the value of `retVal`
afterwards. -/
def Person.updateReact (cfg : ConfigParams) (mem : Nat → TripChainItem)
    (eqS : SubTrip → SubTrip → Bool) (c : Nat) (r : Run) : Exec Run UpdateStatus :=
  if r.person.toBeRemoved then
    liftPerson (Person.checkAndReactToTripChain cfg mem eqS c) r
  else .ok UpdateStatus.Continue r

/-- How control leaves the `try` block of `update`: by one of its `return`
statements, or by reaching its end with the value of `retVal`. -/
inductive TryExit where
  | returned (st : UpdateStatus)
  | fellThrough (retVal : UpdateStatus)
  deriving DecidableEq, Repr

/-- The `try` block of `update` (Person.cpp 239-314).
`make_frame_tick_params` only needs the current role to be a live object. -/
def Person.updateTry (cfg : ConfigParams) (hooks : RoleHooks) (mem : Nat → TripChainItem)
    (eqS : SubTrip → SubTrip → Bool) (frameNumber : Nat) (r : Run) : Exec Run TryExit :=
  let c := currTimeMS cfg frameNumber
  match r.person.roleAt r.person.currRole with
  | none => .undef r
  | some _ =>
    if c < r.person.startTime then
      if !cfg.dynamicDispatchDisabled then
        .thrown (r.person.earlyUpdateMsg c) r
      else .ok (TryExit.returned UpdateStatus.Continue) r
    else if r.person.toBeRemoved then
      if !cfg.dynamicDispatchDisabled then
        .thrown "Agent is already done, but hasn't been removed." r
      else .ok (TryExit.returned UpdateStatus.Continue) r
    else
      (Person.updateHooks cfg hooks frameNumber c r).bind fun _ r3 =>
        (Person.updateReact cfg mem eqS c r3).bind fun retVal r4 =>
          .ok (TryExit.fellThrough retVal) r4

/-- Agent::setToBeRemoved on the person of a run. -/
def Run.setToBeRemoved (r : Run) : Run :=
  { r with person := { r.person with toBeRemoved := true } }

/-- The tail of `update` (Person.cpp 337-346): the status becomes `RS_DONE`
when the person is flagged for removal. -/
def Person.updateReturn (retVal : UpdateStatus) (r : Run) : Exec Run UpdateStatus :=
  if r.person.toBeRemoved then .ok { retVal with status := RET_STATUS.RS_DONE } r
  else .ok retVal r

/-- Person::update (Person.cpp 221-347) in the default build, where
`SIMMOB_STRICT_AGENT_ERRORS` is not defined and the `catch` clause is
compiled in. -/
def Person.update (cfg : ConfigParams) (hooks : RoleHooks) (mem : Nat → TripChainItem)
    (eqS : SubTrip → SubTrip → Bool) (frameNumber : Nat) (p : Person) :
    Exec Run UpdateStatus :=
  match Person.updateTry cfg hooks mem eqS frameNumber ⟨p, []⟩ with
  | .ok (TryExit.returned st) r => .ok st r
  | .ok (TryExit.fellThrough retVal) r => Person.updateReturn retVal r
  | .thrown _ r => Person.updateReturn UpdateStatus.Continue r.setToBeRemoved
  | .undef r => .undef r

/-! ## Predicates used in the statements -/

/-- Sound role pointers: the current role `rc` is the live object `r0`, and
the previous role is null or another live object. -/
def Person.rolesSound (p : Person) (rc : Nat) (r0 : Role) : Prop :=
  p.currRole = some rc ∧ p.roleHeap[rc]? = some (some r0) ∧
  (p.prevRole = none ∨
    ∃ rp rr, p.prevRole = some rp ∧ rp ≠ rc ∧ p.roleHeap[rp]? = some (some rr))

/-- What the item at `ptr` asks for once the cursors of `p2` are on it: the
role to build and the new origin / destination. -/
def Person.demand (cfg : ConfigParams) (mem : Nat → TripChainItem) (p2 : Person) (ptr : Nat)
    (newR : Role) (o d : Option Nat) : Prop :=
  (∃ a, mem ptr = .activity a ∧
      newR = ⟨RoleKind.ActivityPerformer a, some p2.id, cfg.activityPerformerParams a⟩ ∧
      o = a.location ∧ d = a.location) ∨
  (∃ t st, mem ptr = .trip t ∧ p2.currSubTrip = some st ∧ st.mode = "Walk" ∧
      newR = ⟨RoleKind.Pedestrian, some p2.id, cfg.pedestrianParams⟩ ∧
      o = st.fromLocation ∧ d = st.toLocation)

/-- The element that `std::find` stops at is the last one of the vector. -/
def firstMatchIsLast {α : Type} (isX : α → Bool) (l : List α) : Prop :=
  l.findIdx isX + 1 = l.length

instance {α : Type} (isX : α → Bool) (l : List α) : Decidable (firstMatchIsLast isX l) :=
  inferInstanceAs (Decidable (l.findIdx isX + 1 = l.length))

/-- Every item in memory is an Activity or a Trip with at least one
sub-trip. -/
def wellFormedItems (mem : Nat → TripChainItem) : Prop :=
  ∀ ptr, (∃ a, mem ptr = .activity a) ∨ (∃ t, mem ptr = .trip t ∧ t.subTrips ≠ [])

/-- The guards at the head of `update` let the person through at time `c`:
it has a live role, its start time has come and it is not flagged. -/
def Person.passesGuards (p : Person) (c : Nat) : Prop :=
  (∃ r0, p.roleAt p.currRole = some r0) ∧ p.startTime ≤ c ∧ p.toBeRemoved = false

/-- Sub-trip equality used in the examples: all fields equal. -/
def exEq : SubTrip → SubTrip → Bool := fun a b => a == b

/-- A walking sub-trip from node 10 to node 20. -/
def exWalk : SubTrip := ⟨7, 1, 0, 0, 0, some 10, some 20, "Walk", true, ""⟩

/-- The same sub-trip by car. -/
def exCar : SubTrip := { exWalk with mode := "Car" }

/-- The same sub-trip by bus. -/
def exBus : SubTrip := { exWalk with mode := "Bus" }

/-- An activity at node 20. -/
def exActivity : Activity := ⟨7, 2, some 20⟩

/-- Memory: item 1 is the walking trip, item 3 a car trip, item 4 a bus
trip, every other address the activity. -/
def exMem : Nat → TripChainItem := fun a =>
  if a = 1 then .trip ⟨7, 1, 0, 0, 0, some 10, some 20, [exWalk]⟩
  else if a = 3 then .trip ⟨7, 1, 0, 0, 0, some 10, some 20, [exCar]⟩
  else if a = 4 then .trip ⟨7, 1, 0, 0, 0, some 10, some 20, [exBus]⟩
  else .activity exActivity

/-- Configuration with 100 ms ticks and dynamic dispatch enabled. -/
def exCfg : ConfigParams := ⟨100, false, [1, 2], fun _ => [3]⟩

/-- Configuration with 100 ms ticks and dynamic dispatch disabled. -/
def exCfgNoDispatch : ConfigParams := ⟨100, true, [1, 2], fun _ => [3]⟩

/-- The pedestrian role object of the sample person. -/
def exRole : Role := ⟨RoleKind.Pedestrian, some 7, [1, 2]⟩

/-- Person 7 walking the trip (item 1) of the chain [1, 2], flagged for
removal by its role, with its role object at address 0. -/
def exWalker : Person :=
  ⟨7, 0, true, some 10, some 20, [1, 2], some 1, some exWalk, some 0, none, false,
    [some exRole]⟩

/-- Person 7 performing the final activity (item 2) of the chain [1, 2]. -/
def exAtEnd : Person :=
  ⟨7, 0, true, some 20, some 20, [1, 2], some 2, none, some 0, none, false, [some exRole]⟩

/-- The sample walker one role later: the role it had before (a driver
role at address 0) is still held as previous role, the pedestrian role is at
address 1. -/
def exWalkerWithPrev : Person :=
  ⟨7, 0, true, some 10, some 20, [1, 2], some 1, some exWalk, some 1, some 0, false,
    [some ⟨RoleKind.other 0, none, [9]⟩, some exRole]⟩

/-- The sample walker scheduled for 1000 ms and not flagged for removal. -/
def exLate : Person := { exWalker with startTime := 1000, toBeRemoved := false }

/-- The sample walker, not flagged, before its first frame tick. -/
def exFresh : Person := { exWalker with toBeRemoved := false, firstFrameTick := true }

/-- Hooks of a role whose tick throws. -/
def exThrowingHooks : RoleHooks :=
  ⟨fun _ _ p => .ok () p, fun _ _ p => .thrown "tick failed" p, fun _ _ p => .ok () p⟩

/-- Hooks of a role that never asks for removal. -/
def exQuietHooks : RoleHooks :=
  ⟨fun _ _ p => .ok () p, fun _ _ p => .ok () p, fun _ _ p => .ok () p⟩

/-- Hooks of a role whose tick sets the removal flag and does nothing else. -/
def exHooks : RoleHooks :=
  ⟨fun _ _ p => .ok () p, fun _ _ p => .ok () { p with toBeRemoved := true },
    fun _ _ p => .ok () p⟩

/-! ## Time windows of the periodic person loader
(dev/Basic/shared/entities/PersonLoader.cpp)

The windows are `double`s of the form `k + 0.25` and `k + 0.75` with small
`k`; these and the sums and differences formed from them are exact in binary
floating point, so they are embedded as rationals. -/

/-- The constant `DEFAULT_LOAD_INTERVAL` (PersonLoader.cpp 32). -/
def DEFAULT_LOAD_INTERVAL : ℚ := 0.5

/-- The constant `LAST_30MIN_WINDOW_OF_DAY` (PersonLoader.cpp 34). -/
def LAST_30MIN_WINDOW_OF_DAY : ℚ := 26.75

/-- The constant `TWENTY_FOUR_HOURS` (PersonLoader.cpp 35). -/
def TWENTY_FOUR_HOURS : ℚ := 24.0

/-- The constant `HOME_ACTIVITY_TYPE` (PersonLoader.cpp 36). -/
def HOME_ACTIVITY_TYPE : String := "Home"

/-- The constant `SECONDS_IN_ONE_HOUR` (PersonLoader.cpp 37). -/
def SECONDS_IN_ONE_HOUR : Nat := 3600

/-- The function getHalfHourWindow (PersonLoader.cpp 60-68); `time` is a
`uint32_t` number of seconds, and no operation on it can wrap. -/
def getHalfHourWindow (time : Nat) : ℚ :=
  let hour := time / SECONDS_IN_ONE_HOUR
  let remainder := time % SECONDS_IN_ONE_HOUR
  let minutes := remainder / 60
  let hour := if hour < 3 then hour + 24 else hour
  if minutes < 30 then (hour : ℚ) + 0.25 else (hour : ℚ) + 0.75

/-- Conversion of a `double` to `int`: truncation toward zero. -/
def truncToInt (x : ℚ) : Int := if 0 ≤ x then ⌊x⌋ else ⌈x⌉

/-- The three numbers that getRandomTimeInWindow prints. -/
structure ClockTime where
  hour : Int
  minute : Int
  second : Int
  deriving DecidableEq, Repr

/-- The time read as seconds since midnight. -/
def ClockTime.toSeconds (t : ClockTime) : Int := t.hour * 3600 + t.minute * 60 + t.second

/-- Modelled from the spec: `Utils::generateInt(a, b)` is defined outside the
sources at hand; it returns any integer from `a` to `b` inclusive. A
generator is a function of the number of the call and the two bounds, and
this is the condition that each of its values lies within the bounds. -/
def generateIntInRange (generateInt : Nat → Int → Int → Int) : Prop :=
  ∀ i a b, a ≤ b → a ≤ generateInt i a b ∧ generateInt i a b ≤ b

/-- The numbers computed by getRandomTimeInWindow (PersonLoader.cpp 80-86).
`generateInt 0` is the first call of `Utils::generateInt`, `generateInt 1`
the second. -/
def getRandomTimeInWindow.fields (generateInt : Nat → Int → Int → Int) (mid : ℚ)
    (firstFifteenMins : Bool) : ClockTime :=
  let hour : Int := ⌊mid⌋
  let min : Int := 0
  let max : Int := if firstFifteenMins then 14 else 29
  let minute : Int :=
    truncToInt ((generateInt 0 min max : ℚ) + (mid - (hour : ℚ) - 0.25) * 60)
  let second : Int := generateInt 1 0 60
  ⟨hour.tmod 24, minute, second⟩

/-- Output of an `int` preceded by "0" when it is below 10
(PersonLoader.cpp 87-92). -/
def getRandomTimeInWindow.twoDigits (n : Int) : String :=
  (if n < 10 then "0" else "") ++ toString n

/-- The function getRandomTimeInWindow (PersonLoader.cpp 79-94): the time in
HH24:MI:SS format. -/
def getRandomTimeInWindow (generateInt : Nat → Int → Int → Int) (mid : ℚ)
    (firstFifteenMins : Bool) : String :=
  let t := getRandomTimeInWindow.fields generateInt mid firstFifteenMins
  getRandomTimeInWindow.twoDigits t.hour ++ ":" ++
    getRandomTimeInWindow.twoDigits t.minute ++ ":" ++
    getRandomTimeInWindow.twoDigits t.second

/-- A generator that always returns the upper bound. -/
def exGenerateMax : Nat → Int → Int → Int := fun _ _ b => b

/-! ## Person::load (dev/Basic/shared/entities/Person.cpp 27-124) -/

/-- A `Person` object in full: the state used by `update` together with the
members that only `load` and the loaders touch. -/
structure PersonObject where
  core : Person
  entityTripChain : List Nat
  specialStr : String
  nextPathPlanned : Bool
  configProperties : List (String × String)
  deriving DecidableEq, Repr

/-- The two functions of the road network and the parser that `load` calls;
both are defined outside the sources at hand. `locateNode` returns a `Node*`
(`none` being `nullptr`). -/
structure Network where
  parse_point : String → Int × Int
  locateNode : Int × Int → Option Nat

/-- The call `configProps.count(key)` on a `std::map`. -/
def mapCount (configProps : List (String × String)) (key : String) : Nat :=
  if (configProps.lookup key).isSome then 1 else 0

/-- The value `configProps[key]` of a `std::map`. -/
def mapAt (configProps : List (String × String)) (key : String) : String :=
  (configProps.lookup key).getD ""

/-- The function MakePseudoTrip (Person.cpp 27-64). The parameters `origin`
and `dest` are not used by the source: the locations are read from the
members `originNode` and `destNode` of the person `ag`. -/
def MakePseudoTrip (ag : Person) (_origin _dest : Option Nat) (mode : String) : Trip :=
  let res : Trip :=
    { entityID := (ag.id : Int)
      sequenceNumber := 1
      startTime := ag.startTime
      endTime := ag.startTime
      tripID := 0
      fromLocation := ag.originNode
      toLocation := ag.destNode
      subTrips := [] }
  let subTrip : SubTrip :=
    { entityID := -1
      sequenceNumber := 1
      startTime := res.startTime
      endTime := res.startTime
      fromLocation := res.fromLocation
      toLocation := res.toLocation
      tripID := 0
      mode := mode
      isPrimaryMode := true
      ptLineId := "" }
  { res with subTrips := res.subTrips ++ [subTrip] }

/-- Memory with the item `item` stored at the address `a`. -/
def memWith (mem : Nat → TripChainItem) (a : Nat) (item : TripChainItem) :
    Nat → TripChainItem :=
  fun x => if x = a then item else mem x

/-- A member function of `Person` run on the object. -/
def liftCore {α : Type} (f : Person → Exec Person α) (po : PersonObject) :
    Exec PersonObject α :=
  match f po.core with
  | .ok a q => .ok a { po with core := q }
  | .thrown w q => .thrown w { po with core := q }
  | .undef q => .undef { po with core := q }

/-- The condition under which `load` builds a pseudo trip: the mode is given,
both positions are given, and the person has neither a trip chain nor an
origin or destination node. -/
def Person.makesPseudoTrip (configProps : List (String × String)) (po : PersonObject) : Prop :=
  mapCount configProps "#mode" ≠ 0 ∧
    mapCount configProps "originPos" > 0 ∧ mapCount configProps "destPos" > 0 ∧
    po.entityTripChain = [] ∧ po.core.originNode = none ∧ po.core.destNode = none

instance (configProps : List (String × String)) (po : PersonObject) :
    Decidable (Person.makesPseudoTrip configProps po) :=
  inferInstanceAs (Decidable (_ ∧ _ ∧ _ ∧ _ ∧ _ ∧ _))

/-- The trip that `load` builds from the configuration (Person.cpp 104-106). -/
def Person.pseudoTrip (net : Network) (configProps : List (String × String))
    (po : PersonObject) : Trip :=
  let originNode := net.locateNode (net.parse_point (mapAt configProps "originPos"))
  let destNode := net.locateNode (net.parse_point (mapAt configProps "destPos"))
  MakePseudoTrip po.core originNode destNode (mapAt configProps "#mode")

/-- Person::load (Person.cpp 81-124). The trip made by `new Trip()` is put at
the address `fresh`; `setTripChain`, declared outside the sources at hand, is
taken to store the vector in `tripChain`. -/
def Person.load (net : Network) (mem : Nat → TripChainItem) (eqS : SubTrip → SubTrip → Bool)
    (fresh : Nat) (configProps : List (String × String)) (po : PersonObject) :
    Exec PersonObject Unit :=
  if mapCount configProps "#mode" = 0 then
    .thrown "Cannot load person: no mode" po
  else if mapCount configProps "originPos" ≠ mapCount configProps "destPos" then
    .thrown "Agent must specify both originPos and destPos, or neither." po
  else
    (if mapCount configProps "originPos" > 0 ∧ mapCount configProps "destPos" > 0 then
      if po.entityTripChain ≠ [] then
        .thrown "Manual position specified for Agent with existing Trip Chain." po
      else if po.core.originNode ≠ none ∨ po.core.destNode ≠ none then
        .thrown "Manual position specified for Agent with existing Trip Chain." po
      else
        let singleTrip := Person.pseudoTrip net configProps po
        liftCore (Person.findNextItemInTripChain (memWith mem fresh (.trip singleTrip)) eqS)
          { po with
            core :=
              { po.core with
                originNode := singleTrip.fromLocation
                destNode := singleTrip.toLocation
                tripChain := [fresh] }
            nextPathPlanned := false }
    else .ok () po).bind fun _ po1 =>
      if mapCount configProps "special" > 0 then
        .ok () { po1 with specialStr := mapAt configProps "special" }
      else .ok () po1

/-- The memory of trip-chain items after `load`: the pseudo trip, when one is
built, is the item at `fresh`. -/
def Person.loadMem (net : Network) (mem : Nat → TripChainItem) (fresh : Nat)
    (configProps : List (String × String)) (po : PersonObject) : Nat → TripChainItem :=
  if Person.makesPseudoTrip configProps po then
    memWith mem fresh (.trip (Person.pseudoTrip net configProps po))
  else mem

/-! ## PeriodicPersonLoader (dev/Basic/shared/entities/PersonLoader.cpp) -/

/-- The members of `PeriodicPersonLoader`. `activeAgents` is a
`std::set<Entity*>`, kept as a duplicate-free list of addresses;
`pendingAgents` is the priority queue, kept as the list of the addresses
pushed (its order carries no meaning). -/
structure PeriodicPersonLoader where
  activeAgents : List Nat
  pendingAgents : List Nat
  dataLoadInterval : ℚ
  elapsedTimeSinceLastLoad : ℚ
  nextLoadStart : ℚ
  storedProcName : String
  deriving DecidableEq

/-- PeriodicPersonLoader::addOrStashPerson (PersonLoader.cpp 222-236) for the
person object `p` at address `ptr`; `load` is `Person::load`. -/
def PeriodicPersonLoader.addOrStashPerson
    (load : List (String × String) → PersonObject → Exec PersonObject Unit) (ptr : Nat)
    (L : PeriodicPersonLoader) (p : PersonObject) :
    Exec (PeriodicPersonLoader × PersonObject) Unit :=
  if p.core.startTime = 0 then
    match load p.configProperties p with
    | .ok _ p1 =>
      .ok () ({ L with activeAgents := L.activeAgents.insert ptr },
        { p1 with configProperties := [] })
    | .thrown w p1 => .thrown w (L, p1)
    | .undef p1 => .undef (L, p1)
  else .ok () ({ L with pendingAgents := ptr :: L.pendingAgents }, p)

/-- One row of the `day_activity_schedule` result, by column index:
0 personId, 1 tourNo, 3 stopNo, 4 activityType, 5 destNode, 6 mode,
7 isPrimaryMode, 8 activityArrivalWindow, 9 activityDepartureWindow,
10 originNode, 11 tripStartWindow. -/
structure Row where
  personId : String
  tourNo : Int
  stopNo : Int
  activityType : String
  destNode : Int
  mode : String
  isPrimaryMode : Int
  arrivalWindow : ℚ
  departureWindow : ℚ
  originNode : Int
  tripStartWindow : ℚ
  deriving DecidableEq

/-- The members of `sim_mob::SubTrip` that makeSubTrip fills in
(PersonLoader.cpp 253-263); locations are way points on a `Node*`. -/
structure das.SubTrip where
  personID : String
  tripID : String
  fromLocation : Option Nat
  toLocation : Option Nat
  mode : String
  isPrimaryMode : Bool
  startTime : String
  deriving DecidableEq, Repr

/-- The members of `sim_mob::Trip` that makeTrip fills in
(PersonLoader.cpp 289-298). -/
structure das.Trip where
  sequenceNumber : Nat
  tripID : String
  personID : String
  fromLocation : Option Nat
  toLocation : Option Nat
  startTime : String
  subTrips : List das.SubTrip
  deriving DecidableEq, Repr

/-- The members of `sim_mob::Activity` that makeActivity fills in
(PersonLoader.cpp 270-281). -/
structure das.Activity where
  personID : String
  sequenceNumber : Nat
  description : String
  isPrimary : Bool
  isFlexible : Bool
  isMandatory : Bool
  location : Nat
  startTime : String
  endTime : String
  deriving DecidableEq, Repr

/-- A trip-chain item built by the loader. -/
inductive das.TripChainItem where
  | trip (t : das.Trip)
  | activity (a : das.Activity)
  deriving DecidableEq, Repr

/-- What the loader takes from its surroundings, all defined outside the
sources at hand: `nodeOf` is the lookup of a node id in the road network
(`none` when the id is absent), `subTripNo` the default argument of
makeSubTrip, `rng n` the state of `Utils::generateInt` at the `n`-th call of
getRandomTimeInWindow, `newPerson` the constructor
`new Person("DAS_TripChain", mutexStrategy, chain)` returning the address and
the object, `load` is `Person::load`, and `query` the rows the database
returns for the stored procedure and the two window bounds. -/
structure LoaderEnv where
  nodeOf : Int → Option Nat
  subTripNo : Nat
  rng : Nat → Nat → Int → Int → Int
  newPerson : List das.TripChainItem → Nat × PersonObject
  load : List (String × String) → PersonObject → Exec PersonObject Unit
  query : String → ℚ → ℚ → List Row

/-- PeriodicPersonLoader::makeSubTrip (PersonLoader.cpp 249-265): the parent
trip with the sub-trip added; undefined when a node id is absent from the
network (`find(...)->second` on the end iterator). -/
def PeriodicPersonLoader.makeSubTrip (env : LoaderEnv) (r : Row) (parentTrip : das.Trip) :
    Exec Unit das.Trip :=
  match env.nodeOf r.originNode, env.nodeOf r.destNode with
  | some a, some b =>
    .ok { parentTrip with
          subTrips := parentTrip.subTrips ++
            [{ personID := r.personId
               tripID := parentTrip.tripID ++ "-" ++ toString env.subTripNo
               fromLocation := some a
               toLocation := some b
               mode := r.mode
               isPrimaryMode := decide (r.isPrimaryMode ≠ 0)
               startTime := parentTrip.startTime }] } ()
  | _, _ => .undef ()

/-- PeriodicPersonLoader::makeActivity (PersonLoader.cpp 267-283); `g1` and
`g2` are the generator states of its two calls of getRandomTimeInWindow. -/
def PeriodicPersonLoader.makeActivity (env : LoaderEnv) (g1 g2 : Nat → Int → Int → Int)
    (r : Row) (seqNo : Nat) : Exec Unit das.Activity :=
  match env.nodeOf r.destNode with
  | some b =>
    .ok { personID := r.personId
          sequenceNumber := seqNo
          description := r.activityType
          isPrimary := decide (r.isPrimaryMode ≠ 0)
          isFlexible := false
          isMandatory := true
          location := b
          startTime := getRandomTimeInWindow g1 r.arrivalWindow true
          endTime := getRandomTimeInWindow g2 r.departureWindow false } ()
  | none => .undef ()

/-- PeriodicPersonLoader::makeTrip (PersonLoader.cpp 285-307); the value
`none` is the `nullptr` returned when origin and destination coincide. -/
def PeriodicPersonLoader.makeTrip (env : LoaderEnv) (g : Nat → Int → Int → Int) (r : Row)
    (seqNo : Nat) : Exec Unit (Option das.Trip) :=
  let tripToSave : das.Trip :=
    { sequenceNumber := seqNo
      tripID := toString (r.tourNo * 100 + r.stopNo)
      personID := r.personId
      fromLocation := env.nodeOf r.originNode
      toLocation := env.nodeOf r.destNode
      startTime := getRandomTimeInWindow g r.tripStartWindow false
      subTrips := [] }
  if tripToSave.fromLocation = tripToSave.toLocation then .ok none ()
  else
    match PeriodicPersonLoader.makeSubTrip env r tripToSave with
    | .ok t _ => .ok (some t) ()
    | .thrown w _ => .thrown w ()
    | .undef _ => .undef ()

/-- The value `tripchains[personId]` of the `std::map` of trip chains. The
map is kept as an association list; the order of its entries is the order in
which they were created. -/
def mapGet (tripchains : List (String × List das.TripChainItem)) (personId : String) :
    List das.TripChainItem :=
  (tripchains.lookup personId).getD []

/-- The map after `tripchains[personId]` was evaluated: an absent key gets an
empty chain. -/
def mapTouch (tripchains : List (String × List das.TripChainItem)) (personId : String) :
    List (String × List das.TripChainItem) :=
  if (tripchains.lookup personId).isSome then tripchains else tripchains ++ [(personId, [])]

/-- The map after the chain at `personId` was replaced by `chain`. -/
def mapSet (tripchains : List (String × List das.TripChainItem)) (personId : String)
    (chain : List das.TripChainItem) : List (String × List das.TripChainItem) :=
  tripchains.map fun e => if e.1 = personId then (e.1, chain) else e

/-- The body of the loop over the rows (PersonLoader.cpp 189-199) for the
row number `i`, on the map of trip chains and the counter `actCtr`. -/
def PeriodicPersonLoader.addRow (env : LoaderEnv) (i : Nat) (r : Row)
    (st : List (String × List das.TripChainItem) × Nat) :
    Exec (List (String × List das.TripChainItem) × Nat) Unit :=
  let isLastInSchedule : Bool :=
    decide (r.departureWindow = LAST_30MIN_WINDOW_OF_DAY) &&
      decide (r.activityType = HOME_ACTIVITY_TYPE)
  let tripchains := mapTouch st.1 r.personId
  let personTripChain := mapGet tripchains r.personId
  let seqNo := personTripChain.length
  match PeriodicPersonLoader.makeTrip env (env.rng (3 * i)) r (seqNo + 1) with
  | .undef _ => .undef (tripchains, st.2)
  | .thrown w _ => .thrown w (tripchains, st.2)
  | .ok none _ => .ok () (tripchains, st.2)
  | .ok (some constructedTrip) _ =>
    if isLastInSchedule then
      .ok () (mapSet tripchains r.personId (personTripChain ++ [.trip constructedTrip]),
        st.2 + 1)
    else
      match PeriodicPersonLoader.makeActivity env (env.rng (3 * i + 1)) (env.rng (3 * i + 2)) r
          (seqNo + 2) with
      | .ok act _ =>
        .ok () (mapSet tripchains r.personId
          (personTripChain ++ [.trip constructedTrip, .activity act]), st.2 + 1)
      | .thrown w _ => .thrown w (mapSet tripchains r.personId
          (personTripChain ++ [.trip constructedTrip]), st.2)
      | .undef _ => .undef (mapSet tripchains r.personId
          (personTripChain ++ [.trip constructedTrip]), st.2)

/-- The loop over the rows (PersonLoader.cpp 187-200), from row number `i`. -/
def PeriodicPersonLoader.addRows (env : LoaderEnv) :
    Nat → List Row → List (String × List das.TripChainItem) × Nat →
      Exec (List (String × List das.TripChainItem) × Nat) Unit
  | _, [], st => .ok () st
  | i, r :: rs, st =>
    (PeriodicPersonLoader.addRow env i r st).bind fun _ st1 =>
      PeriodicPersonLoader.addRows env (i + 1) rs st1

/-- The constant `CellLoader::numThreads` (PersonLoader.cpp 154). -/
def CellLoader.numThreads : Nat := 20

/-- The work of one loader thread, `CellLoader::operator()`
(PersonLoader.cpp 108-127): the persons it keeps. -/
def CellLoader.run (newPerson : List das.TripChainItem → Nat × PersonObject)
    (tripChainList : List (List das.TripChainItem)) : List (Nat × PersonObject) :=
  tripChainList.filterMap fun personTripChain =>
    if personTripChain.isEmpty then none
    else
      let person := newPerson personTripChain
      if !person.2.core.tripChain.isEmpty then some person else none

/-- CellLoader::Load (PersonLoader.cpp 129-149): the chains are dealt out to
the threads in turn, and the persons kept by the threads are collected in the
order of the threads. The threads work on disjoint data, so their joint
result is that of running them one after the other. The map is walked in the
order of its list; that order only decides which thread builds which
person. -/
def CellLoader.Load (newPerson : List das.TripChainItem → Nat × PersonObject)
    (tripChainMap : List (String × List das.TripChainItem)) : List (Nat × PersonObject) :=
  ((List.range CellLoader.numThreads).map fun thIdx =>
    CellLoader.run newPerson
      ((tripChainMap.enum.filter fun e => e.1 % CellLoader.numThreads = thIdx).map
        fun e => e.2.2)).flatten

/-- The loop over the persons loaded (PersonLoader.cpp 204-207). The state is
the loader and the person objects, each with its address. -/
def PeriodicPersonLoader.stashAll
    (load : List (String × String) → PersonObject → Exec PersonObject Unit) :
    List (Nat × PersonObject) → PeriodicPersonLoader →
      Exec (PeriodicPersonLoader × List (Nat × PersonObject)) Unit
  | [], L => .ok () (L, [])
  | e :: rest, L =>
    match PeriodicPersonLoader.addOrStashPerson load e.1 L e.2 with
    | .ok _ s1 =>
      match PeriodicPersonLoader.stashAll load rest s1.1 with
      | .ok _ s2 => .ok () (s2.1, (e.1, s1.2) :: s2.2)
      | .thrown w s2 => .thrown w (s2.1, (e.1, s1.2) :: s2.2)
      | .undef s2 => .undef (s2.1, (e.1, s1.2) :: s2.2)
    | .thrown w s1 => .thrown w (s1.1, (e.1, s1.2) :: rest)
    | .undef s1 => .undef (s1.1, (e.1, s1.2) :: rest)

/-- PeriodicPersonLoader::loadActivitySchedules (PersonLoader.cpp 173-220).
The state is the loader and the person objects created. -/
def PeriodicPersonLoader.loadActivitySchedules (env : LoaderEnv) (L : PeriodicPersonLoader) :
    Exec (PeriodicPersonLoader × List (Nat × PersonObject)) Unit :=
  if L.storedProcName = "" then .ok () (L, [])
  else
    let endWindow := L.nextLoadStart + DEFAULT_LOAD_INTERVAL
    let rs := env.query L.storedProcName L.nextLoadStart endWindow
    match PeriodicPersonLoader.addRows env 0 rs ([], 0) with
    | .undef _ => .undef (L, [])
    | .thrown w _ => .thrown w (L, [])
    | .ok _ st =>
      let persons := CellLoader.Load env.newPerson st.1
      (PeriodicPersonLoader.stashAll env.load persons L).bind fun _ s =>
        let nextLoadStart := endWindow + DEFAULT_LOAD_INTERVAL
        .ok ()
          ({ s.1 with
              nextLoadStart :=
                if nextLoadStart > LAST_30MIN_WINDOW_OF_DAY then
                  nextLoadStart - TWENTY_FOUR_HOURS
                else nextLoadStart }, s.2)

/-- Sample surroundings of the loader: node ids 1 and 2 are nodes 10 and 20,
the generator always draws its upper bound, every person is built as the
sample person at address 70, and the database returns no rows. -/
def exLoaderEnv : LoaderEnv :=
  { nodeOf := fun id => if id = 1 then some 10 else if id = 2 then some 20 else none
    subTripNo := 1
    rng := fun _ => exGenerateMax
    newPerson := fun _ => (70, ⟨exFresh, [1, 2], "", true, [("#mode", "Walk")]⟩)
    load := fun props po =>
      if mapCount props "#mode" = 0 then .thrown "Cannot load person: no mode" po else .ok () po
    query := fun _ _ _ => [] }

/-- A row of person P1: a walk from node id 1 to a work activity at node id
2, leaving in window 17.25. -/
def exRowWork : Row := ⟨"P1", 1, 1, "Work", 2, "Walk", 1, 8.25, 17.25, 1, 7.75⟩

/-- A row of person P1: the walk back to the final home activity, whose
departure window is the last of the day. -/
def exRowHome : Row := ⟨"P1", 1, 2, "Home", 1, "Walk", 1, 18.25, 26.75, 2, 17.75⟩

/-- Sample network: "10,10" is located at node 10, every other position at
node 20. -/
def exNet : Network :=
  ⟨fun s => if s = "10,10" then (10, 10) else (20, 20),
    fun pt => if pt = (10, 10) then some 10 else some 20⟩

/-- Configuration properties asking for a walk from "10,10" to "20,20". -/
def exProps : List (String × String) :=
  [("#mode", "Walk"), ("originPos", "10,10"), ("destPos", "20,20")]

/-- A person just constructed (Person.cpp 69-70): no role, no trip chain, no
nodes, starting at 0 ms. -/
def exUnloaded : PersonObject :=
  ⟨⟨7, 0, false, none, none, [], none, none, none, none, true, []⟩, [], "", true, exProps⟩

/-- A person with a trip chain, no positions to locate, starting at 0 ms. -/
def exImmediate : PersonObject :=
  ⟨exFresh, [1, 2], "", true, [("#mode", "Walk")]⟩

/-- The same person starting at 5000 ms. -/
def exDeferred : PersonObject :=
  { exImmediate with core := { exFresh with startTime := 5000 } }

/-- An empty loader with the one-hour interval, about to load window 3.25. -/
def exLoader : PeriodicPersonLoader := ⟨[], [], 3600, 0, 3.25, "get_das"⟩

/-! ## BusStopAgent (dev/Basic/medium/entities/busStopAgent/BusStopAgent.cpp)

Lengths are `double`s in centimetres; they are embedded as rationals, which
is exact whenever the lengths and their sums are representable (as they are
for whole centimetres). Pointers to drivers, waiting roles, passengers and
persons are addresses; `none` is `nullptr`. -/

/-- What the bus stop calls on other objects, all defined outside the sources
at hand, as functions on a state `W` of those objects: the length of the
vehicle of a driver; `makeBoardingDecision` and `canBoardBus` of a waiting
role; whether the parent of a waiting role is a `Person`; `checkTripChain` of
that person; its current role cast to `Passenger*`; `addPassenger` of a bus
driver; and the role of an arriving person cast to `WaitBusActivity*`. -/
structure BusStopWorld (W : Type) where
  lengthCm : Nat → ℚ
  makeBoardingDecision : W → Nat → Option Nat → W
  canBoardBus : W → Nat → Bool
  parentIsPerson : W → Nat → Bool
  checkTripChain : W → Nat → W
  passengerRole : W → Nat → Option Nat
  addPassenger : W → Option Nat → Nat → W × Bool
  waitBusRole : W → Nat → Option Nat

/-- The members of `BusStopAgent` and the capacity of its bus stop. -/
structure BusStopAgent where
  busCapacityAsLength : ℚ
  availableLength : ℚ
  servingDrivers : List Nat
  waitingPersons : List Nat
  alightingPersons : List Nat
  lastBoardingRecorder : List (Option Nat × Int)
  deriving DecidableEq

/-- The constructor BusStopAgent::BusStopAgent (BusStopAgent.cpp 33-37) for a
stop of the given capacity. -/
def BusStopAgent.construct (busCapacityAsLength : ℚ) : BusStopAgent :=
  ⟨busCapacityAsLength, busCapacityAsLength, [], [], [], []⟩

/-- BusStopAgent::registerWaitingPerson (BusStopAgent.cpp 51-53). -/
def BusStopAgent.registerWaitingPerson (waitingPerson : Nat) (a : BusStopAgent) :
    BusStopAgent :=
  { a with waitingPersons := a.waitingPersons ++ [waitingPerson] }

/-- BusStopAgent::acceptBusDriver (BusStopAgent.cpp 198-209): the value
returned and the agent afterwards. The difference is taken exactly;
`BusStopAgent.acceptBusDriverRounded` rounds it. -/
def BusStopAgent.acceptBusDriver {W : Type} (world : BusStopWorld W) (driver : Option Nat)
    (a : BusStopAgent) : Bool × BusStopAgent :=
  match driver with
  | some d =>
    let vehicleLength := world.lengthCm d
    if a.availableLength ≥ vehicleLength then
      (true,
        { a with
          servingDrivers := a.servingDrivers ++ [d]
          availableLength := a.availableLength - vehicleLength })
    else (false, a)
  | none => (false, a)

/-- BusStopAgent::removeBusDriver (BusStopAgent.cpp 211-224): the value
returned and the agent afterwards. The sum is taken exactly;
`BusStopAgent.removeBusDriverRounded` rounds it. -/
def BusStopAgent.removeBusDriver {W : Type} (world : BusStopWorld W) (driver : Option Nat)
    (a : BusStopAgent) : Bool × BusStopAgent :=
  match driver with
  | some d =>
    let vehicleLength := world.lengthCm d
    if d ∈ a.servingDrivers then
      (true,
        { a with
          servingDrivers := a.servingDrivers.erase d
          availableLength := a.availableLength + vehicleLength })
    else (false, a)
  | none => (false, a)

/-- The first loop of boardWaitingPersons (BusStopAgent.cpp 163-166). -/
def BusStopAgent.makeDecisions {W : Type} (world : BusStopWorld W) (busDriver : Option Nat) :
    List Nat → W → W
  | [], w => w
  | p :: rest, w =>
    BusStopAgent.makeDecisions world busDriver rest (world.makeBoardingDecision w p busDriver)

/-- The second loop of boardWaitingPersons (BusStopAgent.cpp 168-193): the
state of the other objects, the waiting roles left in the list and the
number of boardings. -/
def BusStopAgent.boardLoop {W : Type} (world : BusStopWorld W) (busDriver : Option Nat) :
    List Nat → W → W × List Nat × Int
  | [], w => (w, [], 0)
  | p :: rest, w =>
    if world.canBoardBus w p then
      let w1 := if world.parentIsPerson w p then world.checkTripChain w p else w
      let tried : W × Bool :=
        if world.parentIsPerson w p then
          match world.passengerRole w1 p with
          | some passenger => world.addPassenger w1 busDriver passenger
          | none => (w1, false)
        else (w1, false)
      let r := BusStopAgent.boardLoop world busDriver rest tried.1
      if tried.2 then (r.1, r.2.1, r.2.2 + 1) else (r.1, p :: r.2.1, r.2.2)
    else
      let r := BusStopAgent.boardLoop world busDriver rest w
      (r.1, p :: r.2.1, r.2.2)

/-- The assignment `lastBoardingRecorder[busDriver] = numBoarding`. -/
def recordBoarding (rec : List (Option Nat × Int)) (busDriver : Option Nat) (n : Int) :
    List (Option Nat × Int) :=
  if (rec.lookup busDriver).isSome then
    rec.map fun e => if e.1 = busDriver then (e.1, n) else e
  else rec ++ [(busDriver, n)]

/-- BusStopAgent::boardWaitingPersons (BusStopAgent.cpp 160-196). -/
def BusStopAgent.boardWaitingPersons {W : Type} (world : BusStopWorld W)
    (busDriver : Option Nat) (s : BusStopAgent × W) : BusStopAgent × W :=
  let w1 := BusStopAgent.makeDecisions world busDriver s.1.waitingPersons s.2
  let r := BusStopAgent.boardLoop world busDriver s.1.waitingPersons w1
  ({ s.1 with
      waitingPersons := r.2.1
      lastBoardingRecorder := recordBoarding s.1.lastBoardingRecorder busDriver r.2.2 }, r.1)

/-- BusStopAgent::getBoardingNum (BusStopAgent.cpp 230-236). -/
def BusStopAgent.getBoardingNum (busDriver : Option Nat) (a : BusStopAgent) : Int :=
  (a.lastBoardingRecorder.lookup busDriver).getD 0

/-- The messages that HandleMessage distinguishes, with the pointer each
carries; `other` is any other message type. -/
inductive BusStopMessage where
  | BOARD_BUS (busDriver : Option Nat)
  | BUS_ARRIVAL (busDriver : Option Nat)
  | BUS_DEPARTURE (busDriver : Option Nat)
  | MSG_WAITINGPERSON_ARRIVALAT_BUSSTOP (waitingPerson : Nat)
  | other (type : Nat)
  deriving DecidableEq

/-- BusStopAgent::HandleMessage (BusStopAgent.cpp 116-158). -/
def BusStopAgent.HandleMessage {W : Type} (world : BusStopWorld W) (message : BusStopMessage)
    (s : BusStopAgent × W) : Exec (BusStopAgent × W) Unit :=
  match message with
  | .BOARD_BUS busDriver => .ok () (BusStopAgent.boardWaitingPersons world busDriver s)
  | .BUS_ARRIVAL busDriver =>
    let r := BusStopAgent.acceptBusDriver world busDriver s.1
    if !r.1 then .thrown "BusDriver could not be accepted by the bus stop" (r.2, s.2)
    else .ok () (r.2, s.2)
  | .BUS_DEPARTURE busDriver =>
    let r := BusStopAgent.removeBusDriver world busDriver s.1
    if !r.1 then .thrown "BusDriver could not be found in bus stop" (r.2, s.2)
    else .ok () (r.2, s.2)
  | .MSG_WAITINGPERSON_ARRIVALAT_BUSSTOP person =>
    match world.waitBusRole s.2 person with
    | some waitPerson => .ok () (BusStopAgent.registerWaitingPerson waitPerson s.1, s.2)
    | none => .ok () s
  | .other _ => .ok () s

/-- A call made on a bus stop agent from outside. -/
inductive BusStopCall where
  | acceptBusDriver (driver : Option Nat)
  | removeBusDriver (driver : Option Nat)
  | HandleMessage (message : BusStopMessage)
  deriving DecidableEq

/-- The state after one call. After a HandleMessage that throws, it is the
state reached at the throw. -/
def BusStopAgent.call {W : Type} (world : BusStopWorld W) (c : BusStopCall)
    (s : BusStopAgent × W) : BusStopAgent × W :=
  match c with
  | .acceptBusDriver d => ((BusStopAgent.acceptBusDriver world d s.1).2, s.2)
  | .removeBusDriver d => ((BusStopAgent.removeBusDriver world d s.1).2, s.2)
  | .HandleMessage m => (BusStopAgent.HandleMessage world m s).state

/-- The state after a sequence of calls. -/
def BusStopAgent.calls {W : Type} (world : BusStopWorld W) :
    List BusStopCall → BusStopAgent × W → BusStopAgent × W
  | [], s => s
  | c :: rest, s => BusStopAgent.calls world rest (BusStopAgent.call world c s)

/-- What boardWaitingPersons does with one waiter in the words of its
description: the waiter is moved into the bus when it chose to board, its
parent is a Person whose role after `checkTripChain` is a Passenger, and the
bus accepts that passenger. The result is the state of the other objects
afterwards and whether the waiter was moved. -/
def BusStopAgent.moved {W : Type} (world : BusStopWorld W) (busDriver : Option Nat) (w : W)
    (p : Nat) : W × Bool :=
  if world.canBoardBus w p = true ∧ world.parentIsPerson w p = true then
    match world.passengerRole (world.checkTripChain w p) p with
    | some passenger => world.addPassenger (world.checkTripChain w p) busDriver passenger
    | none => (world.checkTripChain w p, false)
  else (w, false)

/-- For each position of the waiting list, in order, whether the waiter there
is moved into the bus. -/
def BusStopAgent.movedFlags {W : Type} (world : BusStopWorld W) (busDriver : Option Nat) :
    List Nat → W → List Bool
  | [], _ => []
  | p :: rest, w =>
    (BusStopAgent.moved world busDriver w p).2 ::
      BusStopAgent.movedFlags world busDriver rest (BusStopAgent.moved world busDriver w p).1

/-- The entries of a list at the positions whose flag is false. -/
def keepUnflagged : List Nat → List Bool → List Nat
  | p :: rest, b :: flags => if b then keepUnflagged rest flags else p :: keepUnflagged rest flags
  | _, _ => []

/-- Sample surroundings of a bus stop in which the state of the other objects
is the list of passengers aboard: waiters with an even address choose to
board, the passenger role of waiter `p` is `p + 100`, and the bus takes at
most two passengers. -/
def exBoardingWorld : BusStopWorld (List Nat) :=
  { lengthCm := fun _ => 1200
    makeBoardingDecision := fun w _ _ => w
    canBoardBus := fun _ p => p % 2 == 0
    parentIsPerson := fun _ _ => true
    checkTripChain := fun w _ => w
    passengerRole := fun _ p => some (p + 100)
    addPassenger := fun w _ passenger =>
      if w.length < 2 then (w ++ [passenger], true) else (w, false)
    waitBusRole := fun _ _ => none }

/-! ## BusStopAgent in the arithmetic of double

The definitions above take the sums and differences of lengths exactly. The
ones below round each of them by a function `fl`; `roundDouble` is the
rounding of `double`. -/

/-- BusStopAgent::acceptBusDriver (BusStopAgent.cpp 198-209) with the
difference of line 203 rounded by `fl`, as the arithmetic of `double` rounds
it (the comparison of line 201 is exact); with the identity for `fl` it is
`BusStopAgent.acceptBusDriver`. -/
def BusStopAgent.acceptBusDriverRounded {W : Type} (fl : ℚ → ℚ) (world : BusStopWorld W)
    (driver : Option Nat) (a : BusStopAgent) : Bool × BusStopAgent :=
  match driver with
  | some d =>
    let vehicleLength := world.lengthCm d
    if a.availableLength ≥ vehicleLength then
      (true,
        { a with
          servingDrivers := a.servingDrivers ++ [d]
          availableLength := fl (a.availableLength - vehicleLength) })
    else (false, a)
  | none => (false, a)

/-- BusStopAgent::removeBusDriver (BusStopAgent.cpp 211-224) with the sum of
line 218 rounded by `fl`; with the identity for `fl` it is
`BusStopAgent.removeBusDriver`. -/
def BusStopAgent.removeBusDriverRounded {W : Type} (fl : ℚ → ℚ) (world : BusStopWorld W)
    (driver : Option Nat) (a : BusStopAgent) : Bool × BusStopAgent :=
  match driver with
  | some d =>
    let vehicleLength := world.lengthCm d
    if d ∈ a.servingDrivers then
      (true,
        { a with
          servingDrivers := a.servingDrivers.erase d
          availableLength := fl (a.availableLength + vehicleLength) })
    else (false, a)
  | none => (false, a)

/-- BusStopAgent::HandleMessage (BusStopAgent.cpp 116-158) over the rounded
acceptBusDriver and removeBusDriver. -/
def BusStopAgent.HandleMessageRounded {W : Type} (fl : ℚ → ℚ) (world : BusStopWorld W)
    (message : BusStopMessage) (s : BusStopAgent × W) : Exec (BusStopAgent × W) Unit :=
  match message with
  | .BOARD_BUS busDriver => .ok () (BusStopAgent.boardWaitingPersons world busDriver s)
  | .BUS_ARRIVAL busDriver =>
    let r := BusStopAgent.acceptBusDriverRounded fl world busDriver s.1
    if !r.1 then .thrown "BusDriver could not be accepted by the bus stop" (r.2, s.2)
    else .ok () (r.2, s.2)
  | .BUS_DEPARTURE busDriver =>
    let r := BusStopAgent.removeBusDriverRounded fl world busDriver s.1
    if !r.1 then .thrown "BusDriver could not be found in bus stop" (r.2, s.2)
    else .ok () (r.2, s.2)
  | .MSG_WAITINGPERSON_ARRIVALAT_BUSSTOP person =>
    match world.waitBusRole s.2 person with
    | some waitPerson => .ok () (BusStopAgent.registerWaitingPerson waitPerson s.1, s.2)
    | none => .ok () s
  | .other _ => .ok () s

/-- The state after one call, with rounded sums and differences. -/
def BusStopAgent.callRounded {W : Type} (fl : ℚ → ℚ) (world : BusStopWorld W)
    (c : BusStopCall) (s : BusStopAgent × W) : BusStopAgent × W :=
  match c with
  | .acceptBusDriver d => ((BusStopAgent.acceptBusDriverRounded fl world d s.1).2, s.2)
  | .removeBusDriver d => ((BusStopAgent.removeBusDriverRounded fl world d s.1).2, s.2)
  | .HandleMessage m => (BusStopAgent.HandleMessageRounded fl world m s).state

/-- The constructor PeriodicPersonLoader::PeriodicPersonLoader
(PersonLoader.cpp 158-168) on the two collections it is given;
`baseGranSecond` and `simStartTime` (in ms) are the values the configuration
returns, `storedProcName` its entry for "day_activity_schedule". -/
def PeriodicPersonLoader.construct (activeAgents pendingAgents : List Nat)
    (baseGranSecond : ℚ) (simStartTime : Nat) (storedProcName : String) :
    PeriodicPersonLoader :=
  { activeAgents := activeAgents
    pendingAgents := pendingAgents
    dataLoadInterval := SECONDS_IN_ONE_HOUR
    elapsedTimeSinceLastLoad := baseGranSecond
    nextLoadStart := getHalfHourWindow (simStartTime / 1000)
    storedProcName := storedProcName }

/-- PeriodicPersonLoader::checkTimeForNextLoad (PersonLoader.cpp 238-247):
the value returned and the loader afterwards. -/
def PeriodicPersonLoader.checkTimeForNextLoad (baseGranSecond : ℚ)
    (L : PeriodicPersonLoader) : Bool × PeriodicPersonLoader :=
  let elapsed := L.elapsedTimeSinceLastLoad + baseGranSecond
  if elapsed ≥ L.dataLoadInterval then (true, { L with elapsedTimeSinceLastLoad := 0 })
  else (false, { L with elapsedTimeSinceLastLoad := elapsed })

/-- The loader after `k` calls of checkTimeForNextLoad. -/
def PeriodicPersonLoader.afterCalls (baseGranSecond : ℚ) :
    Nat → PeriodicPersonLoader → PeriodicPersonLoader
  | 0, L => L
  | k + 1, L =>
    (PeriodicPersonLoader.checkTimeForNextLoad baseGranSecond
      (PeriodicPersonLoader.afterCalls baseGranSecond k L)).2

/-- The value that call number `k` of checkTimeForNextLoad returns, counting
from 1 (call number 0 is no call and counts as false). -/
def PeriodicPersonLoader.callReturns (baseGranSecond : ℚ) (k : Nat)
    (L : PeriodicPersonLoader) : Bool :=
  match k with
  | 0 => false
  | j + 1 =>
    (PeriodicPersonLoader.checkTimeForNextLoad baseGranSecond
      (PeriodicPersonLoader.afterCalls baseGranSecond j L)).1

/-- The member `sequenceNumber` of a trip-chain item built by the loader. -/
def das.TripChainItem.sequenceNumber : das.TripChainItem → Nat
  | .trip t => t.sequenceNumber
  | .activity a => a.sequenceNumber

/-- The items that the row number `i` contributes to a chain of `seqNo`
items when the loop body completes: nothing when no trip is built, the Trip
alone for the last row of a schedule, and else the Trip followed by the
Activity. -/
def PeriodicPersonLoader.rowItems (env : LoaderEnv) (i : Nat) (r : Row) (seqNo : Nat) :
    List das.TripChainItem :=
  match PeriodicPersonLoader.makeTrip env (env.rng (3 * i)) r (seqNo + 1) with
  | .ok (some trip) _ =>
    if r.departureWindow = LAST_30MIN_WINDOW_OF_DAY ∧ r.activityType = HOME_ACTIVITY_TYPE then
      [.trip trip]
    else
      match PeriodicPersonLoader.makeActivity env (env.rng (3 * i + 1)) (env.rng (3 * i + 2)) r
          (seqNo + 2) with
      | .ok act _ => [.trip trip, .activity act]
      | _ => [.trip trip]
  | _ => []

/-- The chain of one person as the rows describe it: the rows are taken in
their order from row number `i` on, and each row of the person contributes
its items at the end of the person's chain. -/
def PeriodicPersonLoader.chainOf (env : LoaderEnv) (personId : String) :
    Nat → List Row → List das.TripChainItem → List das.TripChainItem
  | _, [], chain => chain
  | i, r :: rs, chain =>
    PeriodicPersonLoader.chainOf env personId (i + 1) rs
      (if r.personId = personId then
        chain ++ PeriodicPersonLoader.rowItems env i r chain.length
      else chain)

/-- The number of rows, from row number `i` on, for which a trip is built. -/
def PeriodicPersonLoader.rowsWithTrip (env : LoaderEnv) : Nat → List Row → Nat
  | _, [] => 0
  | i, r :: rs =>
    (if env.nodeOf r.originNode = env.nodeOf r.destNode then 0 else 1) +
      PeriodicPersonLoader.rowsWithTrip env (i + 1) rs

/-- A row of person P1 that stays at node id 2. -/
def exRowStay : Row := ⟨"P1", 1, 3, "Shop", 2, "Walk", 1, 17.25, 17.75, 2, 17.25⟩

/-- The numbering and pairing of a chain of the person `personId` built from
`rows`: the item at position `j`, counting from 0, has sequence number
`j + 1`, and every Activity stands directly behind the Trip built from the
same row. -/
def PeriodicPersonLoader.chainSound (env : LoaderEnv) (rows : List Row) (personId : String)
    (chain : List das.TripChainItem) : Prop :=
  (∀ j item, chain[j]? = some item → item.sequenceNumber = j + 1) ∧
  (∀ j act, chain[j]? = some (.activity act) →
    ∃ j0 trip k r, j = j0 + 1 ∧ chain[j0]? = some (.trip trip) ∧ rows[k]? = some r ∧
      r.personId = personId ∧
      PeriodicPersonLoader.makeTrip env (env.rng (3 * k)) r (j0 + 1) = .ok (some trip) () ∧
      PeriodicPersonLoader.makeActivity env (env.rng (3 * k + 1)) (env.rng (3 * k + 2)) r
        (j0 + 2) = .ok act ())

/-! ## FleetManager (dev/Basic/shared/entities/FleetManager.cpp) -/

/-- The members of `FleetManager::FleetItem` that LoadTaxiFleetFromDB fills
in (FleetManager.cpp 66-75); `startTime` is a `double`, in seconds, and
`startNode` a pointer to a node. -/
structure FleetManager.FleetItem where
  vehicleNo : String
  driverId : String
  startNode : Option Nat
  startTime : ℚ
  deriving DecidableEq

/-- The loop of dispatchTaxiAtCurrentTime (FleetManager.cpp 83-95) on the
items not yet visited, with `res` and the items already passed over that stay
in `taxiFleet`. -/
def FleetManager.dispatchLoop (currentTimeSec : Nat) :
    List FleetManager.FleetItem → List FleetManager.FleetItem → List FleetManager.FleetItem →
      List FleetManager.FleetItem × List FleetManager.FleetItem
  | [], res, kept => (res, kept)
  | i :: rest, res, kept =>
    if i.startTime ≤ (currentTimeSec : ℚ) then
      FleetManager.dispatchLoop currentTimeSec rest (res ++ [i]) kept
    else FleetManager.dispatchLoop currentTimeSec rest res (kept ++ [i])

/-- FleetManager::dispatchTaxiAtCurrentTime (FleetManager.cpp 80-97): the
vector returned and `taxiFleet` afterwards. -/
def FleetManager.dispatchTaxiAtCurrentTime (currentTimeSec : Nat)
    (taxiFleet : List FleetManager.FleetItem) :
    List FleetManager.FleetItem × List FleetManager.FleetItem :=
  FleetManager.dispatchLoop currentTimeSec taxiFleet [] []

/-- A sample fleet: taxis starting at 0 s, 7200 s, 3600 s and 3600.5 s. -/
def exFleet : List FleetManager.FleetItem :=
  [⟨"T1", "D1", some 10, 0⟩, ⟨"T2", "D2", some 20, 7200⟩, ⟨"T3", "D3", some 10, 3600⟩,
    ⟨"T4", "D4", some 20, 3600.5⟩]

/-! ## SplitPlan (dev/Basic/short/entities/signal/SplitPlan.cpp)

The projected degrees of saturation are `double`s; they are only compared,
and are embedded as rationals. Reading or writing a vector outside its
bounds is undefined. -/

/-- The constant `NUMBER_OF_VOTING_CYCLES` (SplitPlan.cpp 15). -/
def NUMBER_OF_VOTING_CYCLES : Nat := 5

/-- The members of `SplitPlan` that voting reads and writes: the number of
plans and the votes kept, one row for each cycle with one column for each
plan. -/
structure SplitPlan where
  NOF_Plans : Nat
  votes : List (List Int)
  deriving DecidableEq

/-- SplitPlan::fmin_ID (SplitPlan.cpp 109-117): the index that the loop over
`i = 1, ..., size - 1` leaves in `min`. -/
def SplitPlan.fmin_ID (maxproDS : List ℚ) : Nat :=
  (List.range' 1 (maxproDS.length - 1)).foldl
    (fun min i => if maxproDS.getD i 0 < maxproDS.getD min 0 then i else min) 0

/-- The inner loop of getMaxVote (SplitPlan.cpp 129-131): the sum of the
column `SplitPlanID` of the votes, undefined (`none`) when a row is too
short. -/
def SplitPlan.voteSum (votes : List (List Int)) (SplitPlanID : Nat) : Option Int :=
  votes.foldl (fun vote_sum row => vote_sum.bind fun s => (row[SplitPlanID]?).map fun v => s + v)
    (some 0)

/-- One pass of the outer loop of getMaxVote (SplitPlan.cpp 126-136) on the
pair of `PlanId_w_MaxVote` and `max_vote_value`. -/
def SplitPlan.getMaxVote.step (votes : List (List Int)) (acc : Option (Int × Int))
    (SplitPlanID : Nat) : Option (Int × Int) :=
  acc.bind fun a =>
    (SplitPlan.voteSum votes SplitPlanID).map fun vote_sum =>
      if a.2 < vote_sum then ((SplitPlanID : Int), vote_sum) else a

/-- SplitPlan::getMaxVote (SplitPlan.cpp 121-138); the `int` result is
converted to `std::size_t`. -/
def SplitPlan.getMaxVote (sp : SplitPlan) : Exec SplitPlan Nat :=
  match (List.range sp.NOF_Plans).foldl (SplitPlan.getMaxVote.step sp.votes) (some (-1, -1)) with
  | some a => .ok (a.1 % 2 ^ 64).toNat sp
  | none => .undef sp

/-- SplitPlan::Vote (SplitPlan.cpp 54-66). -/
def SplitPlan.Vote (maxproDS : List ℚ) (sp : SplitPlan) : Exec SplitPlan Nat :=
  let vote : List Int := List.replicate sp.NOF_Plans 0
  let id := SplitPlan.fmin_ID maxproDS
  match vote[id]? with
  | none => .undef sp
  | some v =>
    let votes := sp.votes ++ [vote.set id (v + 1)]
    let votes := if votes.length > NUMBER_OF_VOTING_CYCLES then votes.tail else votes
    SplitPlan.getMaxVote { sp with votes := votes }

/-- The row with one vote for the plan `id` among `n` plans. -/
def oneVote (n id : Nat) : List Int := (List.replicate n 0).set id 1

/-- The number of votes for a plan among the votes kept. -/
def votesFor (votes : List (List Int)) (id : Nat) : Int :=
  (votes.map fun row => row.getD id 0).sum

/-- The states of a SplitPlan that voting reaches: at most five votes are
kept, and each is one vote for one of the plans. -/
def SplitPlan.votesSound (sp : SplitPlan) : Prop :=
  sp.votes.length ≤ NUMBER_OF_VOTING_CYCLES ∧
    ∀ row ∈ sp.votes, ∃ id, id < sp.NOF_Plans ∧ row = oneVote sp.NOF_Plans id

/-! ## MessageBus (dev/Basic/shared/message/MessageBus.hpp)

Only the declaration of the message bus and its documentation are among the
sources; the bodies of its functions are not. -/

/-- Modelled from the spec: the state of the message bus, whose definition
(MessageBus.cpp) is not among the sources. `contexts` binds each registered
handler to the thread context it was registered in, `outgoing` holds the
messages posted and not yet distributed, each with the context of its sender,
its target and its type, `handlers` is the state of the handler objects, and
`handled` lists the invocations of `HandleMessage` so far, by target and
type. -/
structure MessageBus (M W : Type) where
  contexts : List (Nat × Nat)
  outgoing : List (Nat × Nat × Nat × M)
  handlers : W
  handled : List (Nat × Nat × M)

/-- Modelled from the spec: `MessageBus::SendInstantaneousMessage(target,
type, message)`, declared in MessageBus.hpp 153 and defined outside the
sources, called on the thread whose context is `caller`. In the words of the
spec the handler is invoked synchronously in-line, and the call fails with
`CrossContext` if the target's context is not the caller's; in the words of
the header no message is put in a queue. `HandleMessage` is the handler of
each target. -/
def MessageBus.SendInstantaneousMessage {M W : Type} (HandleMessage : Nat → Nat → M → W → W)
    (caller target type : Nat) (message : M) (bus : MessageBus M W) :
    Exec (MessageBus M W) Unit :=
  if bus.contexts.lookup target = some caller then
    .ok ()
      { bus with
        handlers := HandleMessage target type message bus.handlers
        handled := bus.handled ++ [(target, type, message)] }
  else .thrown "CrossContext" bus

/-- A sample bus: the handlers 1 and 2 are registered in the context 7 and
the handler 3 in the context 8; the state of the handlers is the list of the
message types they have handled, latest first. -/
def exMessageBus : MessageBus String (List Nat) := ⟨[(1, 7), (2, 7), (3, 8)], [], [], []⟩

/-- The handlers of the sample bus note the type of each message. -/
def exHandleMessage : Nat → Nat → String → List Nat → List Nat := fun _ type _ w => type :: w

/-! ## The AIMSUN loader (dev/Basic/geospatial/aimsun/Loader.cpp)

The rows that the database returns are given by a parameter; the statements
prepared on the session `sql_` are recorded. Pointers into the maps of nodes
and sections are the keys of the entries they point to. Coordinates and
lengths are `double`s, embedded as rationals. Output to `std::cout` is left
out. -/

/-- The members of `aimsun::Node` (Node.hpp 24-39) that the loader reads and
writes; `sectionsAtNode` holds pointers to sections. -/
structure aimsun.Node where
  id : Int
  xPos : ℚ
  yPos : ℚ
  isIntersection : Bool
  sectionsAtNode : List Int
  candidateForSegmentNode : Bool
  deriving DecidableEq

/-- The members of `aimsun::Section` that the loader reads and writes. -/
structure aimsun.Section where
  id : Int
  roadName : String
  length : ℚ
  TMP_FromNodeID : Int
  TMP_ToNodeID : Int
  fromNode : Option Int
  toNode : Option Int
  deriving DecidableEq

/-- The members of `aimsun::Crossing` that the loader reads and writes. -/
structure aimsun.Crossing where
  laneID : Int
  TMP_AtSectionID : Int
  xPos : ℚ
  yPos : ℚ
  atSection : Option Int
  deriving DecidableEq

/-- The members of `aimsun::Lane` that the loader reads and writes. -/
structure aimsun.Lane where
  laneID : Int
  laneType : String
  TMP_AtSectionID : Int
  xPos : ℚ
  yPos : ℚ
  atSection : Option Int
  deriving DecidableEq

/-- The members of `aimsun::Turning` that the loader reads and writes. -/
structure aimsun.Turning where
  id : Int
  TMP_FromSection : Int
  TMP_ToSection : Int
  fromSection : Option Int
  toSection : Option Int
  deriving DecidableEq

/-- The members of `aimsun::Polyline` that the loader reads and writes. -/
structure aimsun.Polyline where
  TMP_SectionId : Int
  xPos : ℚ
  yPos : ℚ
  section_ : Option Int
  deriving DecidableEq

/-- The members of `aimsun::TripChain` that the loader reads and writes; the
members of `from` and `to` carry these names in front. -/
structure aimsun.TripChain where
  from_TMP_locationNodeID : Int
  to_TMP_locationNodeID : Int
  TMP_startTimeStr : String
  startTime : Nat
  from_location : Option Int
  to_location : Option Int
  deriving DecidableEq

/-- The members of `aimsun::Signal` that the loader reads and writes. -/
structure aimsun.Signal where
  id : Int
  xPos : ℚ
  yPos : ℚ
  deriving DecidableEq

/-- What the loader takes from outside: whether the connection to the
database can be opened (the error of `soci::session` otherwise), the rows or
the error with which the database answers each statement, by the type of row
asked for, and the conversion of a string by `sim_mob::DailyTime`. -/
structure aimsun.Database where
  connect : Except String Unit
  nodes : String → Except String (List aimsun.Node)
  sections : String → Except String (List aimsun.Section)
  crossings : String → Except String (List aimsun.Crossing)
  lanes : String → Except String (List aimsun.Lane)
  turnings : String → Except String (List aimsun.Turning)
  polylines : String → Except String (List aimsun.Polyline)
  tripchains : String → Except String (List aimsun.TripChain)
  signals : String → Except String (List aimsun.Signal)
  DailyTime : String → Except String Nat

/-- The members of `DatabaseLoader` (Loader.cpp 81-90). The maps are lists of
entries in ascending order of their keys; `queries` lists the statements
prepared on `sql_`. -/
structure DatabaseLoader where
  queries : List String
  nodes_ : List (Int × aimsun.Node)
  sections_ : List (Int × aimsun.Section)
  crossings_ : List aimsun.Crossing
  lanes_ : List aimsun.Lane
  turnings_ : List (Int × aimsun.Turning)
  polylines_ : List (Int × aimsun.Polyline)
  tripchains_ : List aimsun.TripChain
  signals_ : List (Int × aimsun.Signal)
  deriving DecidableEq

/-- The loader that the constructor leaves (Loader.cpp 105-108). -/
def DatabaseLoader.fresh : DatabaseLoader := ⟨[], [], [], [], [], [], [], [], []⟩

/-- The member `count` of a `std::map<int, T>`. -/
def aimsun.mapCount {α : Type} (m : List (Int × α)) (key : Int) : Nat :=
  if (m.lookup key).isSome then 1 else 0

/-- The assignment `m[key] = value` on a `std::map<int, T>`. -/
def aimsun.mapPut {α : Type} : List (Int × α) → Int → α → List (Int × α)
  | [], key, value => [(key, value)]
  | e :: rest, key, value =>
    if key < e.1 then (key, value) :: e :: rest
    else if key = e.1 then (key, value) :: rest
    else e :: aimsun.mapPut rest key value

/-- The member `insert` of a `std::map<int, T>`, which keeps an entry that is
there already, and of a `std::multimap<int, T>` when `multi` is set, which
places the new entry behind the entries of the same key. -/
def aimsun.mapInsert {α : Type} (multi : Bool) : List (Int × α) → Int → α → List (Int × α)
  | [], key, value => [(key, value)]
  | e :: rest, key, value =>
    if key < e.1 then (key, value) :: e :: rest
    else if key = e.1 ∧ multi = false then e :: rest
    else e :: aimsun.mapInsert multi rest key value

/-- The statement `sql_.prepare << "select * from " + storedProc`: the loader
with the statement recorded, and the statement. -/
def DatabaseLoader.prepare (storedProc : String) (L : DatabaseLoader) :
    DatabaseLoader × String :=
  ({ L with queries := L.queries ++ ["select * from " ++ storedProc] },
    "select * from " ++ storedProc)

/-- The loop of LoadNodes (Loader.cpp 124-134). -/
def DatabaseLoader.LoadNodes.loop : List aimsun.Node → DatabaseLoader → Exec DatabaseLoader Unit
  | [], L => .ok () L
  | it :: rest, L =>
    if aimsun.mapCount L.nodes_ it.id > 0 then .thrown "Duplicate AIMSUN node." L
    else
      DatabaseLoader.LoadNodes.loop rest
        { L with
          nodes_ := aimsun.mapPut L.nodes_ it.id
            { it with xPos := it.xPos * 100, yPos := it.yPos * 100 } }

/-- DatabaseLoader::LoadNodes (Loader.cpp 117-135). -/
def DatabaseLoader.LoadNodes (db : aimsun.Database) (storedProc : String) (L : DatabaseLoader) :
    Exec DatabaseLoader Unit :=
  match db.nodes (L.prepare storedProc).2 with
  | .error e => .thrown e (L.prepare storedProc).1
  | .ok rs => DatabaseLoader.LoadNodes.loop rs { (L.prepare storedProc).1 with nodes_ := [] }

/-- The loop of LoadSections (Loader.cpp 145-160). -/
def DatabaseLoader.LoadSections.loop :
    List aimsun.Section → DatabaseLoader → Exec DatabaseLoader Unit
  | [], L => .ok () L
  | it :: rest, L =>
    if aimsun.mapCount L.nodes_ it.TMP_FromNodeID = 0 ∨
        aimsun.mapCount L.nodes_ it.TMP_ToNodeID = 0 then
      .thrown "Invalid From or To node." L
    else
      DatabaseLoader.LoadSections.loop rest
        { L with
          sections_ := aimsun.mapPut L.sections_ it.id
            { it with
              length := it.length * 100
              fromNode := some it.TMP_FromNodeID
              toNode := some it.TMP_ToNodeID } }

/-- DatabaseLoader::LoadSections (Loader.cpp 138-161). -/
def DatabaseLoader.LoadSections (db : aimsun.Database) (storedProc : String)
    (L : DatabaseLoader) : Exec DatabaseLoader Unit :=
  match db.sections (L.prepare storedProc).2 with
  | .error e => .thrown e (L.prepare storedProc).1
  | .ok rs =>
    DatabaseLoader.LoadSections.loop rs { (L.prepare storedProc).1 with sections_ := [] }

/-- The loop of LoadCrossings (Loader.cpp 171-184). -/
def DatabaseLoader.LoadCrossings.loop :
    List aimsun.Crossing → DatabaseLoader → Exec DatabaseLoader Unit
  | [], L => .ok () L
  | it :: rest, L =>
    if aimsun.mapCount L.sections_ it.TMP_AtSectionID = 0 then
      .thrown "Crossing at Invalid Section" L
    else
      DatabaseLoader.LoadCrossings.loop rest
        { L with
          crossings_ := L.crossings_ ++
            [{ it with
               xPos := it.xPos * 100
               yPos := it.yPos * 100
               atSection := some it.TMP_AtSectionID }] }

/-- DatabaseLoader::LoadCrossings (Loader.cpp 164-185). -/
def DatabaseLoader.LoadCrossings (db : aimsun.Database) (storedProc : String)
    (L : DatabaseLoader) : Exec DatabaseLoader Unit :=
  match db.crossings (L.prepare storedProc).2 with
  | .error e => .thrown e (L.prepare storedProc).1
  | .ok rs =>
    DatabaseLoader.LoadCrossings.loop rs { (L.prepare storedProc).1 with crossings_ := [] }

/-- The lane types that LoadLanes leaves out (Loader.cpp 204-216). -/
def DatabaseLoader.LoadLanes.excluded (laneType : String) : Bool :=
  laneType = "J" || laneType = "A4" ||
    (laneType = "R" || laneType = "M" || laneType = "D" || laneType = "N" ||
      laneType = "Q" || laneType = "T" || laneType = "G" || laneType = "O" ||
      laneType = "A1" || laneType = "A3" || laneType = "L" || laneType = "H" ||
      laneType = "\\N")

/-- The loop of LoadLanes (Loader.cpp 194-221). -/
def DatabaseLoader.LoadLanes.loop : List aimsun.Lane → DatabaseLoader → Exec DatabaseLoader Unit
  | [], L => .ok () L
  | it :: rest, L =>
    if aimsun.mapCount L.sections_ it.TMP_AtSectionID = 0 then
      .thrown "Lane at Invalid Section" L
    else if DatabaseLoader.LoadLanes.excluded it.laneType then
      DatabaseLoader.LoadLanes.loop rest L
    else
      DatabaseLoader.LoadLanes.loop rest
        { L with
          lanes_ := L.lanes_ ++
            [{ it with
               xPos := it.xPos * 100
               yPos := it.yPos * 100
               atSection := some it.TMP_AtSectionID }] }

/-- DatabaseLoader::LoadLanes (Loader.cpp 187-222). -/
def DatabaseLoader.LoadLanes (db : aimsun.Database) (storedProc : String) (L : DatabaseLoader) :
    Exec DatabaseLoader Unit :=
  match db.lanes (L.prepare storedProc).2 with
  | .error e => .thrown e (L.prepare storedProc).1
  | .ok rs => DatabaseLoader.LoadLanes.loop rs { (L.prepare storedProc).1 with lanes_ := [] }

/-- The loop of LoadTurnings (Loader.cpp 233-246): the loader and
`skippedTurningIDs`. -/
def DatabaseLoader.LoadTurnings.loop :
    List aimsun.Turning → DatabaseLoader × List Int → DatabaseLoader × List Int
  | [], s => s
  | it :: rest, s =>
    let fromMissing := aimsun.mapCount s.1.sections_ it.TMP_FromSection = 0
    let toMissing := aimsun.mapCount s.1.sections_ it.TMP_ToSection = 0
    if fromMissing ∨ toMissing then DatabaseLoader.LoadTurnings.loop rest (s.1, s.2 ++ [it.id])
    else
      DatabaseLoader.LoadTurnings.loop rest
        ({ s.1 with
            turnings_ := aimsun.mapPut s.1.turnings_ it.id
              { it with
                fromSection := some it.TMP_FromSection
                toSection := some it.TMP_ToSection } }, s.2)

/-- DatabaseLoader::LoadTurnings (Loader.cpp 225-250); the ids skipped are
printed and dropped. -/
def DatabaseLoader.LoadTurnings (db : aimsun.Database) (storedProc : String)
    (L : DatabaseLoader) : Exec DatabaseLoader Unit :=
  match db.turnings (L.prepare storedProc).2 with
  | .error e => .thrown e (L.prepare storedProc).1
  | .ok rs =>
    .ok () (DatabaseLoader.LoadTurnings.loop rs
      ({ (L.prepare storedProc).1 with turnings_ := [] }, [])).1

/-- The loop of LoadPolylines (Loader.cpp 259-273). -/
def DatabaseLoader.LoadPolylines.loop :
    List aimsun.Polyline → DatabaseLoader → Exec DatabaseLoader Unit
  | [], L => .ok () L
  | it :: rest, L =>
    if aimsun.mapCount L.sections_ it.TMP_SectionId = 0 then
      .thrown "Invalid polyline section reference." L
    else
      DatabaseLoader.LoadPolylines.loop rest
        { L with
          polylines_ := aimsun.mapInsert true L.polylines_ it.TMP_SectionId
            { it with
              xPos := it.xPos * 100
              yPos := it.yPos * 100
              section_ := some it.TMP_SectionId } }

/-- DatabaseLoader::LoadPolylines (Loader.cpp 252-274). -/
def DatabaseLoader.LoadPolylines (db : aimsun.Database) (storedProc : String)
    (L : DatabaseLoader) : Exec DatabaseLoader Unit :=
  match db.polylines (L.prepare storedProc).2 with
  | .error e => .thrown e (L.prepare storedProc).1
  | .ok rs =>
    DatabaseLoader.LoadPolylines.loop rs { (L.prepare storedProc).1 with polylines_ := [] }

/-- The loop of LoadTripchains (Loader.cpp 284-300). -/
def DatabaseLoader.LoadTripchains.loop (db : aimsun.Database) :
    List aimsun.TripChain → DatabaseLoader → Exec DatabaseLoader Unit
  | [], L => .ok () L
  | it :: rest, L =>
    if aimsun.mapCount L.nodes_ it.from_TMP_locationNodeID = 0 then
      .thrown "Invalid trip chain from node reference." L
    else if aimsun.mapCount L.nodes_ it.to_TMP_locationNodeID = 0 then
      .thrown "Invalid trip chain to node reference." L
    else
      match db.DailyTime it.TMP_startTimeStr with
      | .error e => .thrown e L
      | .ok t =>
        DatabaseLoader.LoadTripchains.loop db rest
          { L with
            tripchains_ := L.tripchains_ ++
              [{ it with
                 startTime := t
                 from_location := some it.from_TMP_locationNodeID
                 to_location := some it.to_TMP_locationNodeID }] }

/-- DatabaseLoader::LoadTripchains (Loader.cpp 277-301). -/
def DatabaseLoader.LoadTripchains (db : aimsun.Database) (storedProc : String)
    (L : DatabaseLoader) : Exec DatabaseLoader Unit :=
  match db.tripchains (L.prepare storedProc).2 with
  | .error e => .thrown e (L.prepare storedProc).1
  | .ok rs =>
    DatabaseLoader.LoadTripchains.loop db rs { (L.prepare storedProc).1 with tripchains_ := [] }

/-- The loop of LoadTrafficSignals (Loader.cpp 319-326). -/
def DatabaseLoader.LoadTrafficSignals.loop : List aimsun.Signal → DatabaseLoader → DatabaseLoader
  | [], L => L
  | signal :: rest, L =>
    DatabaseLoader.LoadTrafficSignals.loop rest
      { L with
        signals_ := aimsun.mapInsert false L.signals_ signal.id
          { signal with xPos := signal.xPos * 100, yPos := signal.yPos * 100 } }

/-- DatabaseLoader::LoadTrafficSignals (Loader.cpp 303-327). -/
def DatabaseLoader.LoadTrafficSignals (db : aimsun.Database) (storedProcedure : String)
    (L : DatabaseLoader) : Exec DatabaseLoader Unit :=
  if storedProcedure = "" then .ok () L
  else
    match db.signals (L.prepare storedProcedure).2 with
    | .error e => .thrown e (L.prepare storedProcedure).1
    | .ok rows => .ok () (DatabaseLoader.LoadTrafficSignals.loop rows (L.prepare storedProcedure).1)

/-- The function getStoredProcedure (Loader.cpp 329-337) on the map of the
configuration. -/
def getStoredProcedure (storedProcs : List (String × String)) (procedureName : String)
    (L : DatabaseLoader) : Exec DatabaseLoader String :=
  match storedProcs.lookup procedureName with
  | some name => .ok name L
  | none =>
    .thrown ("expected to find stored-procedure named '" ++ procedureName ++
      "' in the config file") L

/-- One statement of LoadBasicAimsunObjects, `load(getStoredProcedure(
storedProcs, name))`, run after what came before it. -/
def DatabaseLoader.loadStep (db : aimsun.Database) (storedProcs : List (String × String))
    (name : String) (load : aimsun.Database → String → DatabaseLoader → Exec DatabaseLoader Unit)
    (before : Exec DatabaseLoader Unit) : Exec DatabaseLoader Unit :=
  before.bind fun _ L => (getStoredProcedure storedProcs name L).bind fun proc L1 => load db proc L1

/-- DatabaseLoader::LoadBasicAimsunObjects (Loader.cpp 339-349). -/
def DatabaseLoader.LoadBasicAimsunObjects (db : aimsun.Database)
    (storedProcs : List (String × String)) (L : DatabaseLoader) : Exec DatabaseLoader Unit :=
  (Exec.ok () L)
    |> DatabaseLoader.loadStep db storedProcs "node" DatabaseLoader.LoadNodes
    |> DatabaseLoader.loadStep db storedProcs "section" DatabaseLoader.LoadSections
    |> DatabaseLoader.loadStep db storedProcs "crossing" DatabaseLoader.LoadCrossings
    |> DatabaseLoader.loadStep db storedProcs "lane" DatabaseLoader.LoadLanes
    |> DatabaseLoader.loadStep db storedProcs "turning" DatabaseLoader.LoadTurnings
    |> DatabaseLoader.loadStep db storedProcs "polyline" DatabaseLoader.LoadPolylines
    |> DatabaseLoader.loadStep db storedProcs "tripchain" DatabaseLoader.LoadTripchains
    |> DatabaseLoader.loadStep db storedProcs "signal" DatabaseLoader.LoadTrafficSignals

/-- The function Loader::LoadNetwork (Loader.cpp 1240-1291): the string
returned. `later` stands for the steps after the load, from
DecorateAndTranslateObjects on; every `std::exception` ends in the handler,
which returns its message. -/
def aimsun.Loader.LoadNetwork (db : aimsun.Database) (storedProcs : List (String × String))
    (later : DatabaseLoader → Exec DatabaseLoader Unit) : Exec Unit String :=
  match db.connect with
  | .error e => .ok e ()
  | .ok _ =>
    match (DatabaseLoader.LoadBasicAimsunObjects db storedProcs DatabaseLoader.fresh).bind
        fun _ L => later L with
    | .ok _ _ => .ok "" ()
    | .thrown e _ => .ok e ()
    | .undef _ => .undef ()
/-- The statements `ptr->sectionsAtNode.push_back(sec)` of step 1 of
DecorateAndTranslateObjects, on the map of nodes; `none` is the undefined
access through a pointer that is null or points to no node. -/
def aimsun.pushSection (nodes : List (Int × aimsun.Node)) (ptr : Option Int) (sec : Int) :
    Option (List (Int × aimsun.Node)) :=
  match ptr with
  | none => none
  | some a =>
    match nodes.lookup a with
    | none => none
    | some n =>
      some (aimsun.mapPut nodes a { n with sectionsAtNode := n.sectionsAtNode ++ [sec] })

/-- Step 1 of DecorateAndTranslateObjects (Loader.cpp 560-564), the loop over
`sections_`, on the map of nodes. -/
def DatabaseLoader.tagSections :
    List (Int × aimsun.Section) → List (Int × aimsun.Node) → Option (List (Int × aimsun.Node))
  | [], nodes => some nodes
  | it :: rest, nodes =>
    (aimsun.pushSection nodes it.2.fromNode it.1).bind fun nodes1 =>
      (aimsun.pushSection nodes1 it.2.toNode it.1).bind fun nodes2 =>
        DatabaseLoader.tagSections rest nodes2

/-- The local variables of the loop over the nodes in step 2 of
DecorateAndTranslateObjects (Loader.cpp 576-581), with the tag of the
node. -/
structure aimsun.UniNodeCheck where
  candidateForSegmentNode : Bool
  others : Option Int × Option Int
  flags : Nat × Nat
  expectedName : String
  deriving DecidableEq

/-- The body of the loop over the sections at the node `n` (Loader.cpp
583-614) for the section `s`: the variables afterwards, and whether the loop
goes on (`false` after a `break`). -/
def aimsun.checkSection (n : Int) (s : aimsun.Section) (c : aimsun.UniNodeCheck) :
    aimsun.UniNodeCheck × Bool :=
  let otherNode := if s.fromNode ≠ some n then s.fromNode else s.toNode
  let toFlag : Nat := if s.toNode = some n then 1 else 2
  if c.others.1 = none ∨ c.others.1 = otherNode then
    let c1 := { c with others := (otherNode, c.others.2) }
    if c1.flags.1 &&& toFlag = 0 then
      let c2 := { c1 with flags := (c1.flags.1 ||| toFlag, c1.flags.2) }
      if c2.expectedName = "" then ({ c2 with expectedName := s.roadName }, true)
      else if c2.expectedName ≠ s.roadName then
        ({ c2 with candidateForSegmentNode := false }, false)
      else (c2, true)
    else ({ c1 with candidateForSegmentNode := false }, false)
  else if c.others.2 = none ∨ c.others.2 = otherNode then
    let c1 := { c with others := (c.others.1, otherNode) }
    if c1.flags.2 &&& toFlag = 0 then
      let c2 := { c1 with flags := (c1.flags.1, c1.flags.2 ||| toFlag) }
      if c2.expectedName = "" then ({ c2 with expectedName := s.roadName }, true)
      else if c2.expectedName ≠ s.roadName then
        ({ c2 with candidateForSegmentNode := false }, false)
      else (c2, true)
    else ({ c1 with candidateForSegmentNode := false }, false)
  else ({ c with candidateForSegmentNode := false }, false)

/-- The loop over the sections at the node `n` (Loader.cpp 582-615); `none`
is the undefined access through a pointer to no section. -/
def aimsun.checkSections (sections_ : List (Int × aimsun.Section)) (n : Int) :
    List Int → aimsun.UniNodeCheck → Option aimsun.UniNodeCheck
  | [], c => some c
  | it :: rest, c =>
    match sections_.lookup it with
    | none => none
    | some s =>
      if (aimsun.checkSection n s c).2 then
        aimsun.checkSections sections_ n rest (aimsun.checkSection n s c).1
      else some (aimsun.checkSection n s c).1

/-- The tag that step 2 of DecorateAndTranslateObjects gives the node `n`
(Loader.cpp 575-624). -/
def aimsun.candidateTag (sections_ : List (Int × aimsun.Section)) (n : aimsun.Node) :
    Option Bool :=
  (aimsun.checkSections sections_ n.id n.sectionsAtNode ⟨true, (none, none), (0, 0), ""⟩).map
    fun c =>
      if c.candidateForSegmentNode then
        let flagMatch : Bool :=
          (c.flags.1 == 3 && c.flags.2 == 3) || (c.flags.1 == 1 && c.flags.2 == 2) ||
            (c.flags.1 == 2 && c.flags.2 == 1)
        c.others.1.isSome && c.others.2.isSome && flagMatch
      else false

/-- Step 2 of DecorateAndTranslateObjects (Loader.cpp 574-631), the loop over
`nodes_`; the list of mismatches is only printed. -/
def DatabaseLoader.tagUniNodes (sections_ : List (Int × aimsun.Section)) :
    List (Int × aimsun.Node) → Option (List (Int × aimsun.Node))
  | [] => some []
  | it :: rest =>
    (aimsun.candidateTag sections_ it.2).bind fun tag =>
      (DatabaseLoader.tagUniNodes sections_ rest).map fun rest1 =>
        (it.1, { it.2 with candidateForSegmentNode := tag }) :: rest1

/-- Steps 1 and 2 of DatabaseLoader::DecorateAndTranslateObjects (Loader.cpp
558-634). -/
def DatabaseLoader.tagNodes (L : DatabaseLoader) : Exec DatabaseLoader Unit :=
  match (DatabaseLoader.tagSections L.sections_ L.nodes_).bind
      (DatabaseLoader.tagUniNodes L.sections_) with
  | some nodes => .ok () { L with nodes_ := nodes }
  | none => .undef L

/-- The tag of the node with the given id. -/
def DatabaseLoader.tagOf (L : DatabaseLoader) (id : Int) : Option Bool :=
  (L.nodes_.lookup id).map fun n => n.candidateForSegmentNode

/-- A sample node row. -/
def exNodeRow (id : Int) : aimsun.Node := ⟨id, 0, 0, false, [], false⟩

/-- A sample section row from node `a` to node `b`. -/
def exSectionRow (id : Int) (roadName : String) (a b : Int) : aimsun.Section :=
  ⟨id, roadName, 50, a, b, none, none⟩

/-- A sample database of the one-way road from node 2 through node 1 to node
3, with the sections 10, which has no road name, and 11, of road "A", and
with a turning from section 10 to a section 99 that does not exist. Any
statement other than the ones named is refused. -/
def exDatabase : aimsun.Database :=
  { connect := .ok ()
    nodes := fun q =>
      if q = "select * from get_nodes()" then .ok [exNodeRow 1, exNodeRow 2, exNodeRow 3]
      else .error "syntax error at end of input"
    sections := fun q =>
      if q = "select * from get_sections()" then
        .ok [exSectionRow 10 "" 2 1, exSectionRow 11 "A" 1 3]
      else .error "syntax error at end of input"
    crossings := fun q =>
      if q = "select * from get_crossings()" then .ok []
      else .error "syntax error at end of input"
    lanes := fun q =>
      if q = "select * from get_lanes()" then .ok [] else .error "syntax error at end of input"
    turnings := fun q =>
      if q = "select * from get_turnings()" then .ok [⟨5, 10, 99, none, none⟩]
      else .error "syntax error at end of input"
    polylines := fun q =>
      if q = "select * from get_polylines()" then .ok []
      else .error "syntax error at end of input"
    tripchains := fun q =>
      if q = "select * from get_tripchains()" then .ok []
      else .error "syntax error at end of input"
    signals := fun q =>
      if q = "select * from get_signals()" then .ok []
      else .error "syntax error at end of input"
    DailyTime := fun _ => .ok 0 }

/-- The sample database without the turning. -/
def exDatabaseNoTurning : aimsun.Database :=
  { exDatabase with
    turnings := fun q =>
      if q = "select * from get_turnings()" then .ok []
      else .error "syntax error at end of input" }

/-- The sample database with the road names of the two sections
exchanged. -/
def exDatabaseSwapped : aimsun.Database :=
  { exDatabase with
    sections := fun q =>
      if q = "select * from get_sections()" then
        .ok [exSectionRow 10 "A" 2 1, exSectionRow 11 "" 1 3]
      else .error "syntax error at end of input" }

/-- The stored procedures of the sample configuration. -/
def exStoredProcs : List (String × String) :=
  [("node", "get_nodes()"), ("section", "get_sections()"), ("crossing", "get_crossings()"),
    ("lane", "get_lanes()"), ("turning", "get_turnings()"), ("polyline", "get_polylines()"),
    ("tripchain", "get_tripchains()"), ("signal", "get_signals()")]

/-- Whether both sections that a turning row names are among the sections
loaded. -/
def aimsun.Turning.sectionsKnown (sections_ : List (Int × aimsun.Section))
    (it : aimsun.Turning) : Bool :=
  decide (aimsun.mapCount sections_ it.TMP_FromSection ≠ 0 ∧
    aimsun.mapCount sections_ it.TMP_ToSection ≠ 0)

/-- The statements of LoadBasicAimsunObjects in their order, each with the
name of its stored procedure. -/
def DatabaseLoader.loadSteps :
    List (String × (aimsun.Database → String → DatabaseLoader → Exec DatabaseLoader Unit)) :=
  [("node", DatabaseLoader.LoadNodes), ("section", DatabaseLoader.LoadSections),
    ("crossing", DatabaseLoader.LoadCrossings), ("lane", DatabaseLoader.LoadLanes),
    ("turning", DatabaseLoader.LoadTurnings), ("polyline", DatabaseLoader.LoadPolylines),
    ("tripchain", DatabaseLoader.LoadTripchains), ("signal", DatabaseLoader.LoadTrafficSignals)]

/-- Some statements of LoadBasicAimsunObjects run one after the other. -/
def DatabaseLoader.runSteps (db : aimsun.Database) (storedProcs : List (String × String))
    (steps : List (String ×
      (aimsun.Database → String → DatabaseLoader → Exec DatabaseLoader Unit)))
    (before : Exec DatabaseLoader Unit) : Exec DatabaseLoader Unit :=
  steps.foldl (fun r s => DatabaseLoader.loadStep db storedProcs s.1 s.2 r) before

/-- The loader when the statement number `k` of LoadBasicAimsunObjects
starts, counting from 0: the outcome of the statements before it on a new
loader. -/
def DatabaseLoader.loadedBefore (db : aimsun.Database) (storedProcs : List (String × String))
    (k : Nat) : Exec DatabaseLoader Unit :=
  DatabaseLoader.runSteps db storedProcs (DatabaseLoader.loadSteps.take k)
    (.ok () DatabaseLoader.fresh)

/-! ## Basic facts -/

@[simp] theorem Exec.bind_ok {σ α β : Type} (a : α) (s : σ) (f : α → σ → Exec σ β) :
    (Exec.ok a s).bind f = f a s := rfl

@[simp] theorem Exec.bind_thrown {σ α β : Type} (w : String) (s : σ) (f : α → σ → Exec σ β) :
    (Exec.thrown w s : Exec σ α).bind f = Exec.thrown w s := rfl

@[simp] theorem Exec.bind_undef {σ α β : Type} (s : σ) (f : α → σ → Exec σ β) :
    (Exec.undef s : Exec σ α).bind f = Exec.undef s := rfl

/-- Explicit form of getNextSubTripInTrip: only `currSubTrip` can change. -/
theorem getNextSubTripInTrip_frame (mem : Nat → TripChainItem) (eqS : SubTrip → SubTrip → Bool)
    (p : Person) :
    ∃ sub, (Person.getNextSubTripInTrip mem eqS p).state = { p with currSubTrip := sub } := by
  unfold Person.getNextSubTripInTrip
  repeat' split
  all_goals first
    | exact ⟨p.currSubTrip, rfl⟩
    | exact ⟨_, rfl⟩

/-- The cursor functions change nothing but the two cursors. -/
theorem findNextItemInTripChain_frame (mem : Nat → TripChainItem)
    (eqS : SubTrip → SubTrip → Bool) (p : Person) :
    ∃ item sub, (Person.findNextItemInTripChain mem eqS p).state =
      { p with currTripChainItem := item, currSubTrip := sub } := by
  unfold Person.findNextItemInTripChain
  split
  · split
    · exact ⟨p.currTripChainItem, p.currSubTrip, rfl⟩
    · rename_i first _ _
      obtain ⟨s2, h2⟩ := getNextSubTripInTrip_frame mem eqS
        { p with currTripChainItem := some first }
      exact ⟨some first, s2, h2⟩
  · rename_i ptr _
    obtain ⟨s2, h2⟩ := getNextSubTripInTrip_frame mem eqS
      { p with currTripChainItem := nextAfter (fun q => q == ptr) p.tripChain }
    exact ⟨_, s2, h2⟩

theorem advanceCursors_frame (mem : Nat → TripChainItem) (eqS : SubTrip → SubTrip → Bool)
    (p : Person) :
    ∃ item sub, (Person.advanceCursors mem eqS p).state =
      { p with currTripChainItem := item, currSubTrip := sub } := by
  obtain ⟨s1, h1⟩ := getNextSubTripInTrip_frame mem eqS p
  unfold Person.advanceCursors
  cases hg : Person.getNextSubTripInTrip mem eqS p with
  | thrown w q => rw [hg] at h1; exact ⟨p.currTripChainItem, s1, h1⟩
  | undef q => rw [hg] at h1; exact ⟨p.currTripChainItem, s1, h1⟩
  | ok u q =>
    rw [hg] at h1
    simp only [Exec.state] at h1
    subst h1
    simp only [Exec.bind_ok]
    split
    · obtain ⟨i2, s2, h2⟩ := findNextItemInTripChain_frame mem eqS { p with currSubTrip := s1 }
      exact ⟨i2, s2, h2⟩
    · exact ⟨p.currTripChainItem, s1, rfl⟩
/-- An address holding an object lies inside the heap. -/
theorem heap_lt_of_get {heap : List (Option Role)} {a : Nat} {x : Option Role}
    (h : heap[a]? = some x) : a < heap.length := by
  by_contra hcon
  simp [List.getElem?_eq_none (Nat.le_of_not_lt hcon)] at h

/-- The heap after `safe_delete_item(prevRole)`. -/
theorem safe_delete_item_ok (heap : List (Option Role)) (prev : Option Nat) (rc : Nat)
    (r0 : Role) (hlive : heap[rc]? = some (some r0))
    (hprev : prev = none ∨ ∃ rp rr, prev = some rp ∧ rp ≠ rc ∧ heap[rp]? = some (some rr)) :
    ∃ h, safe_delete_item heap prev = some h ∧ h.length = heap.length ∧
      h[rc]? = some (some r0) ∧ ∀ rp, prev = some rp → h[rp]? = some none := by
  rcases hprev with h | ⟨rp, rr, h, hne, hl⟩
  · subst h
    exact ⟨heap, rfl, rfl, hlive, by simp⟩
  · subst h
    have hlt : rp < heap.length := heap_lt_of_get hl
    refine ⟨heap.set rp none, by simp [safe_delete_item, hl], by simp, ?_, ?_⟩
    · simpa [List.getElem?_set, hne] using hlive
    · intro rp2 h2
      cases h2
      simp [List.getElem?_set, hlt]

/-- Installing a fresh role `r` on a person whose current role `rc` is alive,
then finishing the role change. -/
theorem install_finish_ok (cfg : ConfigParams) (c : Nat) (r : Role) (o d : Option Nat)
    (p3 : Person) (rc : Nat) (r0 : Role)
    (hcur : p3.currRole = some rc) (hprev : p3.prevRole = some rc)
    (hlive : p3.roleHeap[rc]? = some (some r0)) :
    ∃ q, ((Person.installRole r p3).bind fun _ p4 =>
        Person.finishRoleChange cfg c { p4 with originNode := o, destNode := d }) =
        .ok ⟨RET_STATUS.RS_CONTINUE, r0.subscriptionParams, r.subscriptionParams⟩ q ∧
      q.currRole = some p3.roleHeap.length ∧ q.prevRole = some rc ∧
      q.roleAt q.currRole = some { r with parent := some p3.id } ∧
      q.roleAt q.prevRole = some { r0 with parent := none } ∧
      (∀ a, a ≠ rc → a < p3.roleHeap.length → q.roleHeap[a]? = p3.roleHeap[a]?) ∧
      q.originNode = o ∧ q.destNode = d ∧
      q.startTime = (c + cfg.baseGranMS) % 2 ^ 32 ∧ q.firstFrameTick = true ∧
      q.toBeRemoved = false ∧ q.id = p3.id ∧ q.tripChain = p3.tripChain ∧
      q.currTripChainItem = p3.currTripChainItem ∧ q.currSubTrip = p3.currSubTrip := by
  have hlt : rc < p3.roleHeap.length := heap_lt_of_get hlive
  have hne : rc ≠ p3.roleHeap.length := Nat.ne_of_lt hlt
  simp [Person.installRole, Person.changeRole, setParent, hcur, hprev,
    List.getElem?_append, hlt, hlive, List.getElem?_set, hne, hne.symm,
    Person.finishRoleChange, Person.roleAt]
  intro a ha hla
  simp [hla, Ne.symm ha]
/-- Forward description of a successful role switch. -/
theorem react_installs (cfg : ConfigParams) (mem : Nat → TripChainItem) (c : Nat)
    (p2 : Person) (ptr rc : Nat) (r0 newR : Role) (o d : Option Nat)
    (hptr : p2.currTripChainItem = some ptr) (hcur : p2.currRole = some rc)
    (hlive : p2.roleHeap[rc]? = some (some r0))
    (hprev : p2.prevRole = none ∨
      ∃ rp rr, p2.prevRole = some rp ∧ rp ≠ rc ∧ p2.roleHeap[rp]? = some (some rr))
    (hitem : Person.demand cfg mem p2 ptr newR o d) :
    ∃ q, Person.reactToCurrentItem cfg mem c p2 =
        .ok ⟨RET_STATUS.RS_CONTINUE, r0.subscriptionParams, newR.subscriptionParams⟩ q ∧
      q.currRole = some p2.roleHeap.length ∧ q.prevRole = some rc ∧
      q.roleAt q.currRole = some { newR with parent := some p2.id } ∧
      q.roleAt q.prevRole = some { r0 with parent := none } ∧
      (∀ rp, p2.prevRole = some rp → q.roleHeap[rp]? = some none) ∧
      q.originNode = o ∧ q.destNode = d ∧
      q.startTime = (c + cfg.baseGranMS) % 2 ^ 32 ∧ q.firstFrameTick = true ∧
      q.toBeRemoved = false ∧ q.id = p2.id ∧ q.tripChain = p2.tripChain ∧
      q.currTripChainItem = p2.currTripChainItem ∧ q.currSubTrip = p2.currSubTrip := by
  obtain ⟨h, hdel, hlen, hlive2, hgone⟩ :=
    safe_delete_item_ok p2.roleHeap p2.prevRole rc r0 hlive hprev
  obtain ⟨q, hq, h1, h2, h3, h4, h5, h6⟩ := install_finish_ok cfg c newR o d
    { p2 with roleHeap := h, prevRole := p2.currRole } rc r0 hcur hcur hlive2
  have hdisp : ∀ rp, p2.prevRole = some rp → q.roleHeap[rp]? = some none := by
    intro rp hrp
    have hne : rp ≠ rc := by
      rcases hprev with hp | ⟨rp2, rr, hp, hne, _⟩
      · rw [hp] at hrp; cases hrp
      · rw [hp] at hrp; cases hrp; exact hne
    have hlt : rp < h.length := heap_lt_of_get (hgone rp hrp)
    rw [h5 rp hne hlt]
    exact hgone rp hrp
  refine ⟨q, ?_, by simpa [hlen] using h1, h2, h3, h4, hdisp, h6⟩
  rcases hitem with ⟨a, hm, hr, ho, hd⟩ | ⟨t, st, hm, hs, hmode, hr, ho, hd⟩
  · subst hr ho hd
    simp only [Person.reactToCurrentItem, hptr, hdel, hm]
    simpa [hptr] using hq
  · subst hr ho hd
    simp only [Person.reactToCurrentItem, hptr, hdel, hm, hs, hmode]
    simpa [hptr, hs] using hq

/-- Whatever the role pointers are, a role switch that returns has set the
origin / destination it was given, kept the cursors, reset the start time and
the two flags, and reports the cells of the two roles it now points to. -/
theorem install_finish_fields (cfg : ConfigParams) (c : Nat) (r : Role) (o d : Option Nat)
    (p3 q : Person) (st : UpdateStatus)
    (h : ((Person.installRole r p3).bind fun _ p4 =>
        Person.finishRoleChange cfg c { p4 with originNode := o, destNode := d }) = .ok st q) :
    q.originNode = o ∧ q.destNode = d ∧ q.currSubTrip = p3.currSubTrip ∧
      q.currTripChainItem = p3.currTripChainItem ∧ q.tripChain = p3.tripChain ∧
      q.id = p3.id ∧ st.status = RET_STATUS.RS_CONTINUE ∧ q.toBeRemoved = false ∧
      q.startTime = (c + cfg.baseGranMS) % 2 ^ 32 ∧ q.firstFrameTick = true ∧
      q.prevRole = p3.prevRole ∧ q.currRole = some p3.roleHeap.length ∧
      ∃ prev curr, q.roleAt q.prevRole = some prev ∧ q.roleAt q.currRole = some curr ∧
        st.oldParams = prev.subscriptionParams ∧ st.newParams = curr.subscriptionParams := by
  unfold Person.installRole Person.changeRole at h
  simp only at h
  split at h
  · simp at h
  · split at h
    · simp at h
    · simp only [Exec.bind_ok, Person.finishRoleChange] at h
      split at h
      · rename_i prev curr hprev hcurr
        cases h
        refine ⟨rfl, rfl, rfl, rfl, rfl, rfl, rfl, rfl, rfl, rfl, rfl, rfl, prev, curr, ?_, ?_,
          rfl, rfl⟩
        · simpa [Person.roleAt] using hprev
        · simpa [Person.roleAt] using hcurr
      · cases h

/-- Whatever the role pointers are, `reactToCurrentItem` returning a status
other than `Done` has followed the current item. -/
theorem react_ok_fields (cfg : ConfigParams) (mem : Nat → TripChainItem) (c : Nat)
    (p2 q : Person) (st : UpdateStatus)
    (h : Person.reactToCurrentItem cfg mem c p2 = .ok st q)
    (hst : st.status ≠ RET_STATUS.RS_DONE) :
    (∃ ptr, p2.currTripChainItem = some ptr ∧ q.currTripChainItem = some ptr ∧
      ((∃ a, mem ptr = .activity a ∧ q.originNode = a.location ∧ q.destNode = a.location) ∨
       (∃ t s, mem ptr = .trip t ∧ q.currSubTrip = some s ∧ s.mode = "Walk" ∧
          q.originNode = s.fromLocation ∧ q.destNode = s.toLocation))) ∧
      q.currSubTrip = p2.currSubTrip ∧ q.tripChain = p2.tripChain ∧ q.id = p2.id ∧
      st.status = RET_STATUS.RS_CONTINUE ∧ q.toBeRemoved = false ∧
      q.startTime = (c + cfg.baseGranMS) % 2 ^ 32 ∧ q.firstFrameTick = true ∧
      q.prevRole = p2.currRole ∧ (∃ n, q.currRole = some n) ∧
      ∃ prev curr, q.roleAt q.prevRole = some prev ∧ q.roleAt q.currRole = some curr ∧
        st.oldParams = prev.subscriptionParams ∧ st.newParams = curr.subscriptionParams := by
  rcases p2 with ⟨pid, stt, rem, org, dst, chain, item, sub, cr, pr, fft, heap⟩
  unfold Person.reactToCurrentItem at h
  simp only at h ⊢
  cases item with
  | none =>
    simp only at h
    cases h
    exact absurd rfl hst
  | some ptr =>
    simp only at h
    cases hdel : safe_delete_item heap pr with
    | none => simp [hdel] at h
    | some hd =>
      simp only [hdel] at h
      cases hm : mem ptr with
      | other t => simp [hm] at h
      | activity a =>
        simp only [hm] at h
        obtain ⟨h1, h2, h3, h4, h5, h6, h7, h8, h9, h10, h11, h12, h13⟩ :=
          install_finish_fields cfg c _ _ _ _ q st h
        exact ⟨⟨ptr, rfl, h4, Or.inl ⟨a, hm, h1, h2⟩⟩, h3, h5, h6, h7, h8, h9, h10, h11,
          ⟨_, h12⟩, h13⟩
      | trip t =>
        simp only [hm] at h
        cases sub with
        | none => simp at h
        | some s =>
          simp only at h
          by_cases hcar : s.mode = "Car"
          · simp [hcar] at h
          · by_cases hwalk : s.mode = "Walk"
            · simp only [hcar, hwalk, if_false, if_true] at h
              obtain ⟨h1, h2, h3, h4, h5, h6, h7, h8, h9, h10, h11, h12, h13⟩ :=
                install_finish_fields cfg c _ _ _ _ q st h
              exact ⟨⟨ptr, rfl, h4, Or.inr ⟨t, s, hm, h3, hwalk, h1, h2⟩⟩, h3, h5, h6, h7, h8,
                h9, h10, h11, ⟨_, h12⟩, h13⟩
            · simp [hcar, hwalk] at h

/-- Backward description: a role switch that returns a status other than
`Done`, started with a live current role, had a sound previous-role pointer
and an item that asks for a role. -/
theorem react_ok_inv (cfg : ConfigParams) (mem : Nat → TripChainItem) (c : Nat)
    (p2 q : Person) (st : UpdateStatus) (rc : Nat) (r0 : Role)
    (hcur : p2.currRole = some rc) (hlive : p2.roleHeap[rc]? = some (some r0))
    (h : Person.reactToCurrentItem cfg mem c p2 = .ok st q)
    (hst : st.status ≠ RET_STATUS.RS_DONE) :
    ∃ ptr newR o d, p2.currTripChainItem = some ptr ∧
      (p2.prevRole = none ∨
        ∃ rp rr, p2.prevRole = some rp ∧ rp ≠ rc ∧ p2.roleHeap[rp]? = some (some rr)) ∧
      Person.demand cfg mem p2 ptr newR o d := by
  rcases p2 with ⟨pid, stt, rem, org, dst, chain, item, sub, cr, pr, fft, heap⟩
  simp only at hcur hlive ⊢
  subst hcur
  unfold Person.reactToCurrentItem at h
  simp only at h
  cases item with
  | none =>
    simp only at h
    cases h
    exact absurd rfl hst
  | some ptr =>
    simp only at h
    have hsound : ∀ (r : Role) (o d : Option Nat) (hd : List (Option Role)),
        safe_delete_item heap pr = some hd →
        ((Person.installRole r
            ⟨pid, stt, rem, org, dst, chain, some ptr, sub, some rc, some rc, fft, hd⟩).bind
          fun _ p4 => Person.finishRoleChange cfg c { p4 with originNode := o, destNode := d })
          = .ok st q →
          (pr = none ∨ ∃ rp rr, pr = some rp ∧ rp ≠ rc ∧ heap[rp]? = some (some rr)) := by
      intro r o d hd hdel hrun
      cases pr with
      | none => exact Or.inl rfl
      | some rp =>
        right
        simp only [safe_delete_item] at hdel
        cases hg : heap[rp]? with
        | none => simp [hg] at hdel
        | some x =>
          cases x with
          | none => simp [hg] at hdel
          | some rr =>
            refine ⟨rp, rr, rfl, ?_, hg⟩
            intro hcon
            subst hcon
            simp [hg] at hdel
            subst hdel
            have hlt : rp < heap.length := heap_lt_of_get hg
            simp [Person.installRole, Person.changeRole, setParent,
              List.getElem?_append, hlt, List.getElem?_set] at hrun
    cases hdel : safe_delete_item heap pr with
    | none => simp [hdel] at h
    | some hd =>
      simp only [hdel] at h
      cases hm : mem ptr with
      | other t => simp [hm] at h
      | activity a =>
        simp only [hm] at h
        exact ⟨ptr, _, _, _, rfl, hsound _ _ _ hd hdel h, Or.inl ⟨a, hm, rfl, rfl, rfl⟩⟩
      | trip t =>
        simp only [hm] at h
        cases sub with
        | none => simp at h
        | some s =>
          simp only at h
          by_cases hcar : s.mode = "Car"
          · simp [hcar] at h
          · by_cases hwalk : s.mode = "Walk"
            · simp only [hcar, hwalk, if_false, if_true] at h
              exact ⟨ptr, _, _, _, rfl, hsound _ _ _ hd hdel h,
                Or.inr ⟨t, s, hm, rfl, hwalk, rfl, rfl, rfl⟩⟩
            · simp [hcar, hwalk] at h
/-- After the cursors have moved, checkAndReactToTripChain is the reaction
to the item reached. -/
theorem checkAndReact_of_advance (cfg : ConfigParams) (mem : Nat → TripChainItem)
    (eqS : SubTrip → SubTrip → Bool) (c : Nat) (p p2 : Person)
    (hadv : Person.advanceCursors mem eqS p = .ok () p2) :
    Person.checkAndReactToTripChain cfg mem eqS c p = Person.reactToCurrentItem cfg mem c p2 := by
  simp [Person.checkAndReactToTripChain, hadv]

/-- A normal return of checkAndReactToTripChain went through a normal return
of the cursor advance. -/
theorem checkAndReact_ok_inv (cfg : ConfigParams) (mem : Nat → TripChainItem)
    (eqS : SubTrip → SubTrip → Bool) (c : Nat) (p q : Person) (st : UpdateStatus)
    (h : Person.checkAndReactToTripChain cfg mem eqS c p = .ok st q) :
    ∃ p2, Person.advanceCursors mem eqS p = .ok () p2 ∧
      Person.reactToCurrentItem cfg mem c p2 = .ok st q := by
  unfold Person.checkAndReactToTripChain at h
  cases hadv : Person.advanceCursors mem eqS p with
  | ok u p2 => rw [hadv] at h; exact ⟨p2, rfl, h⟩
  | thrown w s => rw [hadv] at h; cases h
  | undef s => rw [hadv] at h; cases h

/-- Fields that the cursor advance leaves alone. -/
theorem advance_ok_frame (mem : Nat → TripChainItem) (eqS : SubTrip → SubTrip → Bool)
    (p p2 : Person) (hadv : Person.advanceCursors mem eqS p = .ok () p2) :
    p2.currRole = p.currRole ∧ p2.prevRole = p.prevRole ∧ p2.roleHeap = p.roleHeap ∧
      p2.id = p.id ∧ p2.tripChain = p.tripChain ∧ p2.originNode = p.originNode ∧
      p2.destNode = p.destNode ∧ p2.startTime = p.startTime ∧
      p2.toBeRemoved = p.toBeRemoved ∧ p2.firstFrameTick = p.firstFrameTick := by
  obtain ⟨item, sub, h⟩ := advanceCursors_frame mem eqS p
  rw [hadv] at h
  simp only [Exec.state] at h
  subst h
  simp

/-- An exhausted search: when the first match is the last element, there is
no element after it. -/
theorem nextAfter_eq_getElem {α : Type} (isX : α → Bool) (l : List α) :
    nextAfter isX l = l[l.findIdx isX + 1]? := by
  induction l with
  | nil => simp [nextAfter]
  | cons y ys ih =>
    by_cases hy : isX y = true
    · simp [nextAfter, List.findIdx_cons, hy, List.head?_eq_getElem?]
    · simp [nextAfter, List.findIdx_cons, hy, ih]

theorem nextAfter_of_last {α : Type} (isX : α → Bool) (l : List α)
    (h : firstMatchIsLast isX l) : nextAfter isX l = none := by
  rw [nextAfter_eq_getElem]
  unfold firstMatchIsLast at h
  simp [h]

/-- C1: once the cursors of a person with sound role pointers have moved to
an item, the item fixes the reaction of checkAndReactToTripChain. An Activity
gives a new ActivityPerformer for that activity; a Trip whose current
sub-trip has mode "Walk" gives a new Pedestrian; mode "Car" throws, and so
does every other mode, and in both error cases the current role pointer and
the role object are as before and no role object has been created. -/
theorem C1_role_fixed_by_item (cfg : ConfigParams) (mem : Nat → TripChainItem)
    (eqS : SubTrip → SubTrip → Bool) (c : Nat) (p p2 : Person) (ptr rc : Nat) (r0 : Role)
    (hadv : Person.advanceCursors mem eqS p = .ok () p2)
    (hptr : p2.currTripChainItem = some ptr)
    (hroles : p.rolesSound rc r0) :
    (∀ a, mem ptr = .activity a →
      ∃ st q, Person.checkAndReactToTripChain cfg mem eqS c p = .ok st q ∧
        q.currRole = some p.roleHeap.length ∧
        q.roleAt q.currRole =
          some ⟨RoleKind.ActivityPerformer a, some p.id, cfg.activityPerformerParams a⟩) ∧
    (∀ t s, mem ptr = .trip t → p2.currSubTrip = some s → s.mode = "Walk" →
      ∃ st q, Person.checkAndReactToTripChain cfg mem eqS c p = .ok st q ∧
        q.currRole = some p.roleHeap.length ∧
        q.roleAt q.currRole = some ⟨RoleKind.Pedestrian, some p.id, cfg.pedestrianParams⟩) ∧
    (∀ t s, mem ptr = .trip t → p2.currSubTrip = some s → s.mode = "Car" →
      ∃ q, Person.checkAndReactToTripChain cfg mem eqS c p =
          .thrown "Cars not supported in Trip Chain role change." q ∧
        q.currRole = p.currRole ∧ q.roleAt q.currRole = some r0 ∧
        q.roleHeap.length = p.roleHeap.length) ∧
    (∀ t s, mem ptr = .trip t → p2.currSubTrip = some s → s.mode ≠ "Car" → s.mode ≠ "Walk" →
      ∃ q, Person.checkAndReactToTripChain cfg mem eqS c p =
          .thrown "Unknown role type for trip chain role change." q ∧
        q.currRole = p.currRole ∧ q.roleAt q.currRole = some r0 ∧
        q.roleHeap.length = p.roleHeap.length) := by
  obtain ⟨f1, f2, f3, f4, -⟩ := advance_ok_frame mem eqS p p2 hadv
  obtain ⟨hcur, hlive, hprev⟩ := hroles
  rw [← f1] at hcur
  rw [← f2, ← f3] at hprev
  rw [← f3] at hlive
  rw [checkAndReact_of_advance cfg mem eqS c p p2 hadv, ← f3, ← f4, ← f1]
  obtain ⟨hd, hdel, hlen, hlive2, -⟩ :=
    safe_delete_item_ok p2.roleHeap p2.prevRole rc r0 hlive hprev
  refine ⟨?_, ?_, ?_, ?_⟩
  · intro a hm
    obtain ⟨q, hq, h1, -, h3, -⟩ := react_installs cfg mem c p2 ptr rc r0 _ _ _ hptr hcur
      hlive hprev (Or.inl ⟨a, hm, rfl, rfl, rfl⟩)
    exact ⟨_, q, hq, h1, h3⟩
  · intro t s hm hs hmode
    obtain ⟨q, hq, h1, -, h3, -⟩ := react_installs cfg mem c p2 ptr rc r0 _ _ _ hptr hcur
      hlive hprev (Or.inr ⟨t, s, hm, hs, hmode, rfl, rfl, rfl⟩)
    exact ⟨_, q, hq, h1, h3⟩
  · intro t s hm hs hmode
    refine ⟨{ p2 with roleHeap := hd, prevRole := p2.currRole }, ?_, rfl, ?_, hlen⟩
    · simp [Person.reactToCurrentItem, hptr, hdel, hm, hs, hmode]
    · simp [Person.roleAt, hcur, hlive2]
  · intro t s hm hs hcar hwalk
    refine ⟨{ p2 with roleHeap := hd, prevRole := p2.currRole }, ?_, rfl, ?_, hlen⟩
    · simp [Person.reactToCurrentItem, hptr, hdel, hm, hs, hcar, hwalk]
    · simp [Person.roleAt, hcur, hlive2]

/-- Witness for C1: the sample walker at the end of its only sub-trip moves
on to the activity and becomes an ActivityPerformer. -/
theorem C1_role_fixed_by_item_witness :
    Person.advanceCursors exMem exEq exWalker =
        .ok () { exWalker with currTripChainItem := some 2, currSubTrip := none } ∧
      exWalker.rolesSound 0 exRole ∧
      ∃ st q, Person.checkAndReactToTripChain exCfg exMem exEq 500 exWalker = .ok st q ∧
        q.currRole = some exWalker.roleHeap.length ∧
        q.roleAt q.currRole =
          some ⟨RoleKind.ActivityPerformer exActivity, some exWalker.id,
            exCfg.activityPerformerParams exActivity⟩ :=
  ⟨by decide, ⟨rfl, rfl, Or.inl rfl⟩,
    (C1_role_fixed_by_item exCfg exMem exEq 500 exWalker
      { exWalker with currTripChainItem := some 2, currSubTrip := none } 2 0 exRole
      (by decide) rfl ⟨rfl, rfl, Or.inl rfl⟩).1 exActivity rfl⟩

/-- C2: for a person with a live current role, whenever
checkAndReactToTripChain returns a status other than Done, the current role
is non-null and differs from the previous role, the previous role is the role
that was current before the call, the object that was the previous role
before the call has been deleted, the new role has the person as parent and
the old role has a null parent. -/
theorem C2_roles_after_switch (cfg : ConfigParams) (mem : Nat → TripChainItem)
    (eqS : SubTrip → SubTrip → Bool) (c : Nat) (p q : Person) (st : UpdateStatus)
    (rc : Nat) (r0 : Role)
    (hcur : p.currRole = some rc) (hlive : p.roleHeap[rc]? = some (some r0))
    (h : Person.checkAndReactToTripChain cfg mem eqS c p = .ok st q)
    (hst : st.status ≠ RET_STATUS.RS_DONE) :
    q.currRole ≠ none ∧ q.currRole ≠ q.prevRole ∧ q.prevRole = p.currRole ∧
      (∀ rp, p.prevRole = some rp → q.roleHeap[rp]? = some none) ∧
      (∃ newR, q.roleAt q.currRole = some newR ∧ newR.parent = some p.id) ∧
      q.roleAt q.prevRole = some { r0 with parent := none } := by
  obtain ⟨p2, hadv, hreact⟩ := checkAndReact_ok_inv cfg mem eqS c p q st h
  obtain ⟨f1, f2, f3, f4, -⟩ := advance_ok_frame mem eqS p p2 hadv
  rw [← f1] at hcur
  rw [← f3] at hlive
  obtain ⟨ptr, newR, o, d, hptr, hprev, hdem⟩ :=
    react_ok_inv cfg mem c p2 q st rc r0 hcur hlive hreact hst
  obtain ⟨q2, hq, h1, h2, h3, h4, h5, -⟩ :=
    react_installs cfg mem c p2 ptr rc r0 newR o d hptr hcur hlive hprev hdem
  rw [hreact] at hq
  cases hq
  have hlt : rc < p2.roleHeap.length := heap_lt_of_get hlive
  refine ⟨by simp [h1], ?_, by rw [h2, ← f1, hcur], ?_, ⟨_, h3, by simp [f4]⟩, h4⟩
  · rw [h1, h2]
    intro hcon
    cases hcon
    exact Nat.lt_irrefl _ hlt
  · intro rp hrp
    exact h5 rp (by rw [f2]; exact hrp)

/-- Witness for C2: the role switch of the sample walker that still holds an
earlier role as previous role. -/
theorem C2_roles_after_switch_witness :
    ∃ st q, Person.checkAndReactToTripChain exCfg exMem exEq 500 exWalkerWithPrev = .ok st q ∧
      st.status ≠ RET_STATUS.RS_DONE ∧
      q.currRole ≠ none ∧ q.currRole ≠ q.prevRole ∧ q.prevRole = exWalkerWithPrev.currRole ∧
      (∀ rp, exWalkerWithPrev.prevRole = some rp → q.roleHeap[rp]? = some none) ∧
      (∃ newR, q.roleAt q.currRole = some newR ∧ newR.parent = some exWalkerWithPrev.id) ∧
      q.roleAt q.prevRole = some { exRole with parent := none } :=
  ⟨_, _, rfl, by decide,
    C2_roles_after_switch exCfg exMem exEq 500 exWalkerWithPrev _ _ 1 exRole rfl rfl rfl
      (by decide)⟩
/-- The cursor advance from the last position: both cursors become null. -/
theorem advance_at_end (mem : Nat → TripChainItem) (eqS : SubTrip → SubTrip → Bool)
    (p : Person) (ptr : Nat)
    (hitem : p.currTripChainItem = some ptr)
    (hlast : firstMatchIsLast (fun q => q == ptr) p.tripChain)
    (hsub : (∃ a, mem ptr = .activity a) ∨
      (∃ t cur, mem ptr = .trip t ∧ p.currSubTrip = some cur ∧
        firstMatchIsLast (fun s => eqS s cur) t.subTrips)) :
    Person.advanceCursors mem eqS p =
      .ok () { p with currTripChainItem := none, currSubTrip := none } := by
  have hnext := nextAfter_of_last _ _ hlast
  rcases hsub with ⟨a, hm⟩ | ⟨t, cur, hm, hs, hl⟩
  · simp [Person.advanceCursors, Person.getNextSubTripInTrip, Person.findNextItemInTripChain,
      hitem, hm, hnext]
  · have hn2 := nextAfter_of_last _ _ hl
    simp [Person.advanceCursors, Person.getNextSubTripInTrip, Person.findNextItemInTripChain,
      hitem, hm, hs, hn2, hnext]

/-- The hook blocks of `update` leave the guards behind: from a person that
passes them, `update` is the hook blocks followed by the trip-chain block
and the final status adjustment. -/
theorem update_of_hooks (cfg : ConfigParams) (hooks : RoleHooks) (mem : Nat → TripChainItem)
    (eqS : SubTrip → SubTrip → Bool) (frameNumber : Nat) (p0 : Person) (r3 : Run)
    (hg : p0.passesGuards (currTimeMS cfg frameNumber))
    (hh : Person.updateHooks cfg hooks frameNumber (currTimeMS cfg frameNumber) ⟨p0, []⟩ =
      .ok () r3) :
    Person.update cfg hooks mem eqS frameNumber p0 =
      match Person.updateReact cfg mem eqS (currTimeMS cfg frameNumber) r3 with
      | .ok retVal r4 => Person.updateReturn retVal r4
      | .thrown _ r => Person.updateReturn UpdateStatus.Continue r.setToBeRemoved
      | .undef r => .undef r := by
  obtain ⟨⟨r0, hr⟩, hstart, hflag⟩ := hg
  unfold Person.update Person.updateTry
  simp only [hr, Nat.not_lt.mpr hstart, hflag, hh, Exec.bind_ok, if_false]
  cases Person.updateReact cfg mem eqS (currTimeMS cfg frameNumber) r3 <;> simp

/-- C3: when the current item is the last item of the chain (the element at
which `std::find` locates it is the last one) and it is an Activity, or a
Trip whose current sub-trip is its last sub-trip (located the same way),
checkAndReactToTripChain returns Done and only nulls the two cursors (role
pointers and heap, origin, destination, start time and removal flag are
untouched); an update whose hooks leave the person in such a state with the
removal flag set returns Done, with the flag still set. -/
theorem C3_done_at_end_of_chain (cfg : ConfigParams) (mem : Nat → TripChainItem)
    (eqS : SubTrip → SubTrip → Bool) (p : Person) (ptr : Nat)
    (hitem : p.currTripChainItem = some ptr)
    (hlast : firstMatchIsLast (fun q => q == ptr) p.tripChain)
    (hsub : (∃ a, mem ptr = .activity a) ∨
      (∃ t cur, mem ptr = .trip t ∧ p.currSubTrip = some cur ∧
        firstMatchIsLast (fun s => eqS s cur) t.subTrips)) :
    (∀ c, Person.checkAndReactToTripChain cfg mem eqS c p =
      .ok UpdateStatus.Done { p with currTripChainItem := none, currSubTrip := none }) ∧
    (∀ hooks frameNumber p0 calls,
      p0.passesGuards (currTimeMS cfg frameNumber) →
      Person.updateHooks cfg hooks frameNumber (currTimeMS cfg frameNumber) ⟨p0, []⟩ =
        .ok () ⟨p, calls⟩ →
      p.toBeRemoved = true →
      Person.update cfg hooks mem eqS frameNumber p0 =
        .ok UpdateStatus.Done
          ⟨{ p with currTripChainItem := none, currSubTrip := none, toBeRemoved := true },
            calls⟩) := by
  have hadv := advance_at_end mem eqS p ptr hitem hlast hsub
  have hdone : ∀ c, Person.checkAndReactToTripChain cfg mem eqS c p =
      .ok UpdateStatus.Done { p with currTripChainItem := none, currSubTrip := none } := by
    intro c
    rw [checkAndReact_of_advance cfg mem eqS c p _ hadv]
    simp [Person.reactToCurrentItem]
  refine ⟨hdone, ?_⟩
  intro hooks frameNumber p0 calls hg hh hrem
  rw [update_of_hooks cfg hooks mem eqS frameNumber p0 _ hg hh]
  simp [Person.updateReact, hrem, liftPerson, hdone, Person.updateReturn, UpdateStatus.Done]

/-- Witness for C3: the sample person at its final activity; its tick hook
sets the removal flag, and the update returns Done. -/
theorem C3_done_at_end_of_chain_witness :
    exAtEnd.currTripChainItem = some 2 ∧
      firstMatchIsLast (fun q => q == 2) exAtEnd.tripChain ∧
      Person.update exCfg exHooks exMem exEq 0 { exAtEnd with toBeRemoved := false } =
        .ok UpdateStatus.Done
          ⟨{ exAtEnd with currTripChainItem := none, currSubTrip := none, toBeRemoved := true },
            [Hook.frame_tick]⟩ :=
  ⟨rfl, by decide,
    (C3_done_at_end_of_chain exCfg exMem exEq exAtEnd 2 rfl (by decide)
      (Or.inl ⟨exActivity, rfl⟩)).2 exHooks 0 { exAtEnd with toBeRemoved := false }
      [Hook.frame_tick] ⟨⟨exRole, rfl⟩, by decide, rfl⟩ (by decide) rfl⟩

/-- With a null sub-trip cursor and well-formed items, getNextSubTripInTrip
returns and keeps the item. -/
theorem getNext_fresh (mem : Nat → TripChainItem) (eqS : SubTrip → SubTrip → Bool)
    (hwf : wellFormedItems mem) (p1 : Person) (hsub : p1.currSubTrip = none) :
    ∃ q, Person.getNextSubTripInTrip mem eqS p1 = .ok () q ∧
      q.currTripChainItem = p1.currTripChainItem := by
  unfold Person.getNextSubTripInTrip
  cases hitem : p1.currTripChainItem with
  | none => exact ⟨_, rfl, by simp [hitem]⟩
  | some ptr =>
    rcases hwf ptr with ⟨a, hm⟩ | ⟨t, hm, hne⟩
    · simp only [hm]
      exact ⟨_, rfl, by simp [hitem]⟩
    · simp only [hm, hsub]
      cases hs : t.subTrips with
      | nil => exact absurd hs hne
      | cons s rest => exact ⟨_, rfl, by simp [hitem]⟩

/-- With a null sub-trip cursor and well-formed items, findNextItemInTripChain
returns with the item that follows the current one, or with the first item
when there is no current one. -/
theorem findNext_fresh (mem : Nat → TripChainItem) (eqS : SubTrip → SubTrip → Bool)
    (hwf : wellFormedItems mem) (p1 : Person) (hsub : p1.currSubTrip = none)
    (hne : p1.tripChain ≠ []) :
    ∃ q, Person.findNextItemInTripChain mem eqS p1 = .ok () q ∧
      q.currTripChainItem =
        match p1.currTripChainItem with
        | none => p1.tripChain.head?
        | some ptr => p1.tripChain[p1.tripChain.findIdx (fun x => x == ptr) + 1]? := by
  rcases p1 with ⟨pid, stt, rem, org, dst, chain, item, sub, cr, pr, fft, heap⟩
  simp only at hsub hne ⊢
  subst hsub
  unfold Person.findNextItemInTripChain
  cases item with
  | none =>
    cases chain with
    | nil => exact absurd rfl hne
    | cons first rest =>
      obtain ⟨q, hq, hi⟩ := getNext_fresh mem eqS hwf
        ⟨pid, stt, rem, org, dst, first :: rest, some first, none, cr, pr, fft, heap⟩ rfl
      exact ⟨q, hq, by simpa using hi⟩
  | some ptr =>
    obtain ⟨q, hq, hi⟩ := getNext_fresh mem eqS hwf
      ⟨pid, stt, rem, org, dst, chain, nextAfter (fun x => x == ptr) chain, none, cr, pr, fft,
        heap⟩ rfl
    exact ⟨q, hq, by simpa [nextAfter_eq_getElem] using hi⟩

/-- Counterexample to C4 as stated: the sample person at its final activity.
The first advance nulls the current item; the next advance makes it point to
the first item of the chain again. -/
theorem C4_counterexample :
    exAtEnd.tripChain ≠ [] ∧
      Person.advanceCursors exMem exEq exAtEnd =
        .ok () { exAtEnd with currTripChainItem := none, currSubTrip := none } ∧
      Person.advanceCursors exMem exEq
          { exAtEnd with currTripChainItem := none, currSubTrip := none } =
        .ok () { exAtEnd with currTripChainItem := some 1, currSubTrip := some exWalk } := by
  decide

/-- C4, amended: for a person with a non-empty trip chain of well-formed
items the cursor advance returns. If the current item was non-null, the
advance keeps it and moves the sub-trip cursor to the next sub-trip of that
Trip (the first one when the sub-trip cursor was null), or moves the current
item to the element right after the position where `std::find` locates it,
or nulls it. If the current item was null, the advance sets it to the first
item of the chain. -/
theorem C4_cursor_moves (mem : Nat → TripChainItem) (eqS : SubTrip → SubTrip → Bool)
    (p : Person) (hne : p.tripChain ≠ []) (hwf : wellFormedItems mem) :
    ∃ q, Person.advanceCursors mem eqS p = .ok () q ∧
      (∀ ptr, p.currTripChainItem = some ptr →
        (q.currTripChainItem = some ptr ∧
          ∃ t s, mem ptr = .trip t ∧ q.currSubTrip = some s ∧
            ((p.currSubTrip = none ∧ t.subTrips.head? = some s) ∨
             (∃ cur, p.currSubTrip = some cur ∧
                t.subTrips[t.subTrips.findIdx (fun x => eqS x cur) + 1]? = some s))) ∨
        (∃ nxt, p.tripChain[p.tripChain.findIdx (fun x => x == ptr) + 1]? = some nxt ∧
          q.currTripChainItem = some nxt) ∨
        q.currTripChainItem = none) ∧
      (p.currTripChainItem = none → q.currTripChainItem = p.tripChain.head?) := by
  have hfind : ∀ p1 : Person, p1.currSubTrip = none → p1.tripChain = p.tripChain →
      p1.currTripChainItem = p.currTripChainItem →
      Person.getNextSubTripInTrip mem eqS p = .ok () p1 →
      ∃ q, Person.advanceCursors mem eqS p = .ok () q ∧
        q.currTripChainItem =
          match p.currTripChainItem with
          | none => p.tripChain.head?
          | some ptr => p.tripChain[p.tripChain.findIdx (fun x => x == ptr) + 1]? := by
    intro p1 hs hc hi hg
    obtain ⟨q, hq, hqi⟩ := findNext_fresh mem eqS hwf p1 hs (by rw [hc]; exact hne)
    refine ⟨q, by simp [Person.advanceCursors, hg, hs, hq], ?_⟩
    rw [hqi, hi, hc]
  have hsplit : ∀ (ptr : Nat) (o : Option Nat), p.currTripChainItem = some ptr →
      o = p.tripChain[p.tripChain.findIdx (fun x => x == ptr) + 1]? →
      (∃ nxt, p.tripChain[p.tripChain.findIdx (fun x => x == ptr) + 1]? = some nxt ∧
        o = some nxt) ∨ o = none := by
    intro ptr o _ ho
    cases o with
    | none => exact Or.inr rfl
    | some nxt => exact Or.inl ⟨nxt, ho.symm, rfl⟩
  cases hitem : p.currTripChainItem with
  | none =>
    obtain ⟨q, hq, hqi⟩ := hfind { p with currSubTrip := none } rfl rfl rfl
      (by simp [Person.getNextSubTripInTrip, hitem])
    refine ⟨q, hq, by simp, ?_⟩
    intro _
    simpa [hitem] using hqi
  | some ptr =>
    rcases hwf ptr with ⟨a, hm⟩ | ⟨t, hm, hst⟩
    · obtain ⟨q, hq, hqi⟩ := hfind { p with currSubTrip := none } rfl rfl rfl
        (by simp [Person.getNextSubTripInTrip, hitem, hm])
      refine ⟨q, hq, ?_, by simp⟩
      intro ptr2 h2
      cases h2
      right
      exact hsplit ptr _ hitem (by simpa [hitem] using hqi)
    · cases hs : p.currSubTrip with
      | none =>
        cases hl : t.subTrips with
        | nil => exact absurd hl hst
        | cons s rest =>
          refine ⟨{ p with currSubTrip := some s }, ?_, ?_, by simp⟩
          · simp [Person.advanceCursors, Person.getNextSubTripInTrip, hitem, hm, hs, hl]
          · intro ptr2 h2
            cases h2
            left
            exact ⟨hitem, t, s, hm, rfl, Or.inl ⟨rfl, by simp [hl]⟩⟩
      | some cur =>
        cases hn : nextAfter (fun x => eqS x cur) t.subTrips with
        | some s =>
          refine ⟨{ p with currSubTrip := some s }, ?_, ?_, by simp⟩
          · simp [Person.advanceCursors, Person.getNextSubTripInTrip, hitem, hm, hs, hn]
          · intro ptr2 h2
            cases h2
            left
            refine ⟨hitem, t, s, hm, rfl, Or.inr ⟨cur, rfl, ?_⟩⟩
            rw [← nextAfter_eq_getElem, hn]
        | none =>
          obtain ⟨q, hq, hqi⟩ := hfind { p with currSubTrip := none } rfl rfl rfl
            (by simp [Person.getNextSubTripInTrip, hitem, hm, hs, hn])
          refine ⟨q, hq, ?_, by simp⟩
          intro ptr2 h2
          cases h2
          right
          exact hsplit ptr _ hitem (by simpa [hitem] using hqi)

/-- Witness for C4: the advance of the sample walker moves the current item
from position 0 to the item at position 1. -/
theorem C4_cursor_moves_witness :
    exWalker.tripChain ≠ [] ∧ wellFormedItems exMem ∧
      ∃ q, Person.advanceCursors exMem exEq exWalker = .ok () q ∧
        q.currTripChainItem = some 2 := by
  have hwf : wellFormedItems exMem := by
    intro ptr
    by_cases h1 : ptr = 1
    · subst h1
      exact Or.inr ⟨_, rfl, by simp⟩
    · by_cases h3 : ptr = 3
      · subst h3
        exact Or.inr ⟨_, rfl, by simp⟩
      · by_cases h4 : ptr = 4
        · subst h4
          exact Or.inr ⟨_, rfl, by simp⟩
        · exact Or.inl ⟨exActivity, by simp [exMem, h1, h3, h4]⟩
  obtain ⟨q, hq, hmove, -⟩ := C4_cursor_moves exMem exEq exWalker (by decide) hwf
  refine ⟨by decide, hwf, q, hq, ?_⟩
  have h0 : Person.advanceCursors exMem exEq exWalker =
      .ok () { exWalker with currTripChainItem := some 2, currSubTrip := none } := by decide
  rw [h0] at hq
  cases hq
  rfl

/-- C5: when the hook blocks of an update at time `c` leave the person
flagged for removal and checkAndReactToTripChain then installs a new role
(returns a status other than Done), `update` returns that status, which is
Continue and carries the cells of the previous role (the role that was
current before the switch) as old list and the cells of the new role as new
list; the removal flag is cleared, firstFrameTick is set, and the start time
is `c + baseGranMS` in `unsigned int` arithmetic, which is `c + baseGranMS`
itself whenever that is representable. -/
theorem C5_update_after_role_switch (cfg : ConfigParams) (hooks : RoleHooks)
    (mem : Nat → TripChainItem) (eqS : SubTrip → SubTrip → Bool) (frameNumber : Nat)
    (p0 p q : Person) (calls : List Hook) (st : UpdateStatus)
    (hg : p0.passesGuards (currTimeMS cfg frameNumber))
    (hh : Person.updateHooks cfg hooks frameNumber (currTimeMS cfg frameNumber) ⟨p0, []⟩ =
      .ok () ⟨p, calls⟩)
    (hrem : p.toBeRemoved = true)
    (hadv : Person.checkAndReactToTripChain cfg mem eqS (currTimeMS cfg frameNumber) p =
      .ok st q)
    (hst : st.status ≠ RET_STATUS.RS_DONE) :
    Person.update cfg hooks mem eqS frameNumber p0 = .ok st ⟨q, calls⟩ ∧
      st.status = RET_STATUS.RS_CONTINUE ∧ q.toBeRemoved = false ∧
      q.firstFrameTick = true ∧
      q.startTime = (currTimeMS cfg frameNumber + cfg.baseGranMS) % 2 ^ 32 ∧
      (currTimeMS cfg frameNumber + cfg.baseGranMS < 2 ^ 32 →
        q.startTime = currTimeMS cfg frameNumber + cfg.baseGranMS) ∧
      q.prevRole = p.currRole ∧
      (∃ prev curr, q.roleAt q.prevRole = some prev ∧ q.roleAt q.currRole = some curr ∧
        st.oldParams = prev.subscriptionParams ∧ st.newParams = curr.subscriptionParams) ∧
      (∀ r0, p.roleAt p.currRole = some r0 → st.oldParams = r0.subscriptionParams) := by
  obtain ⟨p2, hcur, hreact⟩ := checkAndReact_ok_inv cfg mem eqS _ p q st hadv
  obtain ⟨f1, f2, f3, f4, -⟩ := advance_ok_frame mem eqS p p2 hcur
  obtain ⟨-, -, -, -, h5, h6, h7, h8, h9, -, h11⟩ :=
    react_ok_fields cfg mem _ p2 q st hreact hst
  refine ⟨?_, h5, h6, h8, h7, ?_, by rw [h9, f1], h11, ?_⟩
  · rw [update_of_hooks cfg hooks mem eqS frameNumber p0 _ hg hh]
    simp [Person.updateReact, hrem, liftPerson, hadv, Person.updateReturn, h6]
  · intro hlt
    rw [h7, Nat.mod_eq_of_lt hlt]
  · intro r0 hr0
    cases hc : p.currRole with
    | none => simp [Person.roleAt, hc] at hr0
    | some rc =>
      have hlive : p2.roleHeap[rc]? = some (some r0) := by
        rw [f3]
        simp only [Person.roleAt, hc, List.get?_eq_getElem?] at hr0
        cases hx : p.roleHeap[rc]? with
        | none => simp [hx] at hr0
        | some x => simp [hx] at hr0; simp [hr0]
      have hc2 : p2.currRole = some rc := by rw [f1, hc]
      obtain ⟨ptr, newR, o, d, hptr, hprev, hdem⟩ :=
        react_ok_inv cfg mem _ p2 q st rc r0 hc2 hlive hreact hst
      obtain ⟨q2, hq, -⟩ :=
        react_installs cfg mem (currTimeMS cfg frameNumber) p2 ptr rc r0 newR o d hptr hc2
          hlive hprev hdem
      rw [hreact] at hq
      cases hq
      rfl

/-- Witness for C5: the sample walker is updated at frame 5 (500 ms); its
tick sets the removal flag, the trip chain moves on to the activity, and the
update returns Continue with start time 600 ms. -/
theorem C5_update_after_role_switch_witness :
    ∃ q, Person.update exCfg exHooks exMem exEq 5 { exWalker with toBeRemoved := false } =
        .ok ⟨RET_STATUS.RS_CONTINUE, [1, 2], [3]⟩ ⟨q, [Hook.frame_tick]⟩ ∧
      q.toBeRemoved = false ∧ q.firstFrameTick = true ∧ q.startTime = 600 :=
  have h := C5_update_after_role_switch exCfg exHooks exMem exEq 5
    { exWalker with toBeRemoved := false } exWalker _ [Hook.frame_tick] _
    ⟨⟨exRole, rfl⟩, by decide, rfl⟩ (by decide) rfl rfl (by decide)
  ⟨_, h.1, h.2.2.1, h.2.2.2.1, h.2.2.2.2.2.1 (by decide)⟩

/-- C6: after a checkAndReactToTripChain that installs a new role (returns a
status other than Done) the origin and destination come from the current
item: for an Activity both are the location of the activity, for a Trip they
are the from- and to-location of the current sub-trip. -/
theorem C6_origin_dest_from_item (cfg : ConfigParams) (mem : Nat → TripChainItem)
    (eqS : SubTrip → SubTrip → Bool) (c : Nat) (p q : Person) (st : UpdateStatus)
    (h : Person.checkAndReactToTripChain cfg mem eqS c p = .ok st q)
    (hst : st.status ≠ RET_STATUS.RS_DONE) :
    ∃ ptr, q.currTripChainItem = some ptr ∧
      (∀ a, mem ptr = .activity a → q.originNode = a.location ∧ q.destNode = a.location) ∧
      (∀ t, mem ptr = .trip t →
        ∃ s, q.currSubTrip = some s ∧ q.originNode = s.fromLocation ∧
          q.destNode = s.toLocation) := by
  obtain ⟨p2, -, hreact⟩ := checkAndReact_ok_inv cfg mem eqS c p q st h
  obtain ⟨⟨ptr, -, hq, hcase⟩, -⟩ := react_ok_fields cfg mem c p2 q st hreact hst
  refine ⟨ptr, hq, ?_, ?_⟩
  · intro a hm
    rcases hcase with ⟨a2, hm2, ho, hd⟩ | ⟨t, s, hm2, -⟩
    · rw [hm] at hm2
      cases hm2
      exact ⟨ho, hd⟩
    · rw [hm] at hm2
      cases hm2
  · intro t hm
    rcases hcase with ⟨a2, hm2, -⟩ | ⟨t2, s, hm2, hs, -, ho, hd⟩
    · rw [hm] at hm2
      cases hm2
    · exact ⟨s, hs, ho, hd⟩

/-- Witness for C6: after its walk to node 20 the sample person performs the
activity at node 20, and origin and destination are both node 20. -/
theorem C6_origin_dest_from_item_witness :
    ∃ st q, Person.checkAndReactToTripChain exCfg exMem exEq 500 exWalker = .ok st q ∧
      st.status ≠ RET_STATUS.RS_DONE ∧ q.currTripChainItem = some 2 ∧
      q.originNode = some 20 ∧ q.destNode = some 20 ∧
      ∃ ptr, q.currTripChainItem = some ptr ∧
        (∀ a, exMem ptr = .activity a → q.originNode = a.location ∧ q.destNode = a.location) ∧
        (∀ t, exMem ptr = .trip t →
          ∃ s, q.currSubTrip = some s ∧ q.originNode = s.fromLocation ∧
            q.destNode = s.toLocation) :=
  ⟨_, _, rfl, by decide, rfl, rfl, rfl,
    C6_origin_dest_from_item exCfg exMem exEq 500 exWalker _ _ rfl (by decide)⟩

/-- Counterexample to C7 as stated: the sample walker, scheduled for 1000 ms,
is updated at frame 5 (500 ms). With dynamic dispatch enabled the update is
not skipped: the `try` block throws, the person is flagged for removal and
Done is returned. With dynamic dispatch disabled no error is raised: the
`try` block returns Continue and the person is unchanged. -/
theorem C7_counterexample :
    currTimeMS exCfg 5 < exLate.startTime ∧
      exCfg.dynamicDispatchDisabled = false ∧
      Person.updateTry exCfg exQuietHooks exMem exEq 5 ⟨exLate, []⟩ =
        .thrown (exLate.earlyUpdateMsg 500) ⟨exLate, []⟩ ∧
      Person.update exCfg exQuietHooks exMem exEq 5 exLate =
        .ok UpdateStatus.Done ⟨{ exLate with toBeRemoved := true }, []⟩ ∧
      exCfgNoDispatch.dynamicDispatchDisabled = true ∧
      Person.updateTry exCfgNoDispatch exQuietHooks exMem exEq 5 ⟨exLate, []⟩ =
        .ok (TryExit.returned UpdateStatus.Continue) ⟨exLate, []⟩ ∧
      Person.update exCfgNoDispatch exQuietHooks exMem exEq 5 exLate =
        .ok UpdateStatus.Continue ⟨exLate, []⟩ :=
  ⟨by decide, rfl, rfl, rfl, rfl, rfl, rfl⟩

/-- C7, amended: when a person with a live role is updated at a current time
strictly below its start time, then with dynamic dispatch disabled the
update is skipped silently (it returns Continue, invokes no hook and leaves
the person unchanged), and with dynamic dispatch enabled a scheduling error
is thrown in the `try` block, which the default build turns into the removal
flag and the status Done, still without invoking any hook. -/
theorem C7_early_update (cfg : ConfigParams) (hooks : RoleHooks) (mem : Nat → TripChainItem)
    (eqS : SubTrip → SubTrip → Bool) (frameNumber : Nat) (p : Person) (r0 : Role)
    (hrole : p.roleAt p.currRole = some r0)
    (hearly : currTimeMS cfg frameNumber < p.startTime) :
    (cfg.dynamicDispatchDisabled = true →
      Person.update cfg hooks mem eqS frameNumber p = .ok UpdateStatus.Continue ⟨p, []⟩) ∧
    (cfg.dynamicDispatchDisabled = false →
      (∃ w, Person.updateTry cfg hooks mem eqS frameNumber ⟨p, []⟩ = .thrown w ⟨p, []⟩) ∧
      Person.update cfg hooks mem eqS frameNumber p =
        .ok UpdateStatus.Done ⟨{ p with toBeRemoved := true }, []⟩) := by
  refine ⟨?_, ?_⟩
  · intro hd
    simp [Person.update, Person.updateTry, hrole, hearly, hd]
  · intro hd
    refine ⟨⟨p.earlyUpdateMsg (currTimeMS cfg frameNumber),
      by simp [Person.updateTry, hrole, hearly, hd]⟩, ?_⟩
    simp [Person.update, Person.updateTry, hrole, hearly, hd, Person.updateReturn,
      Run.setToBeRemoved, UpdateStatus.Done, UpdateStatus.Continue]

/-- Witness for C7: the early update of the sample walker without dynamic
dispatch is a silent skip. -/
theorem C7_early_update_witness :
    exLate.roleAt exLate.currRole = some exRole ∧
      currTimeMS exCfgNoDispatch 5 < exLate.startTime ∧
      Person.update exCfgNoDispatch exQuietHooks exMem exEq 5 exLate =
        .ok UpdateStatus.Continue ⟨exLate, []⟩ :=
  ⟨rfl, by decide,
    (C7_early_update exCfgNoDispatch exQuietHooks exMem exEq 5 exLate exRole rfl
      (by decide)).1 rfl⟩

/-- C10: in the default build `update` never ends in an exception, and
whenever its `try` block throws (a start-time check, a role hook or
checkAndReactToTripChain), it returns normally with status Done and the
removal flag set; this holds in particular when the hook blocks throw and
when the trip-chain block throws. -/
theorem C10_update_never_throws (cfg : ConfigParams) (hooks : RoleHooks)
    (mem : Nat → TripChainItem) (eqS : SubTrip → SubTrip → Bool) (frameNumber : Nat)
    (p : Person) :
    (∀ w r, Person.update cfg hooks mem eqS frameNumber p ≠ .thrown w r) ∧
    (∀ w r, Person.updateTry cfg hooks mem eqS frameNumber ⟨p, []⟩ = .thrown w r →
      Person.update cfg hooks mem eqS frameNumber p =
        .ok UpdateStatus.Done r.setToBeRemoved ∧
      r.setToBeRemoved.person.toBeRemoved = true) ∧
    (∀ w r, p.passesGuards (currTimeMS cfg frameNumber) →
      Person.updateHooks cfg hooks frameNumber (currTimeMS cfg frameNumber) ⟨p, []⟩ =
        .thrown w r →
      Person.update cfg hooks mem eqS frameNumber p =
        .ok UpdateStatus.Done r.setToBeRemoved) ∧
    (∀ r3 w r, p.passesGuards (currTimeMS cfg frameNumber) →
      Person.updateHooks cfg hooks frameNumber (currTimeMS cfg frameNumber) ⟨p, []⟩ =
        .ok () r3 →
      Person.updateReact cfg mem eqS (currTimeMS cfg frameNumber) r3 = .thrown w r →
      Person.update cfg hooks mem eqS frameNumber p =
        .ok UpdateStatus.Done r.setToBeRemoved) := by
  have hcatch : ∀ w r,
      Person.updateTry cfg hooks mem eqS frameNumber ⟨p, []⟩ = .thrown w r →
      Person.update cfg hooks mem eqS frameNumber p =
        .ok UpdateStatus.Done r.setToBeRemoved := by
    intro w r h
    simp [Person.update, h, Person.updateReturn, Run.setToBeRemoved, UpdateStatus.Done,
      UpdateStatus.Continue]
  refine ⟨?_, fun w r h => ⟨hcatch w r h, rfl⟩, ?_, ?_⟩
  · intro w r
    unfold Person.update
    cases Person.updateTry cfg hooks mem eqS frameNumber ⟨p, []⟩ with
    | ok e r1 =>
      cases e with
      | returned st => simp
      | fellThrough st =>
        simp only [Person.updateReturn]
        split <;> simp
    | thrown w1 r1 =>
      simp only [Person.updateReturn]
      split <;> simp
    | undef r1 => simp
  · intro w r hg hh
    obtain ⟨⟨r0, hr⟩, hstart, hflag⟩ := hg
    apply hcatch w
    simp [Person.updateTry, hr, Nat.not_lt.mpr hstart, hflag, hh]
  · intro r3 w r hg hh hre
    obtain ⟨⟨r0, hr⟩, hstart, hflag⟩ := hg
    apply hcatch w
    simp [Person.updateTry, hr, Nat.not_lt.mpr hstart, hflag, hh, hre]

/-- Witness for C10: the tick hook of the sample walker throws at its first
frame; the update returns Done with the removal flag set. -/
theorem C10_update_never_throws_witness :
    Person.updateTry exCfg exThrowingHooks exMem exEq 0 ⟨exFresh, []⟩ =
        .thrown "tick failed"
          ⟨{ exFresh with firstFrameTick := false }, [Hook.frame_init, Hook.frame_tick]⟩ ∧
      Person.update exCfg exThrowingHooks exMem exEq 0 exFresh =
        .ok UpdateStatus.Done
          ⟨{ exFresh with firstFrameTick := false, toBeRemoved := true },
            [Hook.frame_init, Hook.frame_tick]⟩ :=
  ⟨by decide,
    ((C10_update_never_throws exCfg exThrowingHooks exMem exEq 0 exFresh).2.1 "tick failed"
      ⟨{ exFresh with firstFrameTick := false }, [Hook.frame_init, Hook.frame_tick]⟩
      (by decide)).1⟩

/-! ## Half-hour windows -/

/-- The window in quarter hours: four times the window is `4 h + 1` or
`4 h + 3` for the shifted hour `h`. -/
theorem getHalfHourWindow_quarters (t : Nat) :
    4 * getHalfHourWindow t =
      ((4 * (if t / 3600 < 3 then t / 3600 + 24 else t / 3600) +
        (if t % 3600 < 1800 then 1 else 3) : Nat) : ℚ) := by
  unfold getHalfHourWindow SECONDS_IN_ONE_HOUR
  have hmin : (t % 3600 / 60 < 30) ↔ t % 3600 < 1800 := by omega
  simp only [hmin]
  by_cases h1 : t / 3600 < 3 <;> by_cases h2 : t % 3600 < 1800 <;> simp [h1, h2] <;> ring

/-- C14: getHalfHourWindow(t) is `h' + 0.25` when the minute of the hour,
`(t mod 3600) div 60`, is below 30 and `h' + 0.75` otherwise, where
`h = t div 3600` and `h' = h + 24` if `h < 3`, else `h`; in particular the
five values listed in the specification. -/
theorem C14_half_hour_window :
    (∀ t : Nat, t < 86400 →
      getHalfHourWindow t =
        if t % 3600 / 60 < 30 then
          ((if t / 3600 < 3 then t / 3600 + 24 else t / 3600 : Nat) : ℚ) + 0.25
        else ((if t / 3600 < 3 then t / 3600 + 24 else t / 3600 : Nat) : ℚ) + 0.75) ∧
    getHalfHourWindow (3 * 3600) = 3.25 ∧
    getHalfHourWindow (3 * 3600 + 1799) = 3.25 ∧
    getHalfHourWindow (3 * 3600 + 1800) = 3.75 ∧
    getHalfHourWindow (23 * 3600 + 1800) = 23.75 ∧
    getHalfHourWindow 0 = 24.25 := by
  refine ⟨fun t _ => rfl, ?_, ?_, ?_, ?_, ?_⟩ <;>
    norm_num [getHalfHourWindow, SECONDS_IN_ONE_HOUR]

/-- Witness for C14: one second before 03:30 the window is still 3.25. -/
theorem C14_half_hour_window_witness :
    (12599 : Nat) < 86400 ∧ getHalfHourWindow 12599 = 3.25 :=
  ⟨by decide, by
    rw [C14_half_hour_window.1 12599 (by decide)]
    norm_num⟩
/-- The window in quarter hours as a natural number. -/
theorem getHalfHourWindow_quarters_nat (t : Nat) :
    ∃ q : Nat, 4 * getHalfHourWindow t = (q : ℚ) ∧
      q = 4 * (if t / 3600 < 3 then t / 3600 + 24 else t / 3600) +
        (if t % 3600 < 1800 then 1 else 3) :=
  ⟨_, getHalfHourWindow_quarters t, rfl⟩

/-- C15: for every time of day `t < 86400` the window lies between 3.25 and
26.75 and is `k + 0.25` or `k + 0.75` for some `3 <= k <= 26`; each of these
48 numbers is the window of some time of day; and two times of day have the
same window exactly when they lie in the same clock half-hour. -/
theorem C15_window_values :
    (∀ t : Nat, t < 86400 → 3.25 ≤ getHalfHourWindow t ∧ getHalfHourWindow t ≤ 26.75) ∧
    (∀ t : Nat, t < 86400 → ∃ k : Nat, 3 ≤ k ∧ k ≤ 26 ∧
      (getHalfHourWindow t = (k : ℚ) + 0.25 ∨ getHalfHourWindow t = (k : ℚ) + 0.75)) ∧
    (∀ k : Nat, 3 ≤ k → k ≤ 26 →
      (∃ t : Nat, t < 86400 ∧ getHalfHourWindow t = (k : ℚ) + 0.25) ∧
      (∃ t : Nat, t < 86400 ∧ getHalfHourWindow t = (k : ℚ) + 0.75)) ∧
    (∀ t1 t2 : Nat, t1 < 86400 → t2 < 86400 →
      (getHalfHourWindow t1 = getHalfHourWindow t2 ↔ t1 / 1800 = t2 / 1800)) := by
  refine ⟨?_, ?_, ?_, ?_⟩
  · intro t ht
    obtain ⟨q, hq, hdef⟩ := getHalfHourWindow_quarters_nat t
    have hb : 13 ≤ q ∧ q ≤ 107 := by
      subst hdef
      split_ifs <;> omega
    have h1 : (13 : ℚ) ≤ (q : ℚ) := by exact_mod_cast hb.1
    have h2 : (q : ℚ) ≤ 107 := by exact_mod_cast hb.2
    rw [← hq] at h1 h2
    constructor <;> linarith
  · intro t ht
    obtain ⟨q, hq, hdef⟩ := getHalfHourWindow_quarters_nat t
    have hk : ∃ k : Nat, 3 ≤ k ∧ k ≤ 26 ∧ (q = 4 * k + 1 ∨ q = 4 * k + 3) := by
      subst hdef
      by_cases h1 : t / 3600 < 3
      · refine ⟨t / 3600 + 24, by omega, by omega, ?_⟩
        split_ifs <;> omega
      · refine ⟨t / 3600, by omega, by omega, ?_⟩
        split_ifs <;> omega
    obtain ⟨k, hk1, hk2, hk3⟩ := hk
    refine ⟨k, hk1, hk2, ?_⟩
    rcases hk3 with h | h
    · left
      have : (q : ℚ) = 4 * (k : ℚ) + 1 := by exact_mod_cast h
      rw [← hq] at this
      linarith
    · right
      have : (q : ℚ) = 4 * (k : ℚ) + 3 := by exact_mod_cast h
      rw [← hq] at this
      linarith
  · intro k hk1 hk2
    have hgen : ∀ (t q : Nat), 4 * getHalfHourWindow t = (q : ℚ) →
        ∀ x : ℚ, 4 * x = (q : ℚ) → getHalfHourWindow t = x := by
      intro t q h1 x h2
      linarith
    by_cases hk : k < 24
    · refine ⟨⟨k * 3600, by omega, ?_⟩, ⟨k * 3600 + 1800, by omega, ?_⟩⟩
      · obtain ⟨q, hq, hdef⟩ := getHalfHourWindow_quarters_nat (k * 3600)
        apply hgen _ q hq
        have h1 : k * 3600 / 3600 = k := by omega
        have h2 : k * 3600 % 3600 = 0 := by omega
        have hq2 : q = 4 * k + 1 := by
          rw [hdef, h1, h2]
          split_ifs <;> omega
        rw [hq2]
        push_cast
        ring
      · obtain ⟨q, hq, hdef⟩ := getHalfHourWindow_quarters_nat (k * 3600 + 1800)
        apply hgen _ q hq
        have h1 : (k * 3600 + 1800) / 3600 = k := by omega
        have h2 : (k * 3600 + 1800) % 3600 = 1800 := by omega
        have hq2 : q = 4 * k + 3 := by
          rw [hdef, h1, h2]
          split_ifs <;> omega
        rw [hq2]
        push_cast
        ring
    · refine ⟨⟨(k - 24) * 3600, by omega, ?_⟩, ⟨(k - 24) * 3600 + 1800, by omega, ?_⟩⟩
      · obtain ⟨q, hq, hdef⟩ := getHalfHourWindow_quarters_nat ((k - 24) * 3600)
        apply hgen _ q hq
        have h1 : (k - 24) * 3600 / 3600 = k - 24 := by omega
        have h2 : (k - 24) * 3600 % 3600 = 0 := by omega
        have hq2 : q = 4 * k + 1 := by
          rw [hdef, h1, h2]
          split_ifs <;> omega
        rw [hq2]
        push_cast
        ring
      · obtain ⟨q, hq, hdef⟩ := getHalfHourWindow_quarters_nat ((k - 24) * 3600 + 1800)
        apply hgen _ q hq
        have h1 : ((k - 24) * 3600 + 1800) / 3600 = k - 24 := by omega
        have h2 : ((k - 24) * 3600 + 1800) % 3600 = 1800 := by omega
        have hq2 : q = 4 * k + 3 := by
          rw [hdef, h1, h2]
          split_ifs <;> omega
        rw [hq2]
        push_cast
        ring
  · intro t1 t2 h1 h2
    obtain ⟨q1, hq1, hd1⟩ := getHalfHourWindow_quarters_nat t1
    obtain ⟨q2, hq2, hd2⟩ := getHalfHourWindow_quarters_nat t2
    have hiff : getHalfHourWindow t1 = getHalfHourWindow t2 ↔ q1 = q2 := by
      constructor
      · intro h
        have : (q1 : ℚ) = (q2 : ℚ) := by rw [← hq1, ← hq2, h]
        exact_mod_cast this
      · intro h
        have : (q1 : ℚ) = (q2 : ℚ) := by rw [h]
        rw [← hq1, ← hq2] at this
        linarith
    rw [hiff, hd1, hd2]
    constructor
    · intro h
      split_ifs at h <;> omega
    · intro h
      split_ifs <;> omega

/-- Witness for C15: 02:59:59 lies in the last window of the day, 26.75. -/
theorem C15_window_values_witness :
    (10799 : Nat) < 86400 ∧ getHalfHourWindow 10799 = 26.75 ∧
      3.25 ≤ getHalfHourWindow 10799 ∧ getHalfHourWindow 10799 ≤ 26.75 :=
  ⟨by decide, by norm_num [getHalfHourWindow, SECONDS_IN_ONE_HOUR],
    C15_window_values.1 10799 (by decide)⟩

/-- The numbers printed for a window `k + 0.25` or `k + 0.75`. -/
theorem getRandomTimeInWindow_fields (g : Nat → Int → Int → Int) (k : Nat) (b : Bool)
    (half : Bool) (hg : generateIntInRange g) :
    getRandomTimeInWindow.fields g ((k : ℚ) + (if half then 0.75 else 0.25)) b =
      ⟨(k : Int).tmod 24, g 0 0 (if b then 14 else 29) + (if half then 30 else 0),
        g 1 0 60⟩ := by
  have hfloor : ⌊(k : ℚ) + (if half then 0.75 else 0.25)⌋ = (k : Int) := by
    rw [Int.floor_eq_iff]
    cases half <;> constructor <;> push_cast <;> norm_num
  have hm := (hg 0 0 (if b then 14 else 29) (by cases b <;> decide)).1
  unfold getRandomTimeInWindow.fields
  simp only [hfloor]
  have hval : ((g 0 0 (if b then 14 else 29) : Int) : ℚ) +
      ((k : ℚ) + (if half then 0.75 else 0.25) - ((k : Int) : ℚ) - 0.25) * 60 =
      ((g 0 0 (if b then 14 else 29) + (if half then 30 else 0) : Int) : ℚ) := by
    cases half <;> push_cast <;> norm_num
  rw [hval]
  have hnn : (0 : ℚ) ≤ ((g 0 0 (if b then 14 else 29) + (if half then 30 else 0) : Int) : ℚ) := by
    have : (0 : Int) ≤ g 0 0 (if b then 14 else 29) + (if half then 30 else 0) := by
      cases half <;> simp <;> omega
    exact_mod_cast this
  simp only [truncToInt, hnn, if_true, Int.floor_intCast]

/-- A generator that always returns the upper bound is within its bounds. -/
theorem exGenerateMax_inRange : generateIntInRange exGenerateMax :=
  fun _ _ _ h => ⟨h, le_refl _⟩

/-- C16, at the failing input: for the window 3.25 and a generator that
draws minute 29 and second 60 (both within the bounds passed to
`Utils::generateInt`), getRandomTimeInWindow returns "03:29:60", which read
as seconds since midnight is 12600 = 03:30:00 and lies in window 3.75, not
3.25; with firstFifteenMins set the draws 14 and 60 give "03:14:60", which is
900 seconds into the window and so not within its first 15 minutes. -/
theorem C16_second_sixty_leaves_window :
    generateIntInRange exGenerateMax ∧
      getRandomTimeInWindow.fields exGenerateMax 3.25 false = ⟨3, 29, 60⟩ ∧
      getRandomTimeInWindow exGenerateMax 3.25 false = "03:29:60" ∧
      (getRandomTimeInWindow.fields exGenerateMax 3.25 false).toSeconds = 12600 ∧
      getHalfHourWindow 12600 = 3.75 ∧
      getHalfHourWindow 12600 ≠ 3.25 ∧
      getRandomTimeInWindow.fields exGenerateMax 3.25 true = ⟨3, 14, 60⟩ ∧
      getRandomTimeInWindow exGenerateMax 3.25 true = "03:14:60" ∧
      (getRandomTimeInWindow.fields exGenerateMax 3.25 true).toSeconds = 3 * 3600 + 900 := by
  have h1 : getRandomTimeInWindow.fields exGenerateMax 3.25 false = ⟨3, 29, 60⟩ := by
    have h := getRandomTimeInWindow_fields exGenerateMax 3 false false exGenerateMax_inRange
    norm_num [exGenerateMax] at h
    rw [show (3.25 : ℚ) = 13 / 4 by norm_num, h]
    rfl
  have h2 : getRandomTimeInWindow.fields exGenerateMax 3.25 true = ⟨3, 14, 60⟩ := by
    have h := getRandomTimeInWindow_fields exGenerateMax 3 true false exGenerateMax_inRange
    norm_num [exGenerateMax] at h
    rw [show (3.25 : ℚ) = 13 / 4 by norm_num, h]
    rfl
  refine ⟨exGenerateMax_inRange, h1, ?_, ?_, ?_, ?_, h2, ?_, ?_⟩
  · unfold getRandomTimeInWindow
    rw [h1]
    decide
  · rw [h1]
    decide
  · norm_num [getHalfHourWindow, SECONDS_IN_ONE_HOUR]
  · norm_num [getHalfHourWindow, SECONDS_IN_ONE_HOUR]
  · unfold getRandomTimeInWindow
    rw [h2]
    decide
  · rw [h2]
    decide

/-- What does hold for getRandomTimeInWindow: for each of the 48 windows and
every generator within its bounds whose second draw is not 60, the time
returned lies in the window, and with firstFifteenMins in its first 15
minutes. -/
theorem getRandomTimeInWindow_in_window (g : Nat → Int → Int → Int) (k : Nat) (b half : Bool)
    (hk1 : 3 ≤ k) (hk2 : k ≤ 26) (hg : generateIntInRange g) (hs : g 1 0 60 ≠ 60) :
    ∃ t : Nat,
      (getRandomTimeInWindow.fields g ((k : ℚ) + (if half then 0.75 else 0.25)) b).toSeconds =
        (t : Int) ∧ t < 86400 ∧
      getHalfHourWindow t = (k : ℚ) + (if half then 0.75 else 0.25) ∧
      (b = true → t % 1800 < 900) := by
  rw [getRandomTimeInWindow_fields g k b half hg]
  have hm := hg 0 0 (if b then 14 else 29) (by cases b <;> decide)
  have hsec := hg 1 0 60 (by decide)
  obtain ⟨m, hmeq⟩ : ∃ m : Nat, g 0 0 (if b then 14 else 29) = (m : Int) :=
    ⟨(g 0 0 (if b then 14 else 29)).toNat, (Int.toNat_of_nonneg hm.1).symm⟩
  obtain ⟨s, hseq⟩ : ∃ s : Nat, g 1 0 60 = (s : Int) :=
    ⟨(g 1 0 60).toNat, (Int.toNat_of_nonneg hsec.1).symm⟩
  have hmb : m ≤ (if b then 14 else 29) := by
    have := hm.2
    rw [hmeq] at this
    cases b <;> simp at this ⊢ <;> omega
  have hsb : s ≤ 59 := by
    have h1 := hsec.2
    rw [hseq] at h1 hs
    omega
  have hhour : (k : Int).tmod 24 = ((k % 24 : Nat) : Int) := by
    rw [Int.tmod_eq_emod (by omega) (by omega)]
    omega
  refine ⟨(k % 24) * 3600 + (m + (if half then 30 else 0)) * 60 + s, ?_, ?_, ?_, ?_⟩
  · simp only [ClockTime.toSeconds, hhour, hmeq, hseq]
    cases half <;> push_cast <;> ring
  · cases half <;> cases b <;> simp at hmb ⊢ <;> omega
  · have hq := getHalfHourWindow_quarters
      ((k % 24) * 3600 + (m + (if half then 30 else 0)) * 60 + s)
    have hm29 : m ≤ 29 := by cases b <;> simp at hmb <;> omega
    have hdiv : ((k % 24) * 3600 + (m + (if half then 30 else 0)) * 60 + s) / 3600 = k % 24 := by
      cases half <;> simp <;> omega
    have hmod : ((k % 24) * 3600 + (m + (if half then 30 else 0)) * 60 + s) % 3600 =
        (m + (if half then 30 else 0)) * 60 + s := by
      cases half <;> simp <;> omega
    rw [hdiv, hmod] at hq
    have hnat : (4 * (if k % 24 < 3 then k % 24 + 24 else k % 24) +
        (if (m + (if half then 30 else 0)) * 60 + s < 1800 then 1 else 3) : Nat) =
        4 * k + (if half then 3 else 1) := by
      cases half <;> simp <;> split_ifs <;> omega
    rw [hnat] at hq
    cases half <;> simp at hq ⊢ <;> linarith
  · intro hb
    subst hb
    simp at hmb
    cases half <;> simp <;> omega

/-! ## Person::load -/

/-- C12: `load` throws and leaves the person object (trip chain, cursors,
origin, destination and everything else) and the item memory as they were
when the properties have no "#mode" entry, when exactly one of "originPos"
and "destPos" is present, and when both are present but the person already
has a non-empty trip chain (`entityTripChain`) or an origin or destination
node. -/
theorem C12_load_errors (net : Network) (mem : Nat → TripChainItem)
    (eqS : SubTrip → SubTrip → Bool) (fresh : Nat) (configProps : List (String × String))
    (po : PersonObject) :
    (configProps.lookup "#mode" = none →
      Person.load net mem eqS fresh configProps po =
          .thrown "Cannot load person: no mode" po ∧
        Person.loadMem net mem fresh configProps po = mem) ∧
    ((configProps.lookup "originPos").isSome ≠ (configProps.lookup "destPos").isSome →
      (∃ w, Person.load net mem eqS fresh configProps po = .thrown w po) ∧
        (configProps.lookup "#mode" ≠ none →
          Person.load net mem eqS fresh configProps po =
            .thrown "Agent must specify both originPos and destPos, or neither." po) ∧
        Person.loadMem net mem fresh configProps po = mem) ∧
    ((configProps.lookup "originPos").isSome = true →
      (configProps.lookup "destPos").isSome = true →
      (po.entityTripChain ≠ [] ∨ po.core.originNode ≠ none ∨ po.core.destNode ≠ none) →
      (∃ w, Person.load net mem eqS fresh configProps po = .thrown w po) ∧
        (configProps.lookup "#mode" ≠ none →
          Person.load net mem eqS fresh configProps po =
            .thrown "Manual position specified for Agent with existing Trip Chain." po) ∧
        Person.loadMem net mem fresh configProps po = mem) := by
  have hmode0 : configProps.lookup "#mode" = none →
      Person.load net mem eqS fresh configProps po =
        .thrown "Cannot load person: no mode" po := by
    intro h
    simp [Person.load, mapCount, h]
  refine ⟨?_, ?_, ?_⟩
  · intro h
    exact ⟨hmode0 h, by simp [Person.loadMem, Person.makesPseudoTrip, mapCount, h]⟩
  · intro hne
    have hcount : mapCount configProps "originPos" ≠ mapCount configProps "destPos" := by
      unfold mapCount
      cases h1 : (configProps.lookup "originPos").isSome <;>
        cases h2 : (configProps.lookup "destPos").isSome <;> simp_all
    have hmsg : configProps.lookup "#mode" ≠ none →
        Person.load net mem eqS fresh configProps po =
          .thrown "Agent must specify both originPos and destPos, or neither." po := by
      intro hm
      have hm2 : mapCount configProps "#mode" ≠ 0 := by
        unfold mapCount
        cases h : configProps.lookup "#mode" with
        | none => exact absurd h hm
        | some v => simp
      simp [Person.load, hm2, hcount]
    refine ⟨?_, hmsg, ?_⟩
    · by_cases hm : configProps.lookup "#mode" = none
      · exact ⟨_, hmode0 hm⟩
      · exact ⟨_, hmsg hm⟩
    · unfold Person.loadMem Person.makesPseudoTrip
      rw [if_neg]
      rintro ⟨-, h1, h2, -⟩
      unfold mapCount at hcount h1 h2
      split_ifs at hcount h1 h2 <;> simp_all
  · intro ho hd hhas
    have hco : mapCount configProps "originPos" = 1 := by simp [mapCount, ho]
    have hcd : mapCount configProps "destPos" = 1 := by simp [mapCount, hd]
    have hmsg : configProps.lookup "#mode" ≠ none →
        Person.load net mem eqS fresh configProps po =
          .thrown "Manual position specified for Agent with existing Trip Chain." po := by
      intro hm
      have hm2 : mapCount configProps "#mode" ≠ 0 := by
        unfold mapCount
        cases h : configProps.lookup "#mode" with
        | none => exact absurd h hm
        | some v => simp
      unfold Person.load
      simp only [hm2, hco, hcd, if_false, ne_eq, not_true_eq_false, gt_iff_lt, Nat.lt_one_iff,
        Nat.one_ne_zero, and_self, Nat.zero_lt_one, if_true]
      by_cases he : po.entityTripChain = []
      · have hn : po.core.originNode ≠ none ∨ po.core.destNode ≠ none := by
          rcases hhas with h | h
          · exact absurd he h
          · exact h
        simp [he, hn]
      · simp [he]
    refine ⟨?_, hmsg, ?_⟩
    · by_cases hm : configProps.lookup "#mode" = none
      · exact ⟨_, hmode0 hm⟩
      · exact ⟨_, hmsg hm⟩
    · unfold Person.loadMem Person.makesPseudoTrip
      rw [if_neg]
      rintro ⟨-, -, -, h1, h2, h3⟩
      rcases hhas with h | h | h
      · exact h h1
      · exact h h2
      · exact h h3

/-- Witness for C12: a person that already has an origin node is asked to
build a pseudo trip. -/
theorem C12_load_errors_witness :
    (exProps.lookup "originPos").isSome = true ∧ (exProps.lookup "destPos").isSome = true ∧
      Person.load exNet exMem exEq 5 exProps
          { exUnloaded with core := { exUnloaded.core with originNode := some 10 } } =
        .thrown "Manual position specified for Agent with existing Trip Chain."
          { exUnloaded with core := { exUnloaded.core with originNode := some 10 } } :=
  ⟨by decide, by decide,
    ((C12_load_errors exNet exMem exEq 5 exProps
      { exUnloaded with core := { exUnloaded.core with originNode := some 10 } }).2.2
        (by decide) (by decide) (Or.inr (Or.inl (by decide)))).2.1 (by decide)⟩

/-- What `load` does when it builds a pseudo trip for a person with null
cursors: the chain is the one new trip, which holds one primary
sub-trip with the configured mode; the cursors are on them; but the
locations of the trip and of the sub-trip, and the origin and destination of
the person, are the (null) nodes the person had, not the located ones. -/
theorem load_pseudo_trip (net : Network) (mem : Nat → TripChainItem)
    (eqS : SubTrip → SubTrip → Bool) (fresh : Nat) (configProps : List (String × String))
    (po : PersonObject) (hmk : Person.makesPseudoTrip configProps po)
    (hitem : po.core.currTripChainItem = none) (hsub : po.core.currSubTrip = none)
    (hspecial : configProps.lookup "special" = none) :
    ∃ st : SubTrip,
      Person.loadMem net mem fresh configProps po fresh =
        .trip ⟨(po.core.id : Int), 1, po.core.startTime, po.core.startTime, 0, none, none, [st]⟩ ∧
      st.mode = mapAt configProps "#mode" ∧ st.isPrimaryMode = true ∧
      st.fromLocation = none ∧ st.toLocation = none ∧
      Person.load net mem eqS fresh configProps po =
        .ok ()
          { po with
            core :=
              { po.core with
                originNode := none
                destNode := none
                tripChain := [fresh]
                currTripChainItem := some fresh
                currSubTrip := some st }
            nextPathPlanned := false } := by
  obtain ⟨hm, ho, hd, he, hon, hdn⟩ := hmk
  have hmk2 : Person.makesPseudoTrip configProps po := ⟨hm, ho, hd, he, hon, hdn⟩
  have hod : mapCount configProps "originPos" = mapCount configProps "destPos" := by
    unfold mapCount at ho hd ⊢
    split_ifs at ho hd ⊢ <;> simp_all
  have hsp : ¬ mapCount configProps "special" > 0 := by simp [mapCount, hspecial]
  refine ⟨⟨-1, 1, po.core.startTime, po.core.startTime, 0, none, none,
    mapAt configProps "#mode", true, ""⟩, ?_, rfl, rfl, rfl, rfl, ?_⟩
  · simp [Person.loadMem, hmk2, memWith, Person.pseudoTrip, MakePseudoTrip, hon, hdn]
  · unfold Person.load
    simp only [hm, if_false, hod, ne_eq, not_true_eq_false, ho, hd, and_self, if_true, he, hon,
      hdn, or_self]
    simp [liftCore, Person.findNextItemInTripChain, Person.getNextSubTripInTrip, hitem, hsub, memWith,
      Person.pseudoTrip, MakePseudoTrip, hon, hdn, hsp]

/-- C13, at the failing input: a freshly constructed person is loaded with
mode "Walk", originPos "10,10" and destPos "20,20", which the network locates
at nodes 10 and 20. The load succeeds with a chain of one trip holding one
primary "Walk" sub-trip and with both cursors on them, but the from/to
locations of the trip and of the sub-trip and the origin and destination of
the person are all null instead of nodes 10 and 20. -/
theorem C13_pseudo_trip_drops_located_nodes :
    exNet.locateNode (exNet.parse_point (mapAt exProps "originPos")) = some 10 ∧
      exNet.locateNode (exNet.parse_point (mapAt exProps "destPos")) = some 20 ∧
      Person.load exNet exMem exEq 5 exProps exUnloaded =
        .ok ()
          { exUnloaded with
            core :=
              { exUnloaded.core with
                originNode := none
                destNode := none
                tripChain := [5]
                currTripChainItem := some 5
                currSubTrip := some ⟨-1, 1, 0, 0, 0, none, none, "Walk", true, ""⟩ }
            nextPathPlanned := false } ∧
      Person.loadMem exNet exMem 5 exProps exUnloaded 5 =
        .trip ⟨7, 1, 0, 0, 0, none, none, [⟨-1, 1, 0, 0, 0, none, none, "Walk", true, ""⟩]⟩ := by
  decide

/-! ## PeriodicPersonLoader::addOrStashPerson -/

/-- C11: addOrStashPerson puts a person whose start time is not 0 into the
pending queue and leaves the active set alone (this call always returns); it
puts a person whose start time is 0 into the active set, once its `load` has
returned, and leaves the pending queue alone; so whenever it returns, exactly
one of the two collections has received the person, and a person it has
pushed on the pending queue has a start time greater than 0. -/
theorem C11_add_or_stash
    (load : List (String × String) → PersonObject → Exec PersonObject Unit) (ptr : Nat)
    (L : PeriodicPersonLoader) (p : PersonObject) :
    (p.core.startTime ≠ 0 →
      PeriodicPersonLoader.addOrStashPerson load ptr L p =
        .ok () ({ L with pendingAgents := ptr :: L.pendingAgents }, p)) ∧
    (p.core.startTime = 0 → ∀ p1, load p.configProperties p = .ok () p1 →
      PeriodicPersonLoader.addOrStashPerson load ptr L p =
        .ok () ({ L with activeAgents := L.activeAgents.insert ptr },
          { p1 with configProperties := [] })) ∧
    (∀ L1 p1, PeriodicPersonLoader.addOrStashPerson load ptr L p = .ok () (L1, p1) →
      (p.core.startTime = 0 ∧ ptr ∈ L1.activeAgents ∧
          L1.activeAgents = L.activeAgents.insert ptr ∧
          L1.pendingAgents = L.pendingAgents) ∨
      (0 < p.core.startTime ∧ L1.pendingAgents = ptr :: L.pendingAgents ∧
          L1.activeAgents = L.activeAgents)) := by
  refine ⟨?_, ?_, ?_⟩
  · intro h
    simp [PeriodicPersonLoader.addOrStashPerson, h]
  · intro h p1 hl
    simp [PeriodicPersonLoader.addOrStashPerson, h, hl]
  · intro L1 p1 h
    unfold PeriodicPersonLoader.addOrStashPerson at h
    by_cases hs : p.core.startTime = 0
    · left
      simp only [hs, if_true] at h
      cases hl : load p.configProperties p with
      | ok u q =>
        rw [hl] at h
        simp only [Exec.ok.injEq, Prod.mk.injEq, true_and] at h
        obtain ⟨h1, -⟩ := h
        subst h1
        exact ⟨hs, by simp, rfl, rfl⟩
      | thrown w q => rw [hl] at h; cases h
      | undef q => rw [hl] at h; cases h
    · right
      simp only [hs, if_false] at h
      simp only [Exec.ok.injEq, Prod.mk.injEq, true_and] at h
      obtain ⟨h1, -⟩ := h
      subst h1
      exact ⟨Nat.pos_of_ne_zero hs, rfl, rfl⟩

/-- Witness for C11: with `Person::load` as loader, the sample person
starting at 0 ms goes to the active set and the one starting at 5000 ms to
the pending queue. -/
theorem C11_add_or_stash_witness :
    exDeferred.core.startTime ≠ 0 ∧
      PeriodicPersonLoader.addOrStashPerson (Person.load exNet exMem exEq 5) 70 exLoader
          exDeferred =
        .ok () ({ exLoader with pendingAgents := [70] }, exDeferred) ∧
      exImmediate.core.startTime = 0 ∧
      PeriodicPersonLoader.addOrStashPerson (Person.load exNet exMem exEq 5) 70 exLoader
          exImmediate =
        .ok () ({ exLoader with activeAgents := [70] },
          { exImmediate with configProperties := [] }) :=
  ⟨by decide,
    (C11_add_or_stash (Person.load exNet exMem exEq 5) 70 exLoader exDeferred).1 (by decide),
    rfl,
    (C11_add_or_stash (Person.load exNet exMem exEq 5) 70 exLoader exImmediate).2.1 rfl
      exImmediate (by decide)⟩

/-! ## The loop over the rows -/

/-- Looking up a key in a map whose chain at that key was replaced. -/
theorem mapGet_mapSet (m : List (String × List das.TripChainItem)) (k : String)
    (v : List das.TripChainItem) (h : (m.lookup k).isSome = true) :
    mapGet (mapSet m k v) k = v := by
  induction m with
  | nil => simp at h
  | cons e rest ih =>
    obtain ⟨k1, v1⟩ := e
    by_cases hk : k1 = k
    · subst hk
      simp [mapGet, mapSet, List.lookup_cons]
    · have hk2 : (k == k1) = false := by
        simp only [beq_eq_false_iff_ne, ne_eq]
        exact fun h => hk h.symm
      have hrest : (rest.lookup k).isSome = true := by
        simpa [List.lookup, hk2] using h
      have := ih hrest
      simp only [mapGet, mapSet] at this ⊢
      simp only [List.map_cons, hk, if_false, List.lookup_cons, hk2]
      exact this

/-- Evaluating `tripchains[personId]` makes the key present and keeps its
chain. -/
theorem mapTouch_spec (m : List (String × List das.TripChainItem)) (k : String) :
    ((mapTouch m k).lookup k).isSome = true ∧ mapGet (mapTouch m k) k = mapGet m k := by
  unfold mapTouch mapGet
  by_cases h : (m.lookup k).isSome = true
  · simp [h]
  · simp only [h, Bool.false_eq_true, if_false]
    have hnone : m.lookup k = none := by
      cases hl : m.lookup k with
      | none => rfl
      | some v => simp [hl] at h
    have happ : (m ++ [(k, ([] : List das.TripChainItem))]).lookup k = some [] := by
      clear h
      induction m with
      | nil => simp [List.lookup]
      | cons e rest ih =>
        obtain ⟨k1, v1⟩ := e
        by_cases hk : (k == k1) = true
        · simp [List.lookup, hk] at hnone
        · simp only [Bool.not_eq_true] at hk
          simp only [List.lookup, hk] at hnone
          simp [List.lookup, hk, ih hnone]
    simp [happ, hnone]

/-- C18: for a row whose origin and destination ids are two different nodes
of the network the trip is built, and the loop body appends to the chain of
the row's person that Trip alone when column 9 is 26.75 and column 4 is
"Home", and that Trip immediately followed by the Activity of the row
otherwise; the row is counted in both cases. -/
theorem C18_trip_then_activity (env : LoaderEnv) (i : Nat) (r : Row)
    (m : List (String × List das.TripChainItem)) (n a b : Nat)
    (ha : env.nodeOf r.originNode = some a) (hb : env.nodeOf r.destNode = some b)
    (hab : a ≠ b) :
    ∃ trip act,
      PeriodicPersonLoader.makeTrip env (env.rng (3 * i)) r
          ((mapGet m r.personId).length + 1) = .ok (some trip) () ∧
      PeriodicPersonLoader.makeActivity env (env.rng (3 * i + 1)) (env.rng (3 * i + 2)) r
          ((mapGet m r.personId).length + 2) = .ok act () ∧
      ((r.departureWindow = 26.75 ∧ r.activityType = "Home") →
        ∃ m1, PeriodicPersonLoader.addRow env i r (m, n) = .ok () (m1, n + 1) ∧
          mapGet m1 r.personId = mapGet m r.personId ++ [.trip trip]) ∧
      (¬ (r.departureWindow = 26.75 ∧ r.activityType = "Home") →
        ∃ m1, PeriodicPersonLoader.addRow env i r (m, n) = .ok () (m1, n + 1) ∧
          mapGet m1 r.personId =
            mapGet m r.personId ++ [.trip trip, .activity act]) := by
  obtain ⟨hpres, hget⟩ := mapTouch_spec m r.personId
  have habne : ¬ (some a : Option Nat) = some b := by
    intro h
    exact hab (Option.some.inj h)
  have htrip : ∀ seqNo, ∃ trip,
      PeriodicPersonLoader.makeTrip env (env.rng (3 * i)) r seqNo = .ok (some trip) () := by
    intro seqNo
    simp [PeriodicPersonLoader.makeTrip, PeriodicPersonLoader.makeSubTrip, ha, hb, hab]
  have hact : ∀ seqNo, ∃ act,
      PeriodicPersonLoader.makeActivity env (env.rng (3 * i + 1)) (env.rng (3 * i + 2)) r
        seqNo = .ok act () := by
    intro seqNo
    simp [PeriodicPersonLoader.makeActivity, hb]
  obtain ⟨trip, ht⟩ := htrip ((mapGet m r.personId).length + 1)
  obtain ⟨act, hac⟩ := hact ((mapGet m r.personId).length + 2)
  refine ⟨trip, act, ht, hac, ?_, ?_⟩
  · rintro ⟨h1, h2⟩
    refine ⟨_, ?_, mapGet_mapSet _ _ _ hpres⟩
    unfold PeriodicPersonLoader.addRow
    simp only [hget, ht]
    simp [h1, h2, LAST_30MIN_WINDOW_OF_DAY, HOME_ACTIVITY_TYPE]
  · intro hnot
    refine ⟨_, ?_, mapGet_mapSet _ _ _ hpres⟩
    unfold PeriodicPersonLoader.addRow
    simp only [hget, ht, hac]
    have hl : (decide (r.departureWindow = LAST_30MIN_WINDOW_OF_DAY) &&
        decide (r.activityType = HOME_ACTIVITY_TYPE)) = false := by
      simp only [LAST_30MIN_WINDOW_OF_DAY, HOME_ACTIVITY_TYPE, Bool.and_eq_false_imp,
        decide_eq_true_eq, decide_eq_false_iff_not]
      intro h1 h2
      exact hnot ⟨h1, h2⟩
    simp [hl]

/-- Witness for C18: the two sample rows of person P1. The work row appends
a Trip and an Activity to the empty chain, the home row, whose departure
window is 26.75, a Trip only. -/
theorem C18_trip_then_activity_witness :
    exLoaderEnv.nodeOf exRowWork.originNode = some 10 ∧
      exLoaderEnv.nodeOf exRowWork.destNode = some 20 ∧
      (∃ trip act m1,
        PeriodicPersonLoader.addRow exLoaderEnv 0 exRowWork ([], 0) = .ok () (m1, 1) ∧
          mapGet m1 "P1" = [.trip trip, .activity act]) ∧
      (∃ trip m1,
        PeriodicPersonLoader.addRow exLoaderEnv 1 exRowHome ([], 0) = .ok () (m1, 1) ∧
          mapGet m1 "P1" = [.trip trip]) := by
  refine ⟨rfl, rfl, ?_, ?_⟩
  · obtain ⟨trip, act, -, -, -, h⟩ :=
      C18_trip_then_activity exLoaderEnv 0 exRowWork [] 0 10 20 rfl rfl (by decide)
    obtain ⟨m1, h1, h2⟩ := h (by norm_num [exRowWork])
    exact ⟨trip, act, m1, h1, h2⟩
  · obtain ⟨trip, act, -, -, h, -⟩ :=
      C18_trip_then_activity exLoaderEnv 1 exRowHome [] 0 20 10 rfl rfl (by decide)
    obtain ⟨m1, h1, h2⟩ := h ⟨rfl, rfl⟩
    exact ⟨trip, m1, h1, h2⟩
/-! ## PeriodicPersonLoader::loadActivitySchedules -/

/-- addOrStashPerson touches only the two collections of the loader. -/
theorem addOrStashPerson_fields
    (load : List (String × String) → PersonObject → Exec PersonObject Unit) (ptr : Nat)
    (L : PeriodicPersonLoader) (p : PersonObject) :
    (PeriodicPersonLoader.addOrStashPerson load ptr L p).state.1.nextLoadStart =
        L.nextLoadStart ∧
      (PeriodicPersonLoader.addOrStashPerson load ptr L p).state.1.storedProcName =
        L.storedProcName ∧
      (PeriodicPersonLoader.addOrStashPerson load ptr L p).state.1.dataLoadInterval =
        L.dataLoadInterval ∧
      (PeriodicPersonLoader.addOrStashPerson load ptr L p).state.1.elapsedTimeSinceLastLoad =
        L.elapsedTimeSinceLastLoad := by
  unfold PeriodicPersonLoader.addOrStashPerson
  split
  · cases load p.configProperties p <;> simp [Exec.state]
  · simp [Exec.state]

/-- The loop over the persons touches only the two collections of the
loader. -/
theorem stashAll_fields
    (load : List (String × String) → PersonObject → Exec PersonObject Unit)
    (persons : List (Nat × PersonObject)) (L : PeriodicPersonLoader) :
    (PeriodicPersonLoader.stashAll load persons L).state.1.nextLoadStart = L.nextLoadStart ∧
      (PeriodicPersonLoader.stashAll load persons L).state.1.storedProcName =
        L.storedProcName ∧
      (PeriodicPersonLoader.stashAll load persons L).state.1.dataLoadInterval =
        L.dataLoadInterval ∧
      (PeriodicPersonLoader.stashAll load persons L).state.1.elapsedTimeSinceLastLoad =
        L.elapsedTimeSinceLastLoad := by
  induction persons generalizing L with
  | nil => simp [PeriodicPersonLoader.stashAll, Exec.state]
  | cons e rest ih =>
    have h1 := addOrStashPerson_fields load e.1 L e.2
    unfold PeriodicPersonLoader.stashAll
    cases ha : PeriodicPersonLoader.addOrStashPerson load e.1 L e.2 with
    | thrown w s1 => rw [ha] at h1; simpa [Exec.state] using h1
    | undef s1 => rw [ha] at h1; simpa [Exec.state] using h1
    | ok u s1 =>
      rw [ha] at h1
      simp only [Exec.state] at h1
      have h2 := ih s1.1
      simp only
      cases hs : PeriodicPersonLoader.stashAll load rest s1.1 with
      | ok u2 s2 =>
        rw [hs] at h2
        simp only [Exec.state] at h2 ⊢
        exact ⟨h2.1.trans h1.1, h2.2.1.trans h1.2.1, h2.2.2.1.trans h1.2.2.1,
          h2.2.2.2.trans h1.2.2.2⟩
      | thrown w s2 =>
        rw [hs] at h2
        simp only [Exec.state] at h2 ⊢
        exact ⟨h2.1.trans h1.1, h2.2.1.trans h1.2.1, h2.2.2.1.trans h1.2.2.1,
          h2.2.2.2.trans h1.2.2.2⟩
      | undef s2 =>
        rw [hs] at h2
        simp only [Exec.state] at h2 ⊢
        exact ⟨h2.1.trans h1.1, h2.2.1.trans h1.2.1, h2.2.2.1.trans h1.2.2.1,
          h2.2.2.2.trans h1.2.2.2⟩

/-- The value of `nextLoadStart` after a load that started at `w`. -/
theorem loadActivitySchedules_next (env : LoaderEnv) (L : PeriodicPersonLoader)
    (hname : L.storedProcName ≠ "") (s : PeriodicPersonLoader × List (Nat × PersonObject))
    (h : PeriodicPersonLoader.loadActivitySchedules env L = .ok () s) :
    s.1.nextLoadStart =
      if L.nextLoadStart + 1 > 26.75 then L.nextLoadStart + 1 - 24 else L.nextLoadStart + 1 := by
  unfold PeriodicPersonLoader.loadActivitySchedules at h
  simp only [hname, if_false] at h
  cases hr : PeriodicPersonLoader.addRows env 0
      (env.query L.storedProcName L.nextLoadStart (L.nextLoadStart + DEFAULT_LOAD_INTERVAL))
      ([], 0) with
  | undef st => rw [hr] at h; cases h
  | thrown w st => rw [hr] at h; cases h
  | ok u st =>
    rw [hr] at h
    simp only at h
    have hf := (stashAll_fields env.load (CellLoader.Load env.newPerson st.1) L).1
    cases hs : PeriodicPersonLoader.stashAll env.load (CellLoader.Load env.newPerson st.1) L with
    | undef s1 => rw [hs] at h; cases h
    | thrown w s1 => rw [hs] at h; cases h
    | ok u1 s1 =>
      rw [hs] at h hf
      simp only [Exec.bind_ok, Exec.ok.injEq, true_and] at h
      simp only [Exec.state] at hf
      rw [← h]
      simp only [DEFAULT_LOAD_INTERVAL, LAST_30MIN_WINDOW_OF_DAY, TWENTY_FOUR_HOURS]
      have e1 : L.nextLoadStart + 0.5 + 0.5 = L.nextLoadStart + 1 := by norm_num; ring
      rw [e1]
      norm_num

/-- A load on the sample surroundings (no rows) returns with the advanced
window. -/
theorem loadActivitySchedules_no_rows (L : PeriodicPersonLoader)
    (hname : L.storedProcName ≠ "") :
    PeriodicPersonLoader.loadActivitySchedules exLoaderEnv L =
      .ok ()
        ({ L with
            nextLoadStart :=
              if L.nextLoadStart + 1 > 26.75 then L.nextLoadStart + 1 - 24
              else L.nextLoadStart + 1 }, []) := by
  have hload : CellLoader.Load exLoaderEnv.newPerson [] = [] := by decide
  unfold PeriodicPersonLoader.loadActivitySchedules
  simp only [hname, if_false]
  have hq : exLoaderEnv.query L.storedProcName L.nextLoadStart
      (L.nextLoadStart + DEFAULT_LOAD_INTERVAL) = [] := rfl
  rw [hq]
  simp only [PeriodicPersonLoader.addRows, hload, PeriodicPersonLoader.stashAll, Exec.bind_ok,
    DEFAULT_LOAD_INTERVAL, LAST_30MIN_WINDOW_OF_DAY, TWENTY_FOUR_HOURS]
  have e1 : L.nextLoadStart + 0.5 + 0.5 = L.nextLoadStart + 1 := by norm_num; ring
  rw [e1]
  norm_num

/-- Counterexample to C17 as stated: a load that starts with nextLoadStart
at the last window of the day, 26.75, leaves it at 3.75, not at 3.25. -/
theorem C17_counterexample :
    ({ exLoader with nextLoadStart := 26.75 } : PeriodicPersonLoader).storedProcName ≠ "" ∧
      PeriodicPersonLoader.loadActivitySchedules exLoaderEnv
          { exLoader with nextLoadStart := 26.75 } =
        .ok () ({ exLoader with nextLoadStart := 3.75 }, []) ∧
      (3.75 : ℚ) ≠ 3.25 := by
  refine ⟨by decide, ?_, by norm_num⟩
  rw [loadActivitySchedules_no_rows _ (by decide)]
  norm_num

/-- C17, amended: every execution of loadActivitySchedules with a non-empty
stored-procedure name that returns advances nextLoadStart by one hour, the
two half-hour windows covered by the query, and takes 24 off when the result
exceeds 26.75; so an execution that starts at 26.25 wraps to 3.25, and one
that starts at the last window of the day, 26.75, wraps to 3.75. -/
theorem C17_next_load_start (env : LoaderEnv) (L : PeriodicPersonLoader)
    (hname : L.storedProcName ≠ "") (s : PeriodicPersonLoader × List (Nat × PersonObject))
    (h : PeriodicPersonLoader.loadActivitySchedules env L = .ok () s) :
    (L.nextLoadStart + 1 ≤ 26.75 → s.1.nextLoadStart = L.nextLoadStart + 1) ∧
    (26.75 < L.nextLoadStart + 1 → s.1.nextLoadStart = L.nextLoadStart + 1 - 24) ∧
    (L.nextLoadStart = 26.25 → s.1.nextLoadStart = 3.25) ∧
    (L.nextLoadStart = 26.75 → s.1.nextLoadStart = 3.75) := by
  have hn := loadActivitySchedules_next env L hname s h
  refine ⟨?_, ?_, ?_, ?_⟩
  · intro hle
    rw [hn, if_neg (not_lt.mpr hle)]
  · intro hlt
    rw [hn, if_pos hlt]
  · intro h1
    rw [hn, h1]
    norm_num
  · intro h1
    rw [hn, h1]
    norm_num

/-- Witness for C17: the load of window 26.25 on the sample surroundings
returns with nextLoadStart 3.25. -/
theorem C17_next_load_start_witness :
    ({ exLoader with nextLoadStart := 26.25 } : PeriodicPersonLoader).storedProcName ≠ "" ∧
      ∃ s, PeriodicPersonLoader.loadActivitySchedules exLoaderEnv
          { exLoader with nextLoadStart := 26.25 } = .ok () s ∧
        s.1.nextLoadStart = 3.25 :=
  ⟨by decide, _, loadActivitySchedules_no_rows _ (by decide),
    (C17_next_load_start exLoaderEnv { exLoader with nextLoadStart := 26.25 } (by decide) _
      (loadActivitySchedules_no_rows _ (by decide))).2.2.1 rfl⟩

/-! ## BusStopAgent -/

/-- The first loop of boardWaitingPersons asks the waiters one after the
other. -/
theorem makeDecisions_eq_foldl {W : Type} (world : BusStopWorld W) (busDriver : Option Nat)
    (waiters : List Nat) (w : W) :
    BusStopAgent.makeDecisions world busDriver waiters w =
      waiters.foldl (fun w1 p => world.makeBoardingDecision w1 p busDriver) w := by
  induction waiters generalizing w with
  | nil => rfl
  | cons p rest ih => simp [BusStopAgent.makeDecisions, ih]

/-- One step of the second loop of boardWaitingPersons. -/
theorem boardLoop_cons {W : Type} (world : BusStopWorld W) (busDriver : Option Nat)
    (p : Nat) (rest : List Nat) (w : W) :
    BusStopAgent.boardLoop world busDriver (p :: rest) w =
      if (BusStopAgent.moved world busDriver w p).2 = true then
        ((BusStopAgent.boardLoop world busDriver rest
            (BusStopAgent.moved world busDriver w p).1).1,
          (BusStopAgent.boardLoop world busDriver rest
            (BusStopAgent.moved world busDriver w p).1).2.1,
          (BusStopAgent.boardLoop world busDriver rest
            (BusStopAgent.moved world busDriver w p).1).2.2 + 1)
      else
        ((BusStopAgent.boardLoop world busDriver rest
            (BusStopAgent.moved world busDriver w p).1).1,
          p :: (BusStopAgent.boardLoop world busDriver rest
            (BusStopAgent.moved world busDriver w p).1).2.1,
          (BusStopAgent.boardLoop world busDriver rest
            (BusStopAgent.moved world busDriver w p).1).2.2) := by
  by_cases hc : world.canBoardBus w p = true
  · by_cases hp : world.parentIsPerson w p = true
    · cases hr : world.passengerRole (world.checkTripChain w p) p with
      | none => simp [BusStopAgent.boardLoop, BusStopAgent.moved, hc, hp, hr]
      | some passenger => simp [BusStopAgent.boardLoop, BusStopAgent.moved, hc, hp, hr]
    · simp [BusStopAgent.boardLoop, BusStopAgent.moved, hc, hp]
  · simp [BusStopAgent.boardLoop, BusStopAgent.moved, hc]

/-- The second loop of boardWaitingPersons keeps the waiters that are not
moved and counts the others. -/
theorem boardLoop_spec {W : Type} (world : BusStopWorld W) (busDriver : Option Nat)
    (waiters : List Nat) (w : W) :
    (BusStopAgent.boardLoop world busDriver waiters w).2.1 =
        keepUnflagged waiters (BusStopAgent.movedFlags world busDriver waiters w) ∧
      (BusStopAgent.boardLoop world busDriver waiters w).2.2 =
        ((BusStopAgent.movedFlags world busDriver waiters w).count true : Nat) := by
  induction waiters generalizing w with
  | nil => simp [BusStopAgent.boardLoop, BusStopAgent.movedFlags, keepUnflagged]
  | cons p rest ih =>
    rw [boardLoop_cons]
    have h := ih (BusStopAgent.moved world busDriver w p).1
    by_cases hm : (BusStopAgent.moved world busDriver w p).2 = true
    · simp [hm, BusStopAgent.movedFlags, keepUnflagged, h.1, h.2]
    · simp only [Bool.not_eq_true] at hm
      simp [hm, BusStopAgent.movedFlags, keepUnflagged, h.1, h.2]

/-- Reading back the number just recorded for a driver. -/
theorem lookup_recordBoarding (rec : List (Option Nat × Int)) (busDriver : Option Nat)
    (n : Int) : (recordBoarding rec busDriver n).lookup busDriver = some n := by
  unfold recordBoarding
  by_cases h : (rec.lookup busDriver).isSome = true
  · rw [if_pos h]
    induction rec with
    | nil => simp at h
    | cons e rest ih =>
      obtain ⟨k, v⟩ := e
      by_cases hk : k = busDriver
      · subst hk
        simp [List.lookup_cons]
      · have hk2 : (busDriver == k) = false := by
          simp only [beq_eq_false_iff_ne, ne_eq]
          exact fun h => hk h.symm
        have hrest : (rest.lookup busDriver).isSome = true := by
          simpa [List.lookup_cons, hk2] using h
        simp only [List.map_cons, hk, if_false, List.lookup_cons, hk2]
        exact ih hrest
  · rw [if_neg h]
    have hnone : rec.lookup busDriver = none := by
      cases hl : rec.lookup busDriver with
      | none => rfl
      | some v => simp [hl] at h
    clear h
    induction rec with
    | nil => simp [List.lookup]
    | cons e rest ih =>
      obtain ⟨k, v⟩ := e
      by_cases hk : (busDriver == k) = true
      · simp [List.lookup, hk] at hnone
      · simp only [Bool.not_eq_true] at hk
        simp only [List.lookup, hk] at hnone
        simp [List.lookup, hk, ih hnone]

/-- The waiters kept are a sublist, and each waiter is either kept or
counted. -/
theorem keepUnflagged_spec (waiters : List Nat) (flags : List Bool)
    (h : flags.length = waiters.length) :
    (keepUnflagged waiters flags).Sublist waiters ∧
      (keepUnflagged waiters flags).length + flags.count true = waiters.length := by
  induction waiters generalizing flags with
  | nil =>
    have : flags = [] := List.length_eq_zero.mp (by simpa using h)
    subst this
    simp [keepUnflagged]
  | cons p rest ih =>
    cases flags with
    | nil => simp at h
    | cons b flags =>
      have h2 : flags.length = rest.length := by simpa using h
      obtain ⟨hs, hl⟩ := ih flags h2
      cases b with
      | true =>
        simp only [keepUnflagged, if_true, List.count_cons_self, List.length_cons]
        exact ⟨hs.cons p, by omega⟩
      | false =>
        simp only [keepUnflagged, Bool.false_eq_true, if_false, List.length_cons]
        refine ⟨hs.cons₂ p, ?_⟩
        simp
        omega

/-- There is one flag for each waiter. -/
theorem movedFlags_length {W : Type} (world : BusStopWorld W) (busDriver : Option Nat)
    (waiters : List Nat) (w : W) :
    (BusStopAgent.movedFlags world busDriver waiters w).length = waiters.length := by
  induction waiters generalizing w with
  | nil => rfl
  | cons p rest ih => simp [BusStopAgent.movedFlags, ih]

/-- C22: boardWaitingPersons first asks every waiter of the list for its
boarding decision, in order, and only then walks the list; afterwards the
waiting list is the original list without the waiters at the positions that
were moved, that is of those who chose to board, whose Person's role became a
Passenger, and whom the bus accepted, so it is a sublist of the original list
in the original order; and the number that getBoardingNum returns for the
driver is the number of waiters removed. -/
theorem C22_board_waiting_persons {W : Type} (world : BusStopWorld W) (busDriver : Option Nat)
    (a : BusStopAgent) (w : W) :
    (BusStopAgent.boardWaitingPersons world busDriver (a, w)).1.waitingPersons =
        keepUnflagged a.waitingPersons
          (BusStopAgent.movedFlags world busDriver a.waitingPersons
            (a.waitingPersons.foldl (fun w1 p => world.makeBoardingDecision w1 p busDriver) w)) ∧
      ((BusStopAgent.boardWaitingPersons world busDriver (a, w)).1.waitingPersons).Sublist
        a.waitingPersons ∧
      BusStopAgent.getBoardingNum busDriver
          (BusStopAgent.boardWaitingPersons world busDriver (a, w)).1 =
        (((BusStopAgent.movedFlags world busDriver a.waitingPersons
          (a.waitingPersons.foldl (fun w1 p => world.makeBoardingDecision w1 p busDriver)
            w)).count true : Nat) : Int) ∧
      BusStopAgent.getBoardingNum busDriver
          (BusStopAgent.boardWaitingPersons world busDriver (a, w)).1 =
        (a.waitingPersons.length : Int) -
          ((BusStopAgent.boardWaitingPersons world busDriver (a, w)).1.waitingPersons.length :
            Int) := by
  have hd := makeDecisions_eq_foldl world busDriver a.waitingPersons w
  have hl := boardLoop_spec world busDriver a.waitingPersons
    (BusStopAgent.makeDecisions world busDriver a.waitingPersons w)
  rw [hd] at hl
  have hk := keepUnflagged_spec a.waitingPersons _
    (movedFlags_length world busDriver a.waitingPersons
      (a.waitingPersons.foldl (fun w1 p => world.makeBoardingDecision w1 p busDriver) w))
  have hlist : (BusStopAgent.boardWaitingPersons world busDriver (a, w)).1.waitingPersons =
      keepUnflagged a.waitingPersons
        (BusStopAgent.movedFlags world busDriver a.waitingPersons
          (a.waitingPersons.foldl (fun w1 p => world.makeBoardingDecision w1 p busDriver)
            w)) := by
    simp only [BusStopAgent.boardWaitingPersons, hd]
    exact hl.1
  have hnum : BusStopAgent.getBoardingNum busDriver
      (BusStopAgent.boardWaitingPersons world busDriver (a, w)).1 =
      (((BusStopAgent.movedFlags world busDriver a.waitingPersons
        (a.waitingPersons.foldl (fun w1 p => world.makeBoardingDecision w1 p busDriver)
          w)).count true : Nat) : Int) := by
    simp only [BusStopAgent.getBoardingNum, BusStopAgent.boardWaitingPersons,
      lookup_recordBoarding, Option.getD_some, hd]
    exact hl.2
  refine ⟨hlist, ?_, hnum, ?_⟩
  · rw [hlist]; exact hk.1
  · rw [hnum, hlist]
    have := hk.2
    omega

/-- Evaluation of C22 on a waiting list of five: waiters 4, 8 and 6 choose to
board, the bus takes the first two of them, and 3, 5 and 6 keep waiting in
that order; two boardings are recorded for the driver. -/
theorem C22_board_waiting_persons_witness :
    (BusStopAgent.boardWaitingPersons exBoardingWorld (some 1)
        (⟨3000, 1800, [1], [4, 3, 8, 5, 6], [], []⟩, [])).1.waitingPersons = [3, 5, 6] ∧
      BusStopAgent.getBoardingNum (some 1)
        (BusStopAgent.boardWaitingPersons exBoardingWorld (some 1)
          (⟨3000, 1800, [1], [4, 3, 8, 5, 6], [], []⟩, [])).1 = 2 ∧
      (BusStopAgent.boardWaitingPersons exBoardingWorld (some 1)
        (⟨3000, 1800, [1], [4, 3, 8, 5, 6], [], []⟩, [])).2 = [104, 108] := by
  have h := C22_board_waiting_persons exBoardingWorld (some 1)
    ⟨3000, 1800, [1], [4, 3, 8, 5, 6], [], []⟩ []
  refine ⟨?_, ?_, ?_⟩
  · rw [h.1]; decide
  · rw [h.2.2.1]; decide
  · decide

/-! ## PeriodicPersonLoader::checkTimeForNextLoad -/

/-- The elapsed time of a fresh loader after `k` calls, when the interval is
`n` base granularities. -/
theorem afterCalls_elapsed (g : ℚ) (n : Nat) (hg : 0 < g) (hn : 2 ≤ n) (hgn : g * n = 3600)
    (act pend : List Nat) (start : Nat) (name : String) (k : Nat) :
    PeriodicPersonLoader.afterCalls g k (PeriodicPersonLoader.construct act pend g start name) =
      { PeriodicPersonLoader.construct act pend g start name with
        elapsedTimeSinceLastLoad := g * (((k + 1) % n : Nat) : ℚ) } := by
  induction k with
  | zero =>
    have h1 : (0 + 1) % n = 1 := Nat.mod_eq_of_lt (by omega)
    simp [PeriodicPersonLoader.afterCalls, PeriodicPersonLoader.construct, h1]
  | succ k ih =>
    have hlt : (k + 1) % n < n := Nat.mod_lt _ (by omega)
    have hmod : (k + 1 + 1) % n = ((k + 1) % n + 1) % n := by
      rw [Nat.add_mod (k + 1) 1 n, Nat.mod_eq_of_lt (show 1 < n by omega)]
    rw [PeriodicPersonLoader.afterCalls, ih]
    simp only [PeriodicPersonLoader.checkTimeForNextLoad, PeriodicPersonLoader.construct,
      SECONDS_IN_ONE_HOUR]
    have hsum : g * (((k + 1) % n : Nat) : ℚ) + g = g * ((((k + 1) % n + 1 : Nat)) : ℚ) := by
      push_cast; ring
    by_cases hlast : (k + 1) % n + 1 = n
    · have hge : (3600 : ℚ) ≤ g * (((k + 1) % n : Nat) : ℚ) + g := by
        rw [hsum, hlast]
        linarith
      have h0 : (k + 1 + 1) % n = 0 := by rw [hmod, hlast, Nat.mod_self]
      simp [hge, h0]
    · have hsmall : (k + 1) % n + 1 < n := by omega
      have hnot : ¬ (3600 : ℚ) ≤ g * (((k + 1) % n : Nat) : ℚ) + g := by
        rw [hsum]
        push_cast
        intro hge
        have h1 : (((k + 1) % n : Nat) : ℚ) + 1 < (n : ℚ) := by exact_mod_cast hsmall
        have h2 : g * ((((k + 1) % n : Nat) : ℚ) + 1) < g * (n : ℚ) :=
          mul_lt_mul_of_pos_left h1 hg
        linarith
      have h1 : (k + 1 + 1) % n = (k + 1) % n + 1 := by
        rw [hmod, Nat.mod_eq_of_lt hsmall]
      rw [h1, ← hsum]
      simp [hnot]

/-- C26: with a base granularity of g > 0 seconds, a fresh loader has the
interval 3600 and the elapsed time g; a call of checkTimeForNextLoad on a
loader with that interval returns true exactly when the elapsed time plus g
has reached 3600, leaving 0 in that case and the sum otherwise; and when
g * n = 3600 for an integer n ≥ 2, call number k on the fresh loader returns
true exactly when k + 1 is a positive multiple of n: first on call n − 1 and
then on every n-th call. -/
theorem C26_check_time_for_next_load (g : ℚ) (n : Nat) (hg : 0 < g) (hn : 2 ≤ n)
    (hgn : g * n = 3600) (act pend : List Nat) (start : Nat) (name : String) :
    (PeriodicPersonLoader.construct act pend g start name).elapsedTimeSinceLastLoad = g ∧
    (PeriodicPersonLoader.construct act pend g start name).dataLoadInterval = 3600 ∧
    (∀ L : PeriodicPersonLoader, L.dataLoadInterval = 3600 →
      ((PeriodicPersonLoader.checkTimeForNextLoad g L).1 = true ↔
        3600 ≤ L.elapsedTimeSinceLastLoad + g) ∧
      (3600 ≤ L.elapsedTimeSinceLastLoad + g →
        (PeriodicPersonLoader.checkTimeForNextLoad g L).2 =
          { L with elapsedTimeSinceLastLoad := 0 }) ∧
      (L.elapsedTimeSinceLastLoad + g < 3600 →
        (PeriodicPersonLoader.checkTimeForNextLoad g L).2 =
          { L with elapsedTimeSinceLastLoad := L.elapsedTimeSinceLastLoad + g })) ∧
    (∀ k, PeriodicPersonLoader.callReturns g k
        (PeriodicPersonLoader.construct act pend g start name) = true ↔
      ∃ m, 1 ≤ m ∧ k + 1 = m * n) ∧
    (∀ k, k < n - 1 → PeriodicPersonLoader.callReturns g k
        (PeriodicPersonLoader.construct act pend g start name) = false) ∧
    PeriodicPersonLoader.callReturns g (n - 1)
        (PeriodicPersonLoader.construct act pend g start name) = true := by
  have hcall : ∀ k, PeriodicPersonLoader.callReturns g k
      (PeriodicPersonLoader.construct act pend g start name) = true ↔
      ∃ m, 1 ≤ m ∧ k + 1 = m * n := by
    intro k
    cases k with
    | zero =>
      simp only [PeriodicPersonLoader.callReturns, Bool.false_eq_true, false_iff]
      rintro ⟨m, hm, hk⟩
      have : 2 ≤ m * n := by nlinarith
      omega
    | succ j =>
      simp only [PeriodicPersonLoader.callReturns]
      rw [afterCalls_elapsed g n hg hn hgn]
      simp only [PeriodicPersonLoader.checkTimeForNextLoad, PeriodicPersonLoader.construct,
        SECONDS_IN_ONE_HOUR]
      have hlt : (j + 1) % n < n := Nat.mod_lt _ (by omega)
      have hsum : g * (((j + 1) % n : Nat) : ℚ) + g = g * ((((j + 1) % n + 1 : Nat)) : ℚ) := by
        push_cast; ring
      have hiff : (3600 : ℚ) ≤ g * (((j + 1) % n : Nat) : ℚ) + g ↔ (j + 1) % n + 1 = n := by
        rw [hsum]
        constructor
        · intro hge
          by_contra hne
          have hsmall : (j + 1) % n + 1 < n := by omega
          have h1 : ((((j + 1) % n + 1 : Nat)) : ℚ) < (n : ℚ) := by exact_mod_cast hsmall
          have h2 := mul_lt_mul_of_pos_left h1 hg
          linarith
        · intro heq
          rw [heq]
          linarith
      have hdiv : (j + 1) % n + 1 = n ↔ ∃ m, 1 ≤ m ∧ j + 1 + 1 = m * n := by
        constructor
        · intro heq
          refine ⟨(j + 1) / n + 1, Nat.le_add_left 1 _, ?_⟩
          have hdm := Nat.div_add_mod (j + 1) n
          rw [Nat.add_mul, Nat.mul_comm ((j + 1) / n) n, Nat.one_mul]
          generalize n * ((j + 1) / n) = q at hdm ⊢
          omega
        · rintro ⟨m, hm, hk⟩
          have hmod : (j + 1 + 1) % n = 0 := by rw [hk]; exact Nat.mul_mod_left m n
          have h2 : (j + 1 + 1) % n = ((j + 1) % n + 1) % n := by
            rw [Nat.add_mod (j + 1) 1 n, Nat.mod_eq_of_lt (show 1 < n by omega)]
          rw [h2] at hmod
          by_contra hne
          have hsmall : (j + 1) % n + 1 < n := by omega
          rw [Nat.mod_eq_of_lt hsmall] at hmod
          omega
      rw [← hdiv, ← hiff]
      by_cases hge : (3600 : ℚ) ≤ g * (((j + 1) % n : Nat) : ℚ) + g
      · simp [hge]
      · simp [hge]
  refine ⟨rfl, by simp [PeriodicPersonLoader.construct, SECONDS_IN_ONE_HOUR], ?_, hcall, ?_, ?_⟩
  · intro L hL
    refine ⟨?_, ?_, ?_⟩
    · by_cases hge : (3600 : ℚ) ≤ L.elapsedTimeSinceLastLoad + g
      · simp [PeriodicPersonLoader.checkTimeForNextLoad, hL, hge]
      · simp [PeriodicPersonLoader.checkTimeForNextLoad, hL, hge]
    · intro hge
      simp [PeriodicPersonLoader.checkTimeForNextLoad, hL, hge]
    · intro hlt
      have hge : ¬ (3600 : ℚ) ≤ L.elapsedTimeSinceLastLoad + g := not_le.mpr hlt
      simp [PeriodicPersonLoader.checkTimeForNextLoad, hL, hge]
  · intro k hk
    cases hv : PeriodicPersonLoader.callReturns g k
        (PeriodicPersonLoader.construct act pend g start name) with
    | false => rfl
    | true =>
      obtain ⟨m, hm, hkm⟩ := (hcall k).1 hv
      have : n ≤ m * n := Nat.le_mul_of_pos_left n (by omega)
      omega
  · exact (hcall (n - 1)).2 ⟨1, le_refl 1, by omega⟩

/-- Witness for C26: with a base granularity of 1200 s (n = 3) the calls
number 2 and 5 return true and the calls number 1, 3 and 4 return false. -/
theorem C26_check_time_for_next_load_witness :
    (0 : ℚ) < 1200 ∧ (1200 : ℚ) * (3 : Nat) = 3600 ∧
      PeriodicPersonLoader.callReturns 1200 1
        (PeriodicPersonLoader.construct [] [] 1200 0 "get_das") = false ∧
      PeriodicPersonLoader.callReturns 1200 2
        (PeriodicPersonLoader.construct [] [] 1200 0 "get_das") = true ∧
      ¬ PeriodicPersonLoader.callReturns 1200 3
        (PeriodicPersonLoader.construct [] [] 1200 0 "get_das") = true ∧
      ¬ PeriodicPersonLoader.callReturns 1200 4
        (PeriodicPersonLoader.construct [] [] 1200 0 "get_das") = true ∧
      PeriodicPersonLoader.callReturns 1200 5
        (PeriodicPersonLoader.construct [] [] 1200 0 "get_das") = true := by
  have h := C26_check_time_for_next_load 1200 3 (by norm_num) (by decide) (by norm_num)
    [] [] 0 "get_das"
  refine ⟨by norm_num, by norm_num, h.2.2.2.2.1 1 (by decide), h.2.2.2.2.2, ?_, ?_, ?_⟩
  · rw [h.2.2.2.1 3]
    rintro ⟨m, -, hm⟩
    omega
  · rw [h.2.2.2.1 4]
    rintro ⟨m, -, hm⟩
    omega
  · exact (h.2.2.2.1 5).2 ⟨2, by decide, by decide⟩

/-! ## The chains built from the rows -/

/-- Evaluating `tripchains[personId]` changes no chain. -/
theorem mapGet_mapTouch (m : List (String × List das.TripChainItem)) (k pid : String) :
    mapGet (mapTouch m k) pid = mapGet m pid := by
  by_cases hk : pid = k
  · subst hk
    exact (mapTouch_spec m pid).2
  · unfold mapTouch mapGet
    by_cases h : (m.lookup k).isSome = true
    · simp [h]
    · simp only [h, Bool.false_eq_true, if_false]
      have hne : (pid == k) = false := by simpa using hk
      induction m with
      | nil => simp [List.lookup, hne]
      | cons e rest ih =>
        obtain ⟨k1, v1⟩ := e
        by_cases hk1 : (k == k1) = true
        · simp [List.lookup, hk1] at h
        · simp only [Bool.not_eq_true] at hk1
          have hrest : ¬ (rest.lookup k).isSome = true := by
            simpa [List.lookup, hk1] using h
          by_cases hp : (pid == k1) = true
          · simp [List.lookup, hp]
          · simp only [Bool.not_eq_true] at hp
            simp only [List.cons_append, List.lookup, hp]
            exact ih hrest

/-- Replacing the chain of one person changes no other chain. -/
theorem mapGet_mapSet_ne (m : List (String × List das.TripChainItem)) (k pid : String)
    (v : List das.TripChainItem) (hk : k ≠ pid) :
    mapGet (mapSet m k v) pid = mapGet m pid := by
  unfold mapGet mapSet
  induction m with
  | nil => rfl
  | cons e rest ih =>
    obtain ⟨k1, v1⟩ := e
    by_cases hk1 : k1 = k
    · subst hk1
      have hp : (pid == k1) = false := by
        simp only [beq_eq_false_iff_ne, ne_eq]
        exact fun h => hk h.symm
      simp only [List.map_cons, if_true, List.lookup_cons, hp]
      exact ih
    · simp only [List.map_cons, hk1, if_false, List.lookup_cons]
      by_cases hp : (pid == k1) = true
      · simp [hp]
      · simp only [Bool.not_eq_true] at hp
        simp only [hp]
        exact ih

/-- What one pass of the loop body does to the chain of each person and to
the counter, when it completes. -/
theorem addRow_ok (env : LoaderEnv) (i : Nat) (r : Row)
    (st st1 : List (String × List das.TripChainItem) × Nat)
    (h : PeriodicPersonLoader.addRow env i r st = .ok () st1) (pid : String) :
    mapGet st1.1 pid =
        (if r.personId = pid then
          mapGet st.1 pid ++ PeriodicPersonLoader.rowItems env i r (mapGet st.1 pid).length
        else mapGet st.1 pid) ∧
      st1.2 = st.2 + (if env.nodeOf r.originNode = env.nodeOf r.destNode then 0 else 1) := by
  obtain ⟨hpres, hget⟩ := mapTouch_spec st.1 r.personId
  unfold PeriodicPersonLoader.addRow at h
  simp only [hget] at h
  have hnull : ∀ seqNo, (env.nodeOf r.originNode = env.nodeOf r.destNode →
        PeriodicPersonLoader.makeTrip env (env.rng (3 * i)) r seqNo = .ok none ()) ∧
      (¬ env.nodeOf r.originNode = env.nodeOf r.destNode →
        PeriodicPersonLoader.makeTrip env (env.rng (3 * i)) r seqNo ≠ .ok none ()) := by
    intro seqNo
    constructor
    · intro he
      simp [PeriodicPersonLoader.makeTrip, he]
    · intro hne
      simp only [PeriodicPersonLoader.makeTrip, hne, if_false]
      cases PeriodicPersonLoader.makeSubTrip env r _ <;> simp
  cases ht : PeriodicPersonLoader.makeTrip env (env.rng (3 * i)) r
      ((mapGet st.1 r.personId).length + 1) with
  | undef u => rw [ht] at h; cases h
  | thrown w u => rw [ht] at h; cases h
  | ok o u =>
    cases u
    rw [ht] at h
    cases o with
    | none =>
      simp only [Exec.ok.injEq, true_and] at h
      subst h
      have he : env.nodeOf r.originNode = env.nodeOf r.destNode := by
        by_contra hne
        exact (hnull _).2 hne ht
      simp only [mapGet_mapTouch, he, if_true, Nat.add_zero, and_true]
      by_cases hp : r.personId = pid
      · subst hp
        simp [PeriodicPersonLoader.rowItems, ht]
      · simp [hp]
    | some trip =>
      have hne : ¬ env.nodeOf r.originNode = env.nodeOf r.destNode := by
        intro he
        rw [(hnull _).1 he] at ht
        cases ht
      simp only [hne, if_false]
      by_cases hlast : r.departureWindow = LAST_30MIN_WINDOW_OF_DAY ∧
          r.activityType = HOME_ACTIVITY_TYPE
      · have hl : (decide (r.departureWindow = LAST_30MIN_WINDOW_OF_DAY) &&
            decide (r.activityType = HOME_ACTIVITY_TYPE)) = true := by
          simp [hlast.1, hlast.2]
        simp only [hl, if_true, Exec.ok.injEq, true_and] at h
        subst h
        refine ⟨?_, rfl⟩
        by_cases hp : r.personId = pid
        · subst hp
          rw [mapGet_mapSet _ _ _ hpres]
          simp [PeriodicPersonLoader.rowItems, ht, hlast]
        · rw [mapGet_mapSet_ne _ _ _ _ hp, mapGet_mapTouch]
          simp [hp]
      · have hl : (decide (r.departureWindow = LAST_30MIN_WINDOW_OF_DAY) &&
            decide (r.activityType = HOME_ACTIVITY_TYPE)) = false := by
          simp only [Bool.and_eq_false_imp, decide_eq_true_eq, decide_eq_false_iff_not]
          intro h1 h2
          exact hlast ⟨h1, h2⟩
        simp only [hl, Bool.false_eq_true, if_false] at h
        cases ha : PeriodicPersonLoader.makeActivity env (env.rng (3 * i + 1))
            (env.rng (3 * i + 2)) r ((mapGet st.1 r.personId).length + 2) with
        | undef u => rw [ha] at h; cases h
        | thrown w u => rw [ha] at h; cases h
        | ok act u =>
          rw [ha] at h
          simp only [Exec.ok.injEq, true_and] at h
          subst h
          refine ⟨?_, rfl⟩
          by_cases hp : r.personId = pid
          · subst hp
            rw [mapGet_mapSet _ _ _ hpres]
            simp [PeriodicPersonLoader.rowItems, ht, hlast, ha]
          · rw [mapGet_mapSet_ne _ _ _ _ hp, mapGet_mapTouch]
            simp [hp]

/-- What the loop over the rows does to the chain of each person and to the
counter, when it completes. -/
theorem addRows_ok (env : LoaderEnv) (rows : List Row) (i : Nat)
    (st st1 : List (String × List das.TripChainItem) × Nat)
    (h : PeriodicPersonLoader.addRows env i rows st = .ok () st1) (pid : String) :
    mapGet st1.1 pid = PeriodicPersonLoader.chainOf env pid i rows (mapGet st.1 pid) ∧
      st1.2 = st.2 + PeriodicPersonLoader.rowsWithTrip env i rows := by
  induction rows generalizing i st with
  | nil =>
    simp only [PeriodicPersonLoader.addRows, Exec.ok.injEq, true_and] at h
    subst h
    simp [PeriodicPersonLoader.chainOf, PeriodicPersonLoader.rowsWithTrip]
  | cons r rs ih =>
    simp only [PeriodicPersonLoader.addRows] at h
    cases hr : PeriodicPersonLoader.addRow env i r st with
    | undef s => rw [hr] at h; simp at h
    | thrown w s => rw [hr] at h; simp at h
    | ok u s =>
      rw [hr] at h
      simp only [Exec.bind_ok] at h
      obtain ⟨h1, h2⟩ := addRow_ok env i r st s hr pid
      obtain ⟨h3, h4⟩ := ih (i + 1) s h
      simp only [PeriodicPersonLoader.chainOf, PeriodicPersonLoader.rowsWithTrip]
      rw [h3, h1, h4, h2]
      exact ⟨rfl, by omega⟩

/-- The trip built carries the sequence number it was given. -/
theorem makeTrip_sequenceNumber (env : LoaderEnv) (g : Nat → Int → Int → Int) (r : Row)
    (seqNo : Nat) (trip : das.Trip)
    (h : PeriodicPersonLoader.makeTrip env g r seqNo = .ok (some trip) ()) :
    trip.sequenceNumber = seqNo := by
  unfold PeriodicPersonLoader.makeTrip at h
  simp only at h
  split at h
  · cases h
  · unfold PeriodicPersonLoader.makeSubTrip at h
    cases ha : env.nodeOf r.originNode with
    | none => simp [ha] at h
    | some a =>
      cases hb : env.nodeOf r.destNode with
      | none => simp [ha, hb] at h
      | some b =>
        simp only [ha, hb, Exec.ok.injEq, Option.some.injEq, and_true] at h
        rw [← h]

/-- The activity built carries the sequence number it was given. -/
theorem makeActivity_sequenceNumber (env : LoaderEnv) (g1 g2 : Nat → Int → Int → Int) (r : Row)
    (seqNo : Nat) (act : das.Activity)
    (h : PeriodicPersonLoader.makeActivity env g1 g2 r seqNo = .ok act ()) :
    act.sequenceNumber = seqNo := by
  unfold PeriodicPersonLoader.makeActivity at h
  cases hb : env.nodeOf r.destNode with
  | none => simp [hb] at h
  | some b =>
    simp only [hb, Exec.ok.injEq, and_true] at h
    rw [← h]

/-- The three shapes of what a row contributes. -/
theorem rowItems_shape (env : LoaderEnv) (i : Nat) (r : Row) (seqNo : Nat) :
    PeriodicPersonLoader.rowItems env i r seqNo = [] ∨
      (∃ trip, PeriodicPersonLoader.makeTrip env (env.rng (3 * i)) r (seqNo + 1) =
          .ok (some trip) () ∧
        PeriodicPersonLoader.rowItems env i r seqNo = [.trip trip]) ∨
      (∃ trip act, PeriodicPersonLoader.makeTrip env (env.rng (3 * i)) r (seqNo + 1) =
          .ok (some trip) () ∧
        PeriodicPersonLoader.makeActivity env (env.rng (3 * i + 1)) (env.rng (3 * i + 2)) r
          (seqNo + 2) = .ok act () ∧
        PeriodicPersonLoader.rowItems env i r seqNo = [.trip trip, .activity act]) := by
  unfold PeriodicPersonLoader.rowItems
  cases ht : PeriodicPersonLoader.makeTrip env (env.rng (3 * i)) r (seqNo + 1) with
  | undef u => left; rfl
  | thrown w u => left; rfl
  | ok o u =>
    cases u
    cases o with
    | none => left; rfl
    | some trip =>
      right
      by_cases hlast : r.departureWindow = LAST_30MIN_WINDOW_OF_DAY ∧
          r.activityType = HOME_ACTIVITY_TYPE
      · left
        exact ⟨trip, rfl, by simp [hlast]⟩
      · cases ha : PeriodicPersonLoader.makeActivity env (env.rng (3 * i + 1))
            (env.rng (3 * i + 2)) r (seqNo + 2) with
        | undef u => left; exact ⟨trip, rfl, by simp [hlast]⟩
        | thrown w u => left; exact ⟨trip, rfl, by simp [hlast]⟩
        | ok act u =>
          cases u
          right
          exact ⟨trip, act, rfl, rfl, by simp [hlast]⟩

/-- Appending what a row of the person contributes keeps a chain sound. -/
theorem chainSound_append (env : LoaderEnv) (rows : List Row) (pid : String)
    (chain : List das.TripChainItem) (i : Nat) (r : Row) (hr : rows[i]? = some r)
    (hp : r.personId = pid) (h : PeriodicPersonLoader.chainSound env rows pid chain) :
    PeriodicPersonLoader.chainSound env rows pid
      (chain ++ PeriodicPersonLoader.rowItems env i r chain.length) := by
  obtain ⟨hseq, hact⟩ := h
  have hold : ∀ (tail : List das.TripChainItem) j act, j < chain.length →
      (chain ++ tail)[j]? = some (.activity act) →
      ∃ j0 trip k r, j = j0 + 1 ∧ (chain ++ tail)[j0]? = some (.trip trip) ∧ rows[k]? = some r ∧
        r.personId = pid ∧
        PeriodicPersonLoader.makeTrip env (env.rng (3 * k)) r (j0 + 1) = .ok (some trip) () ∧
        PeriodicPersonLoader.makeActivity env (env.rng (3 * k + 1)) (env.rng (3 * k + 2)) r
          (j0 + 2) = .ok act () := by
    intro tail j act hj hget
    rw [List.getElem?_append_left hj] at hget
    obtain ⟨j0, trip, k, r0, hj0, hg0, hk, hp0, ht, ha⟩ := hact j act hget
    refine ⟨j0, trip, k, r0, hj0, ?_, hk, hp0, ht, ha⟩
    rw [List.getElem?_append_left (by omega)]
    exact hg0
  rcases rowItems_shape env i r chain.length with h0 | ⟨trip, ht, h1⟩ | ⟨trip, act, ht, ha, h2⟩
  · rw [h0, List.append_nil]
    exact ⟨hseq, hact⟩
  · rw [h1]
    constructor
    · intro j item hget
      by_cases hj : j < chain.length
      · rw [List.getElem?_append_left hj] at hget
        exact hseq j item hget
      · rw [List.getElem?_append_right (by omega)] at hget
        have hj0 : j - chain.length = 0 := by
          by_contra hne
          rw [List.getElem?_eq_none (by simp; omega)] at hget
          cases hget
        rw [hj0] at hget
        simp only [List.getElem?_cons_zero, Option.some.injEq] at hget
        subst hget
        simp only [das.TripChainItem.sequenceNumber]
        rw [makeTrip_sequenceNumber env _ r _ trip ht]
        omega
    · intro j act hget
      by_cases hj : j < chain.length
      · exact hold _ j act hj hget
      · rw [List.getElem?_append_right (by omega)] at hget
        have hj0 : j - chain.length = 0 := by
          by_contra hne
          rw [List.getElem?_eq_none (by simp; omega)] at hget
          cases hget
        rw [hj0] at hget
        simp at hget
  · rw [h2]
    constructor
    · intro j item hget
      by_cases hj : j < chain.length
      · rw [List.getElem?_append_left hj] at hget
        exact hseq j item hget
      · rw [List.getElem?_append_right (by omega)] at hget
        have hcases : j - chain.length = 0 ∨ j - chain.length = 1 := by
          by_contra hne
          rw [List.getElem?_eq_none (by simp; omega)] at hget
          cases hget
        rcases hcases with hj0 | hj1
        · rw [hj0] at hget
          simp only [List.getElem?_cons_zero, Option.some.injEq] at hget
          subst hget
          simp only [das.TripChainItem.sequenceNumber]
          rw [makeTrip_sequenceNumber env _ r _ trip ht]
          omega
        · rw [hj1] at hget
          simp only [List.getElem?_cons_succ, List.getElem?_cons_zero, Option.some.injEq] at hget
          subst hget
          simp only [das.TripChainItem.sequenceNumber]
          rw [makeActivity_sequenceNumber env _ _ r _ act ha]
          omega
    · intro j act1 hget
      by_cases hj : j < chain.length
      · exact hold _ j act1 hj hget
      · rw [List.getElem?_append_right (by omega)] at hget
        have hcases : j - chain.length = 0 ∨ j - chain.length = 1 := by
          by_contra hne
          rw [List.getElem?_eq_none (by simp; omega)] at hget
          cases hget
        rcases hcases with hj0 | hj1
        · rw [hj0] at hget
          simp at hget
        · rw [hj1] at hget
          simp only [List.getElem?_cons_succ, List.getElem?_cons_zero, Option.some.injEq,
            das.TripChainItem.activity.injEq] at hget
          subst hget
          refine ⟨chain.length, trip, i, r, by omega, ?_, hr, hp, ht, ha⟩
          rw [List.getElem?_append_right (le_refl _)]
          simp

/-- The chain that the rows describe for a person is sound. -/
theorem chainOf_sound (env : LoaderEnv) (rows : List Row) (pid : String) (rs : List Row)
    (i : Nat) (chain : List das.TripChainItem) (hrs : rows.drop i = rs)
    (h : PeriodicPersonLoader.chainSound env rows pid chain) :
    PeriodicPersonLoader.chainSound env rows pid
      (PeriodicPersonLoader.chainOf env pid i rs chain) := by
  induction rs generalizing i chain with
  | nil => exact h
  | cons r rest ih =>
    have hr : rows[i]? = some r := by
      have h0 : (rows.drop i)[0]? = some r := by rw [hrs]; simp
      rw [List.getElem?_drop] at h0
      simpa using h0
    have hrest : rows.drop (i + 1) = rest := by
      have h1 : (rows.drop i).drop 1 = rest := by rw [hrs]; rfl
      rw [List.drop_drop] at h1
      rw [← h1, Nat.add_comm]
    simp only [PeriodicPersonLoader.chainOf]
    apply ih (i + 1) _ hrest
    by_cases hp : r.personId = pid
    · rw [if_pos hp]
      exact chainSound_append env rows pid chain i r hr hp h
    · rw [if_neg hp]
      exact h

/-- C27: when the loop over the result rows completes, in every chain built
the item at position j (counting from 0) has sequence number j + 1; every
Activity stands directly behind a Trip, and both were built from one row of
that person; the loop body for a row whose origin node id equals its
destination node id completes, changes no chain and leaves the counter of
loaded activities as it was, the counter at the end being the number of rows
for which a trip was built; and the chain of each person consists of what
that person's rows contribute, in the order of the rows. -/
theorem C27_chains_from_rows (env : LoaderEnv) (rows : List Row)
    (st : List (String × List das.TripChainItem) × Nat)
    (h : PeriodicPersonLoader.addRows env 0 rows ([], 0) = .ok () st) :
    (∀ pid j item, (mapGet st.1 pid)[j]? = some item → item.sequenceNumber = j + 1) ∧
    (∀ pid j act, (mapGet st.1 pid)[j]? = some (.activity act) →
      ∃ j0 trip k r, j = j0 + 1 ∧ (mapGet st.1 pid)[j0]? = some (.trip trip) ∧
        rows[k]? = some r ∧ r.personId = pid ∧
        PeriodicPersonLoader.makeTrip env (env.rng (3 * k)) r (j0 + 1) = .ok (some trip) () ∧
        PeriodicPersonLoader.makeActivity env (env.rng (3 * k + 1)) (env.rng (3 * k + 2)) r
          (j0 + 2) = .ok act ()) ∧
    (∀ i r m n, r.originNode = r.destNode →
      PeriodicPersonLoader.addRow env i r (m, n) = .ok () (mapTouch m r.personId, n) ∧
      ∀ pid, mapGet (mapTouch m r.personId) pid = mapGet m pid) ∧
    st.2 = PeriodicPersonLoader.rowsWithTrip env 0 rows ∧
    (∀ pid, mapGet st.1 pid = PeriodicPersonLoader.chainOf env pid 0 rows []) := by
  have hchain : ∀ pid, mapGet st.1 pid = PeriodicPersonLoader.chainOf env pid 0 rows [] := by
    intro pid
    have := (addRows_ok env rows 0 ([], 0) st h pid).1
    simpa [mapGet] using this
  have hsound : ∀ pid, PeriodicPersonLoader.chainSound env rows pid (mapGet st.1 pid) := by
    intro pid
    rw [hchain pid]
    apply chainOf_sound env rows pid rows 0 [] rfl
    constructor
    · intro j item hget
      simp at hget
    · intro j act hget
      simp at hget
  refine ⟨fun pid => (hsound pid).1, fun pid => (hsound pid).2, ?_, ?_, hchain⟩
  · intro i r m n heq
    refine ⟨?_, fun pid => mapGet_mapTouch m r.personId pid⟩
    simp [PeriodicPersonLoader.addRow, PeriodicPersonLoader.makeTrip, heq]
  · have := (addRows_ok env rows 0 ([], 0) st h "").2
    simpa using this

/-- Witness for C27: the rows of person P1 for a walk to work, a stay at
node id 2 and the walk home. The loop completes with the chain Trip 1,
Activity 2, Trip 3 and two rows counted. -/
theorem C27_chains_from_rows_witness :
    ∃ st, PeriodicPersonLoader.addRows exLoaderEnv 0 [exRowWork, exRowStay, exRowHome] ([], 0) =
        .ok () st ∧
      st.2 = 2 ∧
      (mapGet st.1 "P1").map das.TripChainItem.sequenceNumber = [1, 2, 3] ∧
      (∀ j item, (mapGet st.1 "P1")[j]? = some item → item.sequenceNumber = j + 1) := by
  cases h : PeriodicPersonLoader.addRows exLoaderEnv 0 [exRowWork, exRowStay, exRowHome]
      ([], 0) with
  | undef s =>
    exfalso
    norm_num [PeriodicPersonLoader.addRows, PeriodicPersonLoader.addRow,
      PeriodicPersonLoader.makeTrip, PeriodicPersonLoader.makeSubTrip,
      PeriodicPersonLoader.makeActivity, exLoaderEnv, exRowWork, exRowStay, exRowHome, mapTouch,
      mapGet, mapSet, LAST_30MIN_WINDOW_OF_DAY, HOME_ACTIVITY_TYPE, List.lookup] at h
    cases h
  | thrown w s =>
    exfalso
    norm_num [PeriodicPersonLoader.addRows, PeriodicPersonLoader.addRow,
      PeriodicPersonLoader.makeTrip, PeriodicPersonLoader.makeSubTrip,
      PeriodicPersonLoader.makeActivity, exLoaderEnv, exRowWork, exRowStay, exRowHome, mapTouch,
      mapGet, mapSet, LAST_30MIN_WINDOW_OF_DAY, HOME_ACTIVITY_TYPE, List.lookup] at h
    cases h
  | ok u st =>
    have hc := C27_chains_from_rows exLoaderEnv [exRowWork, exRowStay, exRowHome] st h
    refine ⟨st, rfl, ?_, ?_, hc.1 "P1"⟩
    · rw [hc.2.2.2.1]
      decide
    · rw [hc.2.2.2.2 "P1"]
      norm_num [PeriodicPersonLoader.chainOf, PeriodicPersonLoader.rowItems,
        PeriodicPersonLoader.makeTrip, PeriodicPersonLoader.makeSubTrip,
        PeriodicPersonLoader.makeActivity, exLoaderEnv, exRowWork, exRowStay, exRowHome,
        LAST_30MIN_WINDOW_OF_DAY, HOME_ACTIVITY_TYPE, das.TripChainItem.sequenceNumber]

/-! ## FleetManager::dispatchTaxiAtCurrentTime -/

/-- The loop of dispatchTaxiAtCurrentTime splits the items not yet visited
by their start time. -/
theorem dispatchLoop_spec (T : Nat) (fleet res kept : List FleetManager.FleetItem) :
    FleetManager.dispatchLoop T fleet res kept =
      (res ++ fleet.filter (fun i => decide (i.startTime ≤ (T : ℚ))),
        kept ++ fleet.filter (fun i => decide ((T : ℚ) < i.startTime))) := by
  induction fleet generalizing res kept with
  | nil => simp [FleetManager.dispatchLoop]
  | cons i rest ih =>
    by_cases h : i.startTime ≤ (T : ℚ)
    · have h2 : ¬ (T : ℚ) < i.startTime := not_lt.mpr h
      simp [FleetManager.dispatchLoop, h, h2, ih]
    · have h2 : (T : ℚ) < i.startTime := not_le.mp h
      simp [FleetManager.dispatchLoop, h, h2, ih]

/-- C28: dispatchTaxiAtCurrentTime(T) returns the fleet items whose start
time is at most T, in their order in the fleet, and leaves in the fleet the
items whose start time is greater than T, in their order; a second call with
the same T directly afterwards returns an empty vector and leaves the fleet
as it is. -/
theorem C28_dispatch_taxi (T : Nat) (taxiFleet : List FleetManager.FleetItem) :
    (FleetManager.dispatchTaxiAtCurrentTime T taxiFleet).1 =
        taxiFleet.filter (fun i => decide (i.startTime ≤ (T : ℚ))) ∧
      (FleetManager.dispatchTaxiAtCurrentTime T taxiFleet).2 =
        taxiFleet.filter (fun i => decide ((T : ℚ) < i.startTime)) ∧
      FleetManager.dispatchTaxiAtCurrentTime T
          (FleetManager.dispatchTaxiAtCurrentTime T taxiFleet).2 =
        ([], (FleetManager.dispatchTaxiAtCurrentTime T taxiFleet).2) := by
  simp only [FleetManager.dispatchTaxiAtCurrentTime, dispatchLoop_spec, List.nil_append,
    List.filter_filter, true_and]
  refine Prod.ext ?_ ?_
  · simp only [List.filter_eq_nil_iff, Bool.and_eq_true, decide_eq_true_eq, not_and, not_lt]
    intro i _ hle
    exact hle
  · simp

/-- Evaluation of C28 on the sample fleet at T = 3600: the taxis T1 and T3
are returned, T2 and T4 stay, and a second call returns nothing. -/
theorem C28_dispatch_taxi_witness :
    ((FleetManager.dispatchTaxiAtCurrentTime 3600 exFleet).1.map fun i => i.vehicleNo) =
        ["T1", "T3"] ∧
      ((FleetManager.dispatchTaxiAtCurrentTime 3600 exFleet).2.map fun i => i.vehicleNo) =
        ["T2", "T4"] ∧
      (FleetManager.dispatchTaxiAtCurrentTime 3600
        (FleetManager.dispatchTaxiAtCurrentTime 3600 exFleet).2).1 = [] := by
  have h := C28_dispatch_taxi 3600 exFleet
  refine ⟨?_, ?_, by rw [h.2.2]⟩
  · rw [h.1]
    norm_num [exFleet, List.filter]
  · rw [h.2.1]
    norm_num [exFleet, List.filter]

/-! ## SplitPlan::Vote -/

/-- The loop of fmin_ID keeps in `min` the lowest index of a least value
among the indices visited. -/
theorem fmin_fold (ds : List ℚ) (len s m : Nat) (hm : m < s)
    (hle : ∀ j, j < s → ds.getD m 0 ≤ ds.getD j 0)
    (hlt : ∀ j, j < m → ds.getD m 0 < ds.getD j 0) :
    (List.range' s len).foldl
        (fun min i => if ds.getD i 0 < ds.getD min 0 then i else min) m < s + len ∧
      (∀ j, j < s + len →
        ds.getD ((List.range' s len).foldl
          (fun min i => if ds.getD i 0 < ds.getD min 0 then i else min) m) 0 ≤ ds.getD j 0) ∧
      (∀ j, j < (List.range' s len).foldl
          (fun min i => if ds.getD i 0 < ds.getD min 0 then i else min) m →
        ds.getD ((List.range' s len).foldl
          (fun min i => if ds.getD i 0 < ds.getD min 0 then i else min) m) 0 < ds.getD j 0) := by
  induction len generalizing s m with
  | zero => exact ⟨by simpa using hm, by simpa using hle, by simpa using hlt⟩
  | succ len ih =>
    simp only [List.range', List.foldl_cons]
    have hstep : s + (len + 1) = s + 1 + len := by omega
    rw [hstep]
    by_cases hc : ds.getD s 0 < ds.getD m 0
    · rw [if_pos hc]
      apply ih (s + 1) s (by omega)
      · intro j hj
        by_cases hjs : j = s
        · rw [hjs]
        · exact le_of_lt (lt_of_lt_of_le hc (hle j (by omega)))
      · intro j hj
        exact lt_of_lt_of_le hc (hle j hj)
    · rw [if_neg hc]
      apply ih (s + 1) m (by omega)
      · intro j hj
        by_cases hjs : j = s
        · rw [hjs]; exact not_lt.mp hc
        · exact hle j (by omega)
      · exact hlt

/-- The index that fmin_ID returns for a non-empty vector. -/
theorem fmin_ID_spec (ds : List ℚ) (hn : 1 ≤ ds.length) :
    SplitPlan.fmin_ID ds < ds.length ∧
      (∀ j, j < ds.length → ds.getD (SplitPlan.fmin_ID ds) 0 ≤ ds.getD j 0) ∧
      (∀ j, j < SplitPlan.fmin_ID ds → ds.getD (SplitPlan.fmin_ID ds) 0 < ds.getD j 0) := by
  have h := fmin_fold ds (ds.length - 1) 1 0 (by omega)
    (fun j hj => by
      have : j = 0 := by omega
      rw [this])
    (fun j hj => by omega)
  have hlen : 1 + (ds.length - 1) = ds.length := by omega
  rw [hlen] at h
  exact h

/-- The entries of a row with one vote. -/
theorem oneVote_getD (n id j : Nat) (hid : id < n) :
    (oneVote n id).getD j 0 = if j = id then 1 else 0 := by
  unfold oneVote
  rw [List.getD_eq_getElem?_getD, List.getElem?_set]
  by_cases hj : id = j
  · subst hj
    simp [hid]
  · have hj2 : ¬ j = id := fun h => hj h.symm
    simp only [hj, if_false, hj2]
    by_cases hjn : j < n
    · simp [List.getElem?_replicate, hjn]
    · simp [List.getElem?_replicate, hjn]

/-- The sum of a column of rows that are long enough. -/
theorem voteSum_eq (votes : List (List Int)) (id : Nat)
    (h : ∀ row ∈ votes, id < row.length) :
    SplitPlan.voteSum votes id = some (votesFor votes id) := by
  have hgen : ∀ (rows : List (List Int)) (s : Int), (∀ row ∈ rows, id < row.length) →
      rows.foldl (fun vote_sum row => vote_sum.bind fun s => (row[id]?).map fun v => s + v)
          (some s) = some (s + (rows.map fun row => row.getD id 0).sum) := by
    intro rows
    induction rows with
    | nil => intro s _; simp
    | cons row rest ih =>
      intro s hrows
      have hrow : id < row.length := hrows row (by simp)
      have hget : row[id]? = some (row.getD id 0) := by
        rw [List.getD_eq_getElem?_getD, List.getElem?_eq_getElem hrow]
        rfl
      simp only [List.foldl_cons, Option.some_bind, hget, Option.map_some', List.map_cons,
        List.sum_cons]
      rw [ih (s + row.getD id 0) (fun r hr => hrows r (by simp [hr]))]
      rw [Int.add_assoc]
  have := hgen votes 0 h
  simpa [SplitPlan.voteSum, votesFor] using this

/-- No plan has a negative number of votes in rows of single votes. -/
theorem votesFor_nonneg (n : Nat) (votes : List (List Int)) (id : Nat)
    (h : ∀ row ∈ votes, ∃ k, k < n ∧ row = oneVote n k) : 0 ≤ votesFor votes id := by
  unfold votesFor
  apply List.sum_nonneg
  intro x hx
  obtain ⟨row, hrow, rfl⟩ := List.mem_map.mp hx
  obtain ⟨k, hk, rfl⟩ := h row hrow
  rw [oneVote_getD n k id hk]
  split <;> decide

/-- The outer loop of getMaxVote keeps the lowest plan with the greatest
number of votes among the plans visited. -/
theorem getMaxVote_fold (n : Nat) (votes : List (List Int))
    (h : ∀ row ∈ votes, ∃ k, k < n ∧ row = oneVote n k) (k : Nat) (hk : k < n) :
    ∃ b : Nat, b ≤ k ∧
      (List.range (k + 1)).foldl (SplitPlan.getMaxVote.step votes) (some (-1, -1)) =
        some ((b : Int), votesFor votes b) ∧
      (∀ j, j ≤ k → votesFor votes j ≤ votesFor votes b) ∧
      (∀ j, j < b → votesFor votes j < votesFor votes b) := by
  have hsum : ∀ id, id < n → SplitPlan.voteSum votes id = some (votesFor votes id) := by
    intro id hid
    apply voteSum_eq
    intro row hrow
    obtain ⟨x, _, rfl⟩ := h row hrow
    simp [oneVote, hid]
  induction k with
  | zero =>
    refine ⟨0, le_refl 0, ?_, ?_, ?_⟩
    · have h0 := votesFor_nonneg n votes 0 h
      have hlt : (-1 : Int) < votesFor votes 0 := by omega
      simp [List.range_succ, SplitPlan.getMaxVote.step, hsum 0 hk, hlt]
    · intro j hj
      have : j = 0 := by omega
      rw [this]
    · intro j hj
      omega
  | succ k ih =>
    obtain ⟨b, hb, hfold, hle, hlt⟩ := ih (by omega)
    rw [List.range_succ, List.foldl_append, hfold]
    simp only [List.foldl_cons, List.foldl_nil, SplitPlan.getMaxVote.step, Option.some_bind,
      hsum (k + 1) hk, Option.map_some']
    by_cases hc : votesFor votes b < votesFor votes (k + 1)
    · refine ⟨k + 1, le_refl _, ?_, ?_, ?_⟩
      · simp [hc]
      · intro j hj
        by_cases hjk : j = k + 1
        · rw [hjk]
        · exact le_of_lt (lt_of_le_of_lt (hle j (by omega)) hc)
      · intro j hj
        exact lt_of_le_of_lt (hle j (by omega)) hc
    · refine ⟨b, by omega, ?_, ?_, hlt⟩
      · simp [hc]
      · intro j hj
        by_cases hjk : j = k + 1
        · rw [hjk]; exact not_lt.mp hc
        · exact hle j (by omega)

/-- The index that getMaxVote returns in a state that voting reaches. -/
theorem getMaxVote_spec (sp : SplitPlan) (hn : 1 ≤ sp.NOF_Plans) (hbig : sp.NOF_Plans < 2 ^ 31)
    (h : ∀ row ∈ sp.votes, ∃ k, k < sp.NOF_Plans ∧ row = oneVote sp.NOF_Plans k) :
    ∃ r, SplitPlan.getMaxVote sp = .ok r sp ∧ r < sp.NOF_Plans ∧
      (∀ j, j < sp.NOF_Plans → votesFor sp.votes j ≤ votesFor sp.votes r) ∧
      (∀ j, j < r → votesFor sp.votes j < votesFor sp.votes r) := by
  obtain ⟨b, hb, hfold, hle, hlt⟩ :=
    getMaxVote_fold sp.NOF_Plans sp.votes h (sp.NOF_Plans - 1) (by omega)
  have hk : sp.NOF_Plans - 1 + 1 = sp.NOF_Plans := by omega
  rw [hk] at hfold
  refine ⟨b, ?_, by omega, fun j hj => hle j (by omega), hlt⟩
  unfold SplitPlan.getMaxVote
  rw [hfold]
  simp only
  have hmod : ((b : Int) % 2 ^ 64).toNat = b := by
    have hb2 : (b : Int) < 2 ^ 64 := by
      have : b < 2 ^ 31 := by omega
      omega
    rw [Int.emod_eq_of_lt (by omega) hb2]
    simp
  rw [hmod]

/-- C29: in a state that voting reaches, with n ≥ 1 plans and a vector
maxproDS of n values, Vote records one vote, a row with the entry 1 at the
lowest index at which maxproDS is least and 0 elsewhere; keeps the five most
recent rows, dropping the oldest when a sixth arrives; and returns the lowest
index of a plan with the greatest number of votes among the rows kept, which
is below n. The state after is again one that voting reaches. -/
theorem C29_vote (sp : SplitPlan) (maxproDS : List ℚ) (hn : 1 ≤ sp.NOF_Plans)
    (hbig : sp.NOF_Plans < 2 ^ 31) (hlen : maxproDS.length = sp.NOF_Plans)
    (hs : sp.votesSound) :
    ∃ id r votes,
      id < sp.NOF_Plans ∧
      (∀ j, j < sp.NOF_Plans → maxproDS.getD id 0 ≤ maxproDS.getD j 0) ∧
      (∀ j, j < id → maxproDS.getD id 0 < maxproDS.getD j 0) ∧
      (∀ j, (oneVote sp.NOF_Plans id).getD j 0 = if j = id then 1 else 0) ∧
      votes = (sp.votes ++ [oneVote sp.NOF_Plans id]).drop (sp.votes.length + 1 - 5) ∧
      votes.length ≤ 5 ∧
      SplitPlan.Vote maxproDS sp = .ok r { sp with votes := votes } ∧
      SplitPlan.votesSound { sp with votes := votes } ∧
      r < sp.NOF_Plans ∧
      (∀ j, j < sp.NOF_Plans → votesFor votes j ≤ votesFor votes r) ∧
      (∀ j, j < r → votesFor votes j < votesFor votes r) := by
  obtain ⟨hlen5, hrows⟩ := hs
  simp only [NUMBER_OF_VOTING_CYCLES] at hlen5
  obtain ⟨hid, hmin, hlow⟩ := fmin_ID_spec maxproDS (by omega)
  rw [hlen] at hid hmin
  have hvotes : (if (sp.votes ++ [oneVote sp.NOF_Plans (SplitPlan.fmin_ID maxproDS)]).length >
        NUMBER_OF_VOTING_CYCLES then
        (sp.votes ++ [oneVote sp.NOF_Plans (SplitPlan.fmin_ID maxproDS)]).tail
      else sp.votes ++ [oneVote sp.NOF_Plans (SplitPlan.fmin_ID maxproDS)]) =
      (sp.votes ++ [oneVote sp.NOF_Plans (SplitPlan.fmin_ID maxproDS)]).drop
        (sp.votes.length + 1 - 5) := by
    simp only [NUMBER_OF_VOTING_CYCLES, List.length_append, List.length_singleton]
    by_cases h5 : sp.votes.length = 5
    · have h1 : sp.votes.length + 1 > 5 := by omega
      have h2 : sp.votes.length + 1 - 5 = 1 := by omega
      rw [if_pos h1, h2, List.drop_one]
    · have h1 : ¬ sp.votes.length + 1 > 5 := by omega
      have h2 : sp.votes.length + 1 - 5 = 0 := by omega
      rw [if_neg h1, h2, List.drop_zero]
  have hsound : ∀ row ∈ (sp.votes ++ [oneVote sp.NOF_Plans (SplitPlan.fmin_ID maxproDS)]).drop
      (sp.votes.length + 1 - 5), ∃ k, k < sp.NOF_Plans ∧ row = oneVote sp.NOF_Plans k := by
    intro row hrow
    have hmem := List.mem_of_mem_drop hrow
    rcases List.mem_append.mp hmem with h1 | h1
    · exact hrows row h1
    · exact ⟨_, hid, by simpa using h1⟩
  have hlen' : ((sp.votes ++ [oneVote sp.NOF_Plans (SplitPlan.fmin_ID maxproDS)]).drop
      (sp.votes.length + 1 - 5)).length ≤ 5 := by
    simp only [List.length_drop, List.length_append, List.length_singleton]
    omega
  obtain ⟨r, hr, hrn, hrle, hrlt⟩ := getMaxVote_spec
    ⟨sp.NOF_Plans, (sp.votes ++ [oneVote sp.NOF_Plans (SplitPlan.fmin_ID maxproDS)]).drop
        (sp.votes.length + 1 - 5)⟩ hn hbig hsound
  refine ⟨SplitPlan.fmin_ID maxproDS, r, _, hid, hmin, hlow,
    fun j => oneVote_getD _ _ j hid, rfl, hlen', ?_, ⟨hlen', hsound⟩, hrn, hrle, hrlt⟩
  unfold SplitPlan.Vote
  have hget : (List.replicate sp.NOF_Plans (0 : Int))[SplitPlan.fmin_ID maxproDS]? =
      some 0 := by
    simp [List.getElem?_replicate, hid]
  simp only [hget]
  have hone : (List.replicate sp.NOF_Plans (0 : Int)).set (SplitPlan.fmin_ID maxproDS) (0 + 1) =
      oneVote sp.NOF_Plans (SplitPlan.fmin_ID maxproDS) := by
    simp [oneVote]
  rw [hone, hvotes]
  exact hr

/-- Witness for C29: four plans with five votes kept, two for plan 0, two
for plan 2 and one for plan 3. The values 3, 1, 2, 1 are least at index 1
first, so plan 1 gets the vote, the oldest vote for plan 0 is dropped, and
plan 2 is returned. -/
theorem C29_vote_witness :
    (⟨4, [oneVote 4 0, oneVote 4 0, oneVote 4 2, oneVote 4 2, oneVote 4 3]⟩ :
        SplitPlan).votesSound ∧
      SplitPlan.Vote [3, 1, 2, 1]
          ⟨4, [oneVote 4 0, oneVote 4 0, oneVote 4 2, oneVote 4 2, oneVote 4 3]⟩ =
        .ok 2 ⟨4, [oneVote 4 0, oneVote 4 2, oneVote 4 2, oneVote 4 3, oneVote 4 1]⟩ ∧
      ∃ r votes, SplitPlan.Vote [3, 1, 2, 1]
          ⟨4, [oneVote 4 0, oneVote 4 0, oneVote 4 2, oneVote 4 2, oneVote 4 3]⟩ =
        .ok r ⟨4, votes⟩ ∧ votes.length ≤ 5 ∧ r < 4 := by
  have hs : (⟨4, [oneVote 4 0, oneVote 4 0, oneVote 4 2, oneVote 4 2, oneVote 4 3]⟩ :
      SplitPlan).votesSound := by
    refine ⟨by decide, ?_⟩
    intro row hrow
    simp only [List.mem_cons, List.mem_singleton, List.not_mem_nil, or_false] at hrow
    rcases hrow with h | h | h | h | h
    · exact ⟨0, by decide, h⟩
    · exact ⟨0, by decide, h⟩
    · exact ⟨2, by decide, h⟩
    · exact ⟨2, by decide, h⟩
    · exact ⟨3, by decide, h⟩
  obtain ⟨id, r, votes, -, -, -, -, -, hlen, hvote, -, hr, -, -⟩ :=
    C29_vote ⟨4, [oneVote 4 0, oneVote 4 0, oneVote 4 2, oneVote 4 2, oneVote 4 3]⟩ [3, 1, 2, 1]
      (by decide) (by decide) rfl hs
  refine ⟨hs, ?_, r, votes, hvote, hlen, hr⟩
  norm_num [SplitPlan.Vote, SplitPlan.fmin_ID, SplitPlan.getMaxVote, SplitPlan.getMaxVote.step,
    SplitPlan.voteSum, NUMBER_OF_VOTING_CYCLES, List.range', List.range, List.range.loop,
    oneVote, List.replicate, List.set]
  rfl

/-! ## MessageBus::SendInstantaneousMessage -/

/-- C25: when the target is registered in the context of the caller,
SendInstantaneousMessage returns normally after one invocation of the
target's HandleMessage with this type and message, whose effect is part of
the state returned, and leaves the queue of posted messages as it was; when
the target's context differs from the caller's, or the target is not
registered, it fails with an error and no handler is invoked. -/
theorem C25_send_instantaneous_message {M W : Type} (HandleMessage : Nat → Nat → M → W → W)
    (caller target type : Nat) (message : M) (bus : MessageBus M W) :
    (bus.contexts.lookup target = some caller →
      ∃ bus1, MessageBus.SendInstantaneousMessage HandleMessage caller target type message bus =
          .ok () bus1 ∧
        bus1.handlers = HandleMessage target type message bus.handlers ∧
        bus1.handled = bus.handled ++ [(target, type, message)] ∧
        bus1.outgoing = bus.outgoing ∧ bus1.contexts = bus.contexts) ∧
    (bus.contexts.lookup target ≠ some caller →
      MessageBus.SendInstantaneousMessage HandleMessage caller target type message bus =
        .thrown "CrossContext" bus) := by
  constructor
  · intro h
    refine ⟨{ bus with
        handlers := HandleMessage target type message bus.handlers
        handled := bus.handled ++ [(target, type, message)] }, ?_, rfl, rfl, rfl, rfl⟩
    simp [MessageBus.SendInstantaneousMessage, h]
  · intro h
    simp [MessageBus.SendInstantaneousMessage, h]

/-- Witness for C25: on the thread of context 7 a message of type 5 for
handler 2 is handled before the call returns, and one for handler 3, which is
registered in context 8, fails. -/
theorem C25_send_instantaneous_message_witness :
    exMessageBus.contexts.lookup 2 = some 7 ∧ exMessageBus.contexts.lookup 3 ≠ some 7 ∧
      (∃ bus1, MessageBus.SendInstantaneousMessage exHandleMessage 7 2 5 "m" exMessageBus =
          .ok () bus1 ∧ bus1.handlers = [5] ∧ bus1.handled = [(2, 5, "m")] ∧
        bus1.outgoing = []) ∧
      MessageBus.SendInstantaneousMessage exHandleMessage 7 3 5 "m" exMessageBus =
        .thrown "CrossContext" exMessageBus := by
  have h2 : exMessageBus.contexts.lookup 2 = some 7 := by decide
  have h3 : exMessageBus.contexts.lookup 3 ≠ some 7 := by decide
  obtain ⟨bus1, hb, hh, hd, ho, -⟩ :=
    (C25_send_instantaneous_message exHandleMessage 7 2 5 "m" exMessageBus).1 h2
  exact ⟨h2, h3, ⟨bus1, hb, hh, hd, ho⟩,
    (C25_send_instantaneous_message exHandleMessage 7 3 5 "m" exMessageBus).2 h3⟩

/-! ## The AIMSUN loader: references to nodes and sections -/

/-- A load step is not run after an exception. -/
theorem loadStep_thrown (db : aimsun.Database) (storedProcs : List (String × String))
    (name : String) (load : aimsun.Database → String → DatabaseLoader → Exec DatabaseLoader Unit)
    (e : String) (L : DatabaseLoader) :
    DatabaseLoader.loadStep db storedProcs name load (.thrown e L) = .thrown e L := by
  simp [DatabaseLoader.loadStep]

/-- A load step whose stored procedure is configured runs the load on it. -/
theorem loadStep_ok (db : aimsun.Database) (storedProcs : List (String × String))
    (name proc : String)
    (load : aimsun.Database → String → DatabaseLoader → Exec DatabaseLoader Unit)
    (L : DatabaseLoader) (h : storedProcs.lookup name = some proc) :
    DatabaseLoader.loadStep db storedProcs name load (.ok () L) = load db proc L := by
  simp [DatabaseLoader.loadStep, getStoredProcedure, h]

/-- LoadNetwork returns the message of an exception of the load. -/
theorem LoadNetwork_thrown (db : aimsun.Database) (storedProcs : List (String × String))
    (later : DatabaseLoader → Exec DatabaseLoader Unit) (e : String) (L : DatabaseLoader)
    (hconn : db.connect = .ok ())
    (h : DatabaseLoader.LoadBasicAimsunObjects db storedProcs DatabaseLoader.fresh =
      .thrown e L) :
    aimsun.Loader.LoadNetwork db storedProcs later = .ok e () := by
  simp [aimsun.Loader.LoadNetwork, hconn, h]

/-- The loop of LoadSections throws at a row with an unknown node. -/
theorem LoadSections_loop_dangling (rows : List aimsun.Section) (L : DatabaseLoader)
    (h : ∃ r ∈ rows, aimsun.mapCount L.nodes_ r.TMP_FromNodeID = 0 ∨
      aimsun.mapCount L.nodes_ r.TMP_ToNodeID = 0) :
    ∃ L1, DatabaseLoader.LoadSections.loop rows L = .thrown "Invalid From or To node." L1 := by
  induction rows generalizing L with
  | nil => simp at h
  | cons it rest ih =>
    unfold DatabaseLoader.LoadSections.loop
    by_cases hit : aimsun.mapCount L.nodes_ it.TMP_FromNodeID = 0 ∨
        aimsun.mapCount L.nodes_ it.TMP_ToNodeID = 0
    · exact ⟨L, by rw [if_pos hit]⟩
    · rw [if_neg hit]
      apply ih
      obtain ⟨r, hr, hd⟩ := h
      rcases List.mem_cons.mp hr with h1 | h1
      · subst h1; exact absurd hd hit
      · exact ⟨r, h1, hd⟩

/-- The loop of LoadCrossings throws at a row with an unknown section. -/
theorem LoadCrossings_loop_dangling (rows : List aimsun.Crossing) (L : DatabaseLoader)
    (h : ∃ r ∈ rows, aimsun.mapCount L.sections_ r.TMP_AtSectionID = 0) :
    ∃ L1, DatabaseLoader.LoadCrossings.loop rows L = .thrown "Crossing at Invalid Section" L1 := by
  induction rows generalizing L with
  | nil => simp at h
  | cons it rest ih =>
    unfold DatabaseLoader.LoadCrossings.loop
    by_cases hit : aimsun.mapCount L.sections_ it.TMP_AtSectionID = 0
    · exact ⟨L, by rw [if_pos hit]⟩
    · rw [if_neg hit]
      apply ih
      obtain ⟨r, hr, hd⟩ := h
      rcases List.mem_cons.mp hr with h1 | h1
      · subst h1; exact absurd hd hit
      · exact ⟨r, h1, hd⟩

/-- The loop of LoadLanes throws at a row with an unknown section. -/
theorem LoadLanes_loop_dangling (rows : List aimsun.Lane) (L : DatabaseLoader)
    (h : ∃ r ∈ rows, aimsun.mapCount L.sections_ r.TMP_AtSectionID = 0) :
    ∃ L1, DatabaseLoader.LoadLanes.loop rows L = .thrown "Lane at Invalid Section" L1 := by
  induction rows generalizing L with
  | nil => simp at h
  | cons it rest ih =>
    unfold DatabaseLoader.LoadLanes.loop
    by_cases hit : aimsun.mapCount L.sections_ it.TMP_AtSectionID = 0
    · exact ⟨L, by rw [if_pos hit]⟩
    · rw [if_neg hit]
      have hrest : ∃ r ∈ rest, aimsun.mapCount L.sections_ r.TMP_AtSectionID = 0 := by
        obtain ⟨r, hr, hd⟩ := h
        rcases List.mem_cons.mp hr with h1 | h1
        · subst h1; exact absurd hd hit
        · exact ⟨r, h1, hd⟩
      split
      · exact ih L hrest
      · exact ih _ hrest

/-- The loop of LoadPolylines throws at a row with an unknown section. -/
theorem LoadPolylines_loop_dangling (rows : List aimsun.Polyline) (L : DatabaseLoader)
    (h : ∃ r ∈ rows, aimsun.mapCount L.sections_ r.TMP_SectionId = 0) :
    ∃ L1, DatabaseLoader.LoadPolylines.loop rows L =
      .thrown "Invalid polyline section reference." L1 := by
  induction rows generalizing L with
  | nil => simp at h
  | cons it rest ih =>
    unfold DatabaseLoader.LoadPolylines.loop
    by_cases hit : aimsun.mapCount L.sections_ it.TMP_SectionId = 0
    · exact ⟨L, by rw [if_pos hit]⟩
    · rw [if_neg hit]
      apply ih
      obtain ⟨r, hr, hd⟩ := h
      rcases List.mem_cons.mp hr with h1 | h1
      · subst h1; exact absurd hd hit
      · exact ⟨r, h1, hd⟩

/-- The loop of LoadTurnings leaves the sections as they are. -/
theorem LoadTurnings_loop_sections (rows : List aimsun.Turning) (s : DatabaseLoader × List Int) :
    (DatabaseLoader.LoadTurnings.loop rows s).1.sections_ = s.1.sections_ := by
  induction rows generalizing s with
  | nil => rfl
  | cons it rest ih =>
    unfold DatabaseLoader.LoadTurnings.loop
    simp only
    split
    · rw [ih]
    · rw [ih]

/-- The loop of LoadTurnings passes over a row with an unknown section. -/
theorem LoadTurnings_loop_skip (it : aimsun.Turning) (rest : List aimsun.Turning)
    (s : DatabaseLoader × List Int)
    (h : aimsun.mapCount s.1.sections_ it.TMP_FromSection = 0 ∨
      aimsun.mapCount s.1.sections_ it.TMP_ToSection = 0) :
    DatabaseLoader.LoadTurnings.loop (it :: rest) s =
      DatabaseLoader.LoadTurnings.loop rest (s.1, s.2 ++ [it.id]) := by
  rw [DatabaseLoader.LoadTurnings.loop]
  simp only [h, if_true]

/-- The loop of LoadTurnings keeps a row whose sections are known. -/
theorem LoadTurnings_loop_keep (it : aimsun.Turning) (rest : List aimsun.Turning)
    (s : DatabaseLoader × List Int)
    (h : ¬ (aimsun.mapCount s.1.sections_ it.TMP_FromSection = 0 ∨
      aimsun.mapCount s.1.sections_ it.TMP_ToSection = 0)) :
    DatabaseLoader.LoadTurnings.loop (it :: rest) s =
      DatabaseLoader.LoadTurnings.loop rest
        ({ s.1 with
            turnings_ := aimsun.mapPut s.1.turnings_ it.id
              { it with
                fromSection := some it.TMP_FromSection
                toSection := some it.TMP_ToSection } }, s.2) := by
  rw [DatabaseLoader.LoadTurnings.loop]
  simp only [h, if_false]

/-- The loader that the loop of LoadTurnings leaves does not depend on the
ids skipped before. -/
theorem LoadTurnings_loop_skipped (rows : List aimsun.Turning) (L : DatabaseLoader)
    (sk : List Int) :
    (DatabaseLoader.LoadTurnings.loop rows (L, sk)).1 =
      (DatabaseLoader.LoadTurnings.loop rows (L, [])).1 := by
  induction rows generalizing L sk with
  | nil => rfl
  | cons it rest ih =>
    by_cases hit : aimsun.mapCount L.sections_ it.TMP_FromSection = 0 ∨
        aimsun.mapCount L.sections_ it.TMP_ToSection = 0
    · rw [LoadTurnings_loop_skip it rest (L, sk) hit, LoadTurnings_loop_skip it rest (L, []) hit]
      rw [ih L (sk ++ [it.id]), ih L ([] ++ [it.id])]
    · rw [LoadTurnings_loop_keep it rest (L, sk) hit, LoadTurnings_loop_keep it rest (L, []) hit]
      exact ih _ sk

/-- The loop of LoadTurnings passes over the rows with an unknown section:
the loader is left as by the other rows alone. -/
theorem LoadTurnings_loop_filter (rows : List aimsun.Turning) (L : DatabaseLoader)
    (secs : List (Int × aimsun.Section)) (hs : L.sections_ = secs) :
    (DatabaseLoader.LoadTurnings.loop rows (L, [])).1 =
      (DatabaseLoader.LoadTurnings.loop
        (rows.filter (aimsun.Turning.sectionsKnown secs)) (L, [])).1 := by
  induction rows generalizing L with
  | nil => rfl
  | cons it rest ih =>
    by_cases hit : aimsun.mapCount secs it.TMP_FromSection = 0 ∨
        aimsun.mapCount secs it.TMP_ToSection = 0
    · have hf : aimsun.Turning.sectionsKnown secs it = false := by
        simp only [aimsun.Turning.sectionsKnown, decide_eq_false_iff_not, not_and_or, not_not]
        exact hit
      rw [List.filter_cons, hf]
      simp only [Bool.false_eq_true, if_false]
      rw [LoadTurnings_loop_skip it rest (L, []) (by rw [hs]; exact hit)]
      rw [LoadTurnings_loop_skipped]
      exact ih L hs
    · have hf : aimsun.Turning.sectionsKnown secs it = true := by
        simp only [aimsun.Turning.sectionsKnown, decide_eq_true_eq, ne_eq]
        exact not_or.mp hit
      rw [List.filter_cons, hf]
      simp only [if_true]
      rw [LoadTurnings_loop_keep it rest (L, []) (by rw [hs]; exact hit)]
      rw [LoadTurnings_loop_keep it _ (L, []) (by rw [hs]; exact hit)]
      exact ih _ hs

/-- The ids that the loop of LoadTurnings collects in `skippedTurningIDs`
are those of the rows with an unknown section, in their order. -/
theorem LoadTurnings_loop_skippedIds (rows : List aimsun.Turning) (L : DatabaseLoader)
    (sk : List Int) (secs : List (Int × aimsun.Section)) (hs : L.sections_ = secs) :
    (DatabaseLoader.LoadTurnings.loop rows (L, sk)).2 =
      sk ++ (rows.filter fun it => !aimsun.Turning.sectionsKnown secs it).map fun it => it.id := by
  induction rows generalizing L sk with
  | nil => simp [DatabaseLoader.LoadTurnings.loop]
  | cons it rest ih =>
    by_cases hit : aimsun.mapCount secs it.TMP_FromSection = 0 ∨
        aimsun.mapCount secs it.TMP_ToSection = 0
    · have hf : aimsun.Turning.sectionsKnown secs it = false := by
        simp only [aimsun.Turning.sectionsKnown, decide_eq_false_iff_not, not_and_or, not_not]
        exact hit
      rw [LoadTurnings_loop_skip it rest (L, sk) (by rw [hs]; exact hit)]
      refine Eq.trans (ih L (sk ++ [it.id]) hs) ?_
      rw [List.filter_cons]
      simp [hf]
    · have hf : aimsun.Turning.sectionsKnown secs it = true := by
        simp only [aimsun.Turning.sectionsKnown, decide_eq_true_eq, ne_eq]
        exact not_or.mp hit
      rw [LoadTurnings_loop_keep it rest (L, sk) (by rw [hs]; exact hit)]
      refine Eq.trans (ih _ sk hs) ?_
      rw [List.filter_cons]
      simp [hf]

/-- LoadBasicAimsunObjects runs its statements in their order. -/
theorem LoadBasicAimsunObjects_steps (db : aimsun.Database)
    (storedProcs : List (String × String)) (L : DatabaseLoader) :
    DatabaseLoader.LoadBasicAimsunObjects db storedProcs L =
      DatabaseLoader.runSteps db storedProcs DatabaseLoader.loadSteps (.ok () L) := rfl

/-- No statement runs after an exception. -/
theorem runSteps_thrown (db : aimsun.Database) (storedProcs : List (String × String))
    (steps : List (String ×
      (aimsun.Database → String → DatabaseLoader → Exec DatabaseLoader Unit)))
    (e : String) (L : DatabaseLoader) :
    DatabaseLoader.runSteps db storedProcs steps (.thrown e L) = .thrown e L := by
  induction steps with
  | nil => rfl
  | cons s rest ih =>
    simp only [DatabaseLoader.runSteps, List.foldl_cons, loadStep_thrown] at ih ⊢
    exact ih

/-- An exception of the statement number `k` is the outcome of
LoadBasicAimsunObjects. -/
theorem LoadBasicAimsunObjects_thrown_at (db : aimsun.Database)
    (storedProcs : List (String × String)) (k : Nat) (name proc e : String)
    (load : aimsun.Database → String → DatabaseLoader → Exec DatabaseLoader Unit)
    (Lk L1 : DatabaseLoader) (hk : DatabaseLoader.loadSteps[k]? = some (name, load))
    (hbefore : DatabaseLoader.loadedBefore db storedProcs k = .ok () Lk)
    (hproc : storedProcs.lookup name = some proc) (hthrow : load db proc Lk = .thrown e L1) :
    DatabaseLoader.LoadBasicAimsunObjects db storedProcs DatabaseLoader.fresh = .thrown e L1 := by
  rw [LoadBasicAimsunObjects_steps]
  have hsplit : DatabaseLoader.loadSteps =
      DatabaseLoader.loadSteps.take k ++ (name, load) :: DatabaseLoader.loadSteps.drop (k + 1) := by
    have hlt : k < DatabaseLoader.loadSteps.length := by
      by_contra hge
      rw [List.getElem?_eq_none (by omega)] at hk
      cases hk
    have hget : DatabaseLoader.loadSteps[k] = (name, load) := by
      rw [List.getElem?_eq_getElem hlt] at hk
      exact Option.some.inj hk
    rw [← hget, ← List.drop_eq_getElem_cons hlt, List.take_append_drop]
  rw [hsplit]
  unfold DatabaseLoader.runSteps
  rw [List.foldl_append]
  unfold DatabaseLoader.loadedBefore DatabaseLoader.runSteps at hbefore
  rw [hbefore]
  simp only [List.foldl_cons]
  rw [loadStep_ok db storedProcs name proc load Lk hproc, hthrow]
  exact runSteps_thrown db storedProcs _ e L1

/-- LoadNetwork returns the empty string when the load and the steps after
it complete. -/
theorem LoadNetwork_ok (db : aimsun.Database) (storedProcs : List (String × String))
    (later : DatabaseLoader → Exec DatabaseLoader Unit) (L L1 : DatabaseLoader)
    (hconn : db.connect = .ok ())
    (h : DatabaseLoader.LoadBasicAimsunObjects db storedProcs DatabaseLoader.fresh = .ok () L)
    (hlater : later L = .ok () L1) :
    aimsun.Loader.LoadNetwork db storedProcs later = .ok "" () := by
  simp [aimsun.Loader.LoadNetwork, hconn, h, hlater]

/-- Counterexample to C23 as stated: in the sample database the turning 5
names the section 99, which is not among the sections loaded when the
turnings are read. The load completes without the turning, leaves the same
loader as the database without that row, and LoadNetwork returns the empty
string whenever the steps after the load complete. -/
theorem C23_counterexample :
    exDatabase.turnings "select * from get_turnings()" = .ok [⟨5, 10, 99, none, none⟩] ∧
    (∃ L, DatabaseLoader.loadedBefore exDatabase exStoredProcs 4 = .ok () L ∧
      aimsun.mapCount L.sections_ 99 = 0) ∧
    (∃ L, DatabaseLoader.LoadBasicAimsunObjects exDatabase exStoredProcs DatabaseLoader.fresh =
        .ok () L ∧ L.turnings_ = [] ∧
      DatabaseLoader.LoadBasicAimsunObjects exDatabaseNoTurning exStoredProcs
        DatabaseLoader.fresh = .ok () L ∧
      ∀ later : DatabaseLoader → Exec DatabaseLoader Unit, (∃ L1, later L = .ok () L1) →
        aimsun.Loader.LoadNetwork exDatabase exStoredProcs later = .ok "" ()) := by
  refine ⟨rfl, ⟨_, rfl, by decide⟩, ⟨_, rfl, by decide, rfl, ?_⟩⟩
  rintro later ⟨L1, h1⟩
  exact LoadNetwork_ok exDatabase exStoredProcs later _ L1 rfl rfl h1

/-- C23, amended: with the connection open, LoadNetwork returns the message
of the error whenever a section row names a from- or to-node id that is not
among the nodes loaded ("Invalid From or To node."), or a crossing, lane or
polyline row names a section id that is not among the sections loaded; a
turning row that names such a section id is not an error: LoadTurnings
completes and leaves the loader as the other turning rows alone do, and the
ids it collects for printing in skippedTurningIDs are those of the rows that
name such a section id. -/
theorem C23_dangling_references (db : aimsun.Database) (storedProcs : List (String × String))
    (later : DatabaseLoader → Exec DatabaseLoader Unit) (hconn : db.connect = .ok ()) :
    (∀ L proc rows, DatabaseLoader.loadedBefore db storedProcs 1 = .ok () L →
      storedProcs.lookup "section" = some proc →
      db.sections ("select * from " ++ proc) = .ok rows →
      (∃ r ∈ rows, aimsun.mapCount L.nodes_ r.TMP_FromNodeID = 0 ∨
        aimsun.mapCount L.nodes_ r.TMP_ToNodeID = 0) →
      aimsun.Loader.LoadNetwork db storedProcs later = .ok "Invalid From or To node." ()) ∧
    (∀ L proc rows, DatabaseLoader.loadedBefore db storedProcs 2 = .ok () L →
      storedProcs.lookup "crossing" = some proc →
      db.crossings ("select * from " ++ proc) = .ok rows →
      (∃ r ∈ rows, aimsun.mapCount L.sections_ r.TMP_AtSectionID = 0) →
      aimsun.Loader.LoadNetwork db storedProcs later = .ok "Crossing at Invalid Section" ()) ∧
    (∀ L proc rows, DatabaseLoader.loadedBefore db storedProcs 3 = .ok () L →
      storedProcs.lookup "lane" = some proc →
      db.lanes ("select * from " ++ proc) = .ok rows →
      (∃ r ∈ rows, aimsun.mapCount L.sections_ r.TMP_AtSectionID = 0) →
      aimsun.Loader.LoadNetwork db storedProcs later = .ok "Lane at Invalid Section" ()) ∧
    (∀ L proc rows, DatabaseLoader.loadedBefore db storedProcs 5 = .ok () L →
      storedProcs.lookup "polyline" = some proc →
      db.polylines ("select * from " ++ proc) = .ok rows →
      (∃ r ∈ rows, aimsun.mapCount L.sections_ r.TMP_SectionId = 0) →
      aimsun.Loader.LoadNetwork db storedProcs later =
        .ok "Invalid polyline section reference." ()) ∧
    (∀ L proc rows, db.turnings ("select * from " ++ proc) = .ok rows →
      DatabaseLoader.LoadTurnings db proc L =
        .ok () (DatabaseLoader.LoadTurnings.loop
          (rows.filter (aimsun.Turning.sectionsKnown L.sections_))
          ({ (L.prepare proc).1 with turnings_ := [] }, [])).1) ∧
    (∀ (L : DatabaseLoader) (proc : String) (rows : List aimsun.Turning),
      (DatabaseLoader.LoadTurnings.loop rows
          ({ (L.prepare proc).1 with turnings_ := [] }, [])).2 =
        (rows.filter fun it => !aimsun.Turning.sectionsKnown L.sections_ it).map
          fun it => it.id) := by
  refine ⟨?_, ?_, ?_, ?_, ?_, ?_⟩
  · intro L proc rows hbefore hproc hq hd
    have hthrow : ∃ L1, DatabaseLoader.LoadSections db proc L =
        .thrown "Invalid From or To node." L1 := by
      unfold DatabaseLoader.LoadSections
      have hq2 : db.sections (L.prepare proc).2 = .ok rows := hq
      rw [hq2]
      exact LoadSections_loop_dangling rows _ hd
    obtain ⟨L1, h1⟩ := hthrow
    exact LoadNetwork_thrown db storedProcs later _ L1 hconn
      (LoadBasicAimsunObjects_thrown_at db storedProcs 1 "section" proc _
        DatabaseLoader.LoadSections L L1 rfl hbefore hproc h1)
  · intro L proc rows hbefore hproc hq hd
    have hthrow : ∃ L1, DatabaseLoader.LoadCrossings db proc L =
        .thrown "Crossing at Invalid Section" L1 := by
      unfold DatabaseLoader.LoadCrossings
      have hq2 : db.crossings (L.prepare proc).2 = .ok rows := hq
      rw [hq2]
      exact LoadCrossings_loop_dangling rows _ hd
    obtain ⟨L1, h1⟩ := hthrow
    exact LoadNetwork_thrown db storedProcs later _ L1 hconn
      (LoadBasicAimsunObjects_thrown_at db storedProcs 2 "crossing" proc _
        DatabaseLoader.LoadCrossings L L1 rfl hbefore hproc h1)
  · intro L proc rows hbefore hproc hq hd
    have hthrow : ∃ L1, DatabaseLoader.LoadLanes db proc L =
        .thrown "Lane at Invalid Section" L1 := by
      unfold DatabaseLoader.LoadLanes
      have hq2 : db.lanes (L.prepare proc).2 = .ok rows := hq
      rw [hq2]
      exact LoadLanes_loop_dangling rows _ hd
    obtain ⟨L1, h1⟩ := hthrow
    exact LoadNetwork_thrown db storedProcs later _ L1 hconn
      (LoadBasicAimsunObjects_thrown_at db storedProcs 3 "lane" proc _
        DatabaseLoader.LoadLanes L L1 rfl hbefore hproc h1)
  · intro L proc rows hbefore hproc hq hd
    have hthrow : ∃ L1, DatabaseLoader.LoadPolylines db proc L =
        .thrown "Invalid polyline section reference." L1 := by
      unfold DatabaseLoader.LoadPolylines
      have hq2 : db.polylines (L.prepare proc).2 = .ok rows := hq
      rw [hq2]
      exact LoadPolylines_loop_dangling rows _ hd
    obtain ⟨L1, h1⟩ := hthrow
    exact LoadNetwork_thrown db storedProcs later _ L1 hconn
      (LoadBasicAimsunObjects_thrown_at db storedProcs 5 "polyline" proc _
        DatabaseLoader.LoadPolylines L L1 rfl hbefore hproc h1)
  · intro L proc rows hq
    unfold DatabaseLoader.LoadTurnings
    have hq2 : db.turnings (L.prepare proc).2 = .ok rows := hq
    rw [hq2]
    exact congrArg (Exec.ok ()) (LoadTurnings_loop_filter rows _ L.sections_ rfl)
  · intro L proc rows
    have h := LoadTurnings_loop_skippedIds rows
      { (L.prepare proc).1 with turnings_ := [] } [] L.sections_ rfl
    rw [List.nil_append] at h
    exact h

/-- Witness for C23: in the sample database with a section 12 from node 1 to
a node 7 that does not exist, LoadNetwork returns "Invalid From or To
node."; in the sample database itself LoadTurnings leaves no turning. -/
theorem C23_dangling_references_witness :
    ({ exDatabase with sections := fun _ => .ok [exSectionRow 12 "A" 1 7] } :
        aimsun.Database).connect = .ok () ∧
      aimsun.Loader.LoadNetwork
          { exDatabase with sections := fun _ => .ok [exSectionRow 12 "A" 1 7] } exStoredProcs
          DatabaseLoader.tagNodes = .ok "Invalid From or To node." () ∧
      (DatabaseLoader.LoadTurnings exDatabase "get_turnings()" DatabaseLoader.fresh).state.turnings_ =
        [] := by
  have h := C23_dangling_references
    { exDatabase with sections := fun _ => .ok [exSectionRow 12 "A" 1 7] } exStoredProcs
    DatabaseLoader.tagNodes rfl
  refine ⟨rfl, ?_, ?_⟩
  · exact h.1 _ "get_sections()" [exSectionRow 12 "A" 1 7] rfl rfl rfl
      ⟨exSectionRow 12 "A" 1 7, by simp, Or.inr (by decide)⟩
  · rw [(C23_dangling_references exDatabase exStoredProcs DatabaseLoader.tagNodes rfl).2.2.2.2.1
      DatabaseLoader.fresh "get_turnings()" [⟨5, 10, 99, none, none⟩] rfl]
    decide
/-! ## The AIMSUN loader: empty stored-procedure strings -/

/-- C30, the code at the failing input: in the sample database the sections
10, from node 2 to node 1, and 11, from node 1 to node 3, meet at node 1 and
carry the road names "" and "A". Steps 1 and 2 of DecorateAndTranslateObjects
tag node 1 as a candidate although the names differ; with the two names
exchanged they do not. -/
theorem C30_empty_road_name :
    (∃ L, (DatabaseLoader.LoadBasicAimsunObjects exDatabase exStoredProcs
          DatabaseLoader.fresh).bind (fun _ L0 => L0.tagNodes) = .ok () L ∧
        (L.nodes_.lookup 1).map (fun n => n.sectionsAtNode) = some [10, 11] ∧
        (L.sections_.lookup 10).map (fun s => (s.fromNode, s.toNode, s.roadName)) =
          some (some 2, some 1, "") ∧
        (L.sections_.lookup 11).map (fun s => (s.fromNode, s.toNode, s.roadName)) =
          some (some 1, some 3, "A") ∧
        L.tagOf 1 = some true) ∧
      (∃ L, (DatabaseLoader.LoadBasicAimsunObjects exDatabaseSwapped exStoredProcs
          DatabaseLoader.fresh).bind (fun _ L0 => L0.tagNodes) = .ok () L ∧
        (L.nodes_.lookup 1).map (fun n => n.sectionsAtNode) = some [10, 11] ∧
        (L.sections_.lookup 10).map (fun s => (s.fromNode, s.toNode, s.roadName)) =
          some (some 2, some 1, "A") ∧
        (L.sections_.lookup 11).map (fun s => (s.fromNode, s.toNode, s.roadName)) =
          some (some 1, some 3, "") ∧
        L.tagOf 1 = some false) :=
  ⟨⟨_, rfl, by decide, by decide, by decide, by decide⟩,
    ⟨_, rfl, by decide, by decide, by decide, by decide⟩⟩

/-! ## BusStopAgent: the capacity in the arithmetic of double -/

/-- Without rounding the rounded calls are the exact ones. -/
theorem callRounded_id {W : Type} (world : BusStopWorld W) (c : BusStopCall)
    (s : BusStopAgent × W) :
    BusStopAgent.callRounded id world c s = BusStopAgent.call world c s := by
  cases c with
  | acceptBusDriver d => cases d <;> rfl
  | removeBusDriver d => cases d <;> rfl
  | HandleMessage m => cases m <;> rfl

/-- One rounded acceptBusDriver decides and lists as the exact one does, and
stores the exact length rounded. -/
theorem acceptBusDriverRounded_parts {W : Type} (fl : ℚ → ℚ) (world : BusStopWorld W)
    (d : Option Nat) (a : BusStopAgent) :
    (BusStopAgent.acceptBusDriverRounded fl world d a).1 =
        (BusStopAgent.acceptBusDriver world d a).1 ∧
      (BusStopAgent.acceptBusDriverRounded fl world d a).2.servingDrivers =
        (BusStopAgent.acceptBusDriver world d a).2.servingDrivers ∧
      ((BusStopAgent.acceptBusDriver world d a).1 = true →
        (BusStopAgent.acceptBusDriverRounded fl world d a).2.availableLength =
          fl (BusStopAgent.acceptBusDriver world d a).2.availableLength) := by
  cases d with
  | none => simp [BusStopAgent.acceptBusDriverRounded, BusStopAgent.acceptBusDriver]
  | some x =>
    by_cases hfit : a.availableLength ≥ world.lengthCm x
    · simp [BusStopAgent.acceptBusDriverRounded, BusStopAgent.acceptBusDriver, hfit]
    · simp [BusStopAgent.acceptBusDriverRounded, BusStopAgent.acceptBusDriver, hfit]

end sim_mob
